import Mathlib

/-!
# BlockChainReto: election service and voter identity gate

A shallow embedding of

* `src/models/Election.js` (the Election schema),
* `src/controllers/electionController.js` (`createElection`, `castVote`, `getResults`),
* `src/client/src/components/auth/IdLogin.js` (`validateCedula`),
* `src/server/models/Admin.js` (the Admin schema, its save hook and its methods),
* `src/server/controllers/adminController.js` (`login`, `getNonce`, `verifySignature`,
  `getProfile`),
* `src/server/middlewares/adminAuth.js` and `src/server/routes/admin.js` (the two
  `adminAuth` middlewares and the profile route),
* `src/scripts/createAdmin.js` (`createAdmin`),
* `src/client/src/components/admin/ManageVoters.js` (address check, bulk parsing, the
  three handlers and the gating of the buttons),
* `src/client/src/components/admin/AdminDashboard.js` (permission-gated buttons,
  `handleEndElection`, `handleFinalizeResults`, `getStatusBadge`),
* `src/client/src/components/auth/IdLogin.js` (`handleCedulaChange`, `handleSubmit`),
* `src/client/src/App.js` (`login`, `logout`),

followed by the theorems that settle the specification's statements about them.

Conventions of the embedding.

* A collection is a list of documents and a document's id is its position in the
  collection: the store assigns ids at insertion and the sources never delete an
  election, a vote or a voter, so positions are stable.
* Dates are integers (milliseconds since the epoch), compared as JavaScript compares
  `Date` values; a value casts to a `Date` when it lies within 8.64e15 milliseconds of
  the epoch.
* Vote counters and their totals are JavaScript Numbers (`JsNumber`): doubles, with the
  two infinities and NaN, and an addition that rounds to the nearest double as the
  source's `+` does. Percentages are exact rationals (`ExactNumber`): the source
  computes the quotient and the product in double precision, which differs from the
  exact value only by floating-point rounding; a division by zero or of infinities
  gives an infinity or NaN as in the source.
* Every awaited store operation either completes or throws; which ones throw in a
  given request is a parameter (`DbFaults`) of the handler, and a throw is caught by
  the handler's `try/catch`, which answers 500. The text of the caught error
  (`error.message`) is chosen by the driver and is not modelled.
* Functions of the language and of libraries that the sources only call (lower-casing,
  the password hash, signature recovery, the token library) are parameters of the
  embedding, collected in `Libs`; theorems hold for every choice of them.
* A client component is its state together with its handlers; a handler returns the new
  state and the effects it had (requests, toasts), the reply to a request being a
  parameter. Requests are handled one after another; interleavings of requests in
  flight are not modelled.
-/

namespace BlockChainReto

/-! ## JavaScript Numbers -/

/-- A JavaScript Number. A finite one is the fraction `numerator / 2 ^ scale` (every
double is such a fraction); the results of the operations are in lowest terms, so an
integer has scale 0. The two zeros are not told apart. -/
inductive JsNumber where
  | finite (numerator : Int) (scale : Nat)
  | infinity (negative : Bool)
  | nan
  deriving DecidableEq, Repr

/-- The number of binary digits of `n`, given `fuel` not below that number. -/
def bitLengthAux : Nat → Nat → Nat
  | 0, _ => 0
  | fuel + 1, n => if n = 0 then 0 else bitLengthAux fuel (n / 2) + 1

/-- The number of binary digits of a natural number: 0 for 0, and `k + 1` for a number
from `2 ^ k` up to `2 ^ (k + 1) - 1`. -/
def bitLength (n : Nat) : Nat := bitLengthAux n n

/-- The fraction `numerator / 2 ^ scale` in lowest terms. -/
def reduceScale : Int → Nat → JsNumber
  | n, 0 => JsNumber.finite n 0
  | n, k + 1 => if n % 2 = 0 then reduceScale (n / 2) k else JsNumber.finite n (k + 1)

/-- The double nearest to the exact value `numerator / 2 ^ scale`, ties going to the
even significand (the rounding of IEEE 754 arithmetic). With the leading binary digit
of the value at `2 ^ exponent`, a double keeps the 53 digits down to `2 ^ unit` (down to
`2 ^ (-1074)` for subnormal values); the digits below are rounded away, and a result of
`2 ^ 1024` or more is an infinity. -/
def roundDouble (numerator : Int) (scale : Nat) : JsNumber :=
  let magnitude := numerator.natAbs
  if magnitude = 0 then JsNumber.finite 0 0
  else
    let exponent : Int := (bitLength magnitude : Int) - 1 - (scale : Int)
    let unit : Int := max exponent (-1022) - 52
    let dropped : Int := (scale : Int) + unit
    if dropped ≤ 0 then reduceScale numerator scale
    else
      let q := magnitude / 2 ^ dropped.toNat
      let r := magnitude % 2 ^ dropped.toNat
      let half := 2 ^ (dropped.toNat - 1)
      let rounded := if half < r ∨ (r = half ∧ q % 2 = 1) then q + 1 else q
      let signed : Int := if numerator < 0 then -(rounded : Int) else (rounded : Int)
      if 1025 ≤ (bitLength rounded : Int) + unit then JsNumber.infinity (decide (numerator < 0))
      else if 0 ≤ unit then JsNumber.finite (signed * 2 ^ unit.toNat) 0
      else reduceScale signed (-unit).toNat

/-- The operator `+` on two Numbers: the exact sum rounded to the nearest double; an
infinity absorbs a finite number, opposite infinities give NaN, NaN gives NaN. -/
def jsAdd : JsNumber → JsNumber → JsNumber
  | JsNumber.finite a j, JsNumber.finite b k =>
    roundDouble (a * 2 ^ (max j k - j) + b * 2 ^ (max j k - k)) (max j k)
  | JsNumber.finite _ _, JsNumber.infinity t => JsNumber.infinity t
  | JsNumber.finite _ _, JsNumber.nan => JsNumber.nan
  | JsNumber.infinity s, JsNumber.finite _ _ => JsNumber.infinity s
  | JsNumber.infinity s, JsNumber.infinity t =>
    if s = t then JsNumber.infinity s else JsNumber.nan
  | JsNumber.infinity _, JsNumber.nan => JsNumber.nan
  | JsNumber.nan, _ => JsNumber.nan

/-- The sum of two Numbers is written `a + b`, as in the source. -/
instance : Add JsNumber := ⟨jsAdd⟩

/-- The integer `z` as a Number. -/
def JsNumber.ofInt (z : Int) : JsNumber := JsNumber.finite z 0

/-- The natural number `n` as a Number. -/
def JsNumber.ofNat (n : Nat) : JsNumber := JsNumber.finite (n : Int) 0

/-- A numeral is the integer Number it denotes. -/
instance (n : Nat) : OfNat JsNumber n := ⟨JsNumber.ofNat n⟩

/-- The exact value of a finite Number (0 for an infinity and for NaN). -/
def JsNumber.value : JsNumber → ℚ
  | JsNumber.finite n k => (n : ℚ) / 2 ^ k
  | JsNumber.infinity _ => 0
  | JsNumber.nan => 0

/-- The comparison `x > 0` on a Number (false for NaN). -/
def JsNumber.greaterThanZero : JsNumber → Bool
  | JsNumber.finite n _ => decide (0 < n)
  | JsNumber.infinity negative => !negative
  | JsNumber.nan => false

/-- The value of an arithmetic expression kept exact: a rational, an infinity or NaN. -/
inductive ExactNumber where
  | finite (value : ℚ)
  | infinity (negative : Bool)
  | nan
  deriving DecidableEq, Repr

/-- The operator `/` on two Numbers, the quotient of finite numbers kept exact: a
non-zero number over zero is an infinity, zero over zero and an infinity over an
infinity are NaN, a finite number over an infinity is zero. -/
def jsDivide : JsNumber → JsNumber → ExactNumber
  | JsNumber.finite a j, JsNumber.finite b k =>
    if b = 0 then
      if a = 0 then ExactNumber.nan else ExactNumber.infinity (decide (a < 0))
    else ExactNumber.finite (((a : ℚ) / 2 ^ j) / ((b : ℚ) / 2 ^ k))
  | JsNumber.finite _ _, JsNumber.infinity _ => ExactNumber.finite 0
  | JsNumber.finite _ _, JsNumber.nan => ExactNumber.nan
  | JsNumber.infinity s, JsNumber.finite b _ => ExactNumber.infinity (s != decide (b < 0))
  | JsNumber.infinity _, JsNumber.infinity _ => ExactNumber.nan
  | JsNumber.infinity _, JsNumber.nan => ExactNumber.nan
  | JsNumber.nan, _ => ExactNumber.nan

/-- The product `x * 100`, kept exact. -/
def timesHundred : ExactNumber → ExactNumber
  | ExactNumber.finite q => ExactNumber.finite (q * 100)
  | ExactNumber.infinity s => ExactNumber.infinity s
  | ExactNumber.nan => ExactNumber.nan

/-! ## Data model -/

/-- The `status` enum of the Election schema. -/
inductive ElectionStatus where
  | pending
  | active
  | completed
  deriving DecidableEq, Repr

/-- An entry of `electionSchema.candidates`: `name`, optional `description`,
and the counter `votes`. -/
structure Candidate where
  name : String
  description : Option String
  votes : JsNumber
  deriving DecidableEq, Repr

/-- A document of the Election collection (`src/models/Election.js`). -/
structure Election where
  title : String
  description : String
  startDate : Int
  endDate : Int
  candidates : List Candidate
  status : ElectionStatus
  contractAddress : String
  createdAt : Int
  deriving DecidableEq, Repr

/-- A document of the Vote collection, with the fields `castVote` passes to
`new Vote(...)`: the election id, the voter id, the chosen candidate index as
received, the signature and the transaction hash. -/
structure Vote where
  election : Nat
  voter : Nat
  candidateId : Int
  signature : String
  transactionHash : String
  deriving DecidableEq, Repr

/-- Modelled from the spec: the Voter model (`models/Voter.js`) is required by the
controller but is not among the sources. The spec gives a voter a wallet-style
address and a has-voted flag; `castVote` only ever writes `hasVoted`. -/
structure Voter where
  address : String
  hasVoted : Bool
  deriving DecidableEq, Repr

/-- The persistent store: one collection each for elections, votes and voters. -/
structure Store where
  elections : List Election
  votes : List Vote
  voters : List Voter
  deriving DecidableEq, Repr

/-- Which awaited store operations throw during one request. -/
structure DbFaults where
  findElection : Bool
  findVote : Bool
  saveVote : Bool
  saveElection : Bool
  updateVoter : Bool
  deriving DecidableEq, Repr

/-- No store operation throws. -/
def DbFaults.none : DbFaults :=
  { findElection := false, findVote := false, saveVote := false,
    saveElection := false, updateVoter := false }

/-! ## `castVote` -/

/-- What `castVote` reads from the request: `req.params.id`, `req.voter.id`,
`req.body.candidateId` and `req.body.signature`. -/
structure VoteRequest where
  electionId : Nat
  voterId : Nat
  candidateId : Int
  signature : String
  deriving DecidableEq, Repr

/-- The answer of `castVote`: the HTTP status, the `message` of the body and,
on success, the stored vote. -/
structure VoteResponse where
  status : Nat
  message : String
  vote : Option Vote
  deriving DecidableEq, Repr

/-- The answer of the `catch` branch of `castVote`. -/
def castVoteError : VoteResponse :=
  { status := 500, message := "Error casting vote", vote := none }

/-- JavaScript indexing `election.candidates[candidateId]`: the element at a
non-negative index inside the list, `undefined` otherwise. -/
def candidateAt (candidates : List Candidate) (candidateId : Int) : Option Candidate :=
  if 0 ≤ candidateId then candidates[candidateId.toNat]? else none

/-- The query `Vote.findOne({ election: electionId, voter: voterId })`. -/
def findOneVote (votes : List Vote) (electionId voterId : Nat) : Option Vote :=
  votes.find? (fun v => v.election == electionId && v.voter == voterId)

/-- The update `Voter.findByIdAndUpdate(voterId, { hasVoted: true })`: sets the flag of the
voter with that id, and does nothing when there is no such voter. -/
def findByIdAndUpdateHasVoted (voters : List Voter) (voterId : Nat) : List Voter :=
  match voters[voterId]? with
  | some v => voters.set voterId { v with hasVoted := true }
  | none => voters

/-- The last two statements of `castVote`: flag the voter, then answer 201. -/
def castVoteFinish (db : DbFaults) (vote : Vote) (voterId : Nat) (s : Store) :
    VoteResponse × Store :=
  if db.updateVoter then (castVoteError, s)
  else
    ({ status := 201, message := "Vote cast successfully", vote := some vote },
     { s with voters := findByIdAndUpdateHasVoted s.voters voterId })

/-- The handler `exports.castVote` of `electionController.js`, at request time `now`
(the value of `new Date()`). -/
def castVote (db : DbFaults) (now : Int) (req : VoteRequest) (s : Store) :
    VoteResponse × Store :=
  if db.findElection then (castVoteError, s)
  else
    match s.elections[req.electionId]? with
    | none => ({ status := 404, message := "Election not found", vote := none }, s)
    | some election =>
      if now < election.startDate ∨ now > election.endDate then
        ({ status := 400, message := "Election is not active", vote := none }, s)
      else if db.findVote then (castVoteError, s)
      else
        match findOneVote s.votes req.electionId req.voterId with
        | some _ =>
          ({ status := 400, message := "You have already voted in this election",
             vote := none }, s)
        | none =>
          let vote : Vote :=
            { election := req.electionId, voter := req.voterId,
              candidateId := req.candidateId, signature := req.signature,
              transactionHash := "pending" }
          if db.saveVote then (castVoteError, s)
          else
            let s1 : Store := { s with votes := s.votes ++ [vote] }
            match candidateAt election.candidates req.candidateId with
            | some candidate =>
              if db.saveElection then (castVoteError, s1)
              else
                let election1 : Election :=
                  { election with
                    candidates := election.candidates.set req.candidateId.toNat
                      { candidate with votes := candidate.votes + 1 } }
                castVoteFinish db vote req.voterId
                  { s1 with elections := s1.elections.set req.electionId election1 }
            | none => castVoteFinish db vote req.voterId s1

/-- A sequence of `castVote` requests handled one after another; each request
comes with its own faults and request time. -/
def castVotes : List (DbFaults × Int × VoteRequest) → Store → Store
  | [], s => s
  | (db, now, req) :: rest, s => castVotes rest (castVote db now req s).2

/-! ## `createElection` -/

/-- An element of `req.body.candidates`; every field may be absent. A `votes` value is
the number its literal denotes, which reading the body rounds to the nearest double;
`nan` stands for a value that does not convert to a number. -/
structure CandidateInput where
  name : Option String
  description : Option String
  votes : Option JsNumber
  deriving DecidableEq, Repr

/-- The fields `createElection` reads from `req.body`; every field may be absent
(an absent `candidates` gives the empty array). A date is given by its time value in
milliseconds. -/
structure ElectionBody where
  title : Option String
  description : Option String
  startDate : Option Int
  endDate : Option Int
  candidates : List CandidateInput
  contractAddress : Option String
  deriving DecidableEq, Repr

/-- The answer of `createElection`. -/
structure CreateResponse where
  status : Nat
  message : String
  election : Option Election
  deriving DecidableEq, Repr

/-- JavaScript white space and line terminators: the characters removed by
`String.prototype.trim` and matched by the regular-expression class `\s`. -/
def isJsSpace (c : Char) : Bool :=
  let n := c.toNat
  n == 0x09 || n == 0x0A || n == 0x0B || n == 0x0C || n == 0x0D || n == 0x20 ||
  n == 0xA0 || n == 0x1680 || (0x2000 ≤ n && n ≤ 0x200A) || n == 0x2028 ||
  n == 0x2029 || n == 0x202F || n == 0x205F || n == 0x3000 || n == 0xFEFF

/-- The function `String.prototype.trim`, the setter of `trim: true`. -/
def jsTrim (s : String) : String :=
  String.mk (((s.toList.dropWhile isJsSpace).reverse.dropWhile isJsSpace).reverse)

/-- The `required: true` validator on a string path: present and not empty. -/
def requiredString : Option String → Option String
  | some v => if v = "" then none else some v
  | none => none

/-- The cast of a `votes` value to the schema's `Number`: a number is kept, as the
double it is read as; NaN fails the cast. -/
def castNumber : JsNumber → Option JsNumber
  | JsNumber.finite n k => some (roundDouble n k)
  | JsNumber.infinity negative => some (JsNumber.infinity negative)
  | JsNumber.nan => none

/-- Casting and validation of one candidate sub-document: `name` is required,
`votes` is cast to a Number and defaults to 0. -/
def castCandidate (c : CandidateInput) : Option Candidate :=
  match requiredString c.name, c.votes with
  | some name, none => some { name := name, description := c.description, votes := 0 }
  | some name, some value =>
    match castNumber value with
    | some votes => some { name := name, description := c.description, votes := votes }
    | none => none
  | none, _ => none

/-- Casting and validation of the `candidates` array: valid when every element is. -/
def castCandidates : List CandidateInput → Option (List Candidate)
  | [] => some []
  | c :: rest =>
    match castCandidate c, castCandidates rest with
    | some candidate, some candidates => some (candidate :: candidates)
    | _, _ => none

/-- The cast of a date path: a time value is a `Date` when it lies within 8.64e15
milliseconds of the epoch; beyond that the `Date` is invalid and the cast fails. -/
def castDate (value : Int) : Option Int :=
  if value.natAbs ≤ 8640000000000000 then some value else none

/-- The constructor call `new Election({...})` followed by the schema validation that
`save` runs:
`some` document when it is valid, `none` when a cast or the validation fails. -/
def newElection (now : Int) (body : ElectionBody) : Option Election :=
  match requiredString (body.title.map jsTrim), requiredString body.description,
      body.startDate.bind castDate, body.endDate.bind castDate,
      castCandidates body.candidates, requiredString body.contractAddress with
  | some title, some description, some startDate, some endDate, some candidates,
      some contractAddress =>
    some { title := title, description := description, startDate := startDate,
           endDate := endDate, candidates := candidates, status := ElectionStatus.pending,
           contractAddress := contractAddress, createdAt := now }
  | _, _, _, _, _, _ => none

/-- The answer of the `catch` branch of `createElection`. -/
def createElectionError : CreateResponse :=
  { status := 500, message := "Error creating election", election := none }

/-- The handler `exports.createElection`: build the document, save it (validation, then the
unique index on `contractAddress`), answer 201; any throw answers 500. -/
def createElection (db : DbFaults) (now : Int) (body : ElectionBody) (s : Store) :
    CreateResponse × Store :=
  match newElection now body with
  | none => (createElectionError, s)
  | some election =>
    if db.saveElection then (createElectionError, s)
    else if s.elections.any (fun e => e.contractAddress == election.contractAddress) then
      (createElectionError, s)
    else
      ({ status := 201, message := "Election created successfully",
         election := some election },
       { s with elections := s.elections ++ [election] })

/-! ## `getResults` -/

/-- An element of `candidates` in the body of `getResults`. -/
structure CandidateResult where
  name : String
  description : Option String
  votes : JsNumber
  percentage : ExactNumber
  deriving DecidableEq, Repr

/-- The `election` object in the body of `getResults`. -/
structure ElectionSummary where
  id : Nat
  title : String
  description : String
  status : ElectionStatus
  totalVotes : JsNumber
  deriving DecidableEq, Repr

/-- The answer of `getResults`: the results (`res.json`, status 200,
`success: true`) or a failure with its status and message (`success: false`). -/
inductive ResultsResponse where
  | results (election : ElectionSummary) (candidates : List CandidateResult)
  | failure (status : Nat) (message : String)
  deriving DecidableEq, Repr

/-- The sum `election.candidates.reduce((sum, candidate) => sum + candidate.votes, 0)`. -/
def totalVotes (candidates : List Candidate) : JsNumber :=
  candidates.foldl (fun sum candidate => sum + candidate.votes) 0

/-- The expression `totalVotes > 0 ? (candidate.votes / totalVotes) * 100 : 0`. -/
def percentage (votes total : JsNumber) : ExactNumber :=
  if total.greaterThanZero then timesHundred (jsDivide votes total)
  else ExactNumber.finite 0

/-- The `candidates` array of the results: one entry per candidate, in list order. -/
def candidateResults (candidates : List Candidate) : List CandidateResult :=
  candidates.map (fun candidate =>
    { name := candidate.name, description := candidate.description,
      votes := candidate.votes,
      percentage := percentage candidate.votes (totalVotes candidates) })

/-- The handler `exports.getResults` of `electionController.js` for `req.params.id = id`. -/
def getResults (db : DbFaults) (id : Nat) (s : Store) : ResultsResponse × Store :=
  if db.findElection then (ResultsResponse.failure 500 "Error fetching results", s)
  else
    match s.elections[id]? with
    | none => (ResultsResponse.failure 404 "Election not found", s)
    | some election =>
      (ResultsResponse.results
        { id := id, title := election.title, description := election.description,
          status := election.status, totalVotes := totalVotes election.candidates }
        (candidateResults election.candidates), s)

/-! ## `validateCedula` -/

/-- The replacement `value.replace(/[-\s]/g, '')`: drop every hyphen and white-space
character. -/
def cleanCedula (value : String) : String :=
  String.mk (value.toList.filter (fun c => !(c == '-' || isJsSpace c)))

/-- The test `/^\d+$/`: one or more characters, all of them decimal digits. -/
def onlyDigits (value : String) : Bool :=
  !value.toList.isEmpty && value.toList.all Char.isDigit

/-- The test `/^(012|402)\d{8}$/`: one of the two prefixes, then exactly eight
decimal digits. -/
def cedulaRegex (value : String) : Bool :=
  match value.toList with
  | a :: b :: c :: rest =>
    ((a == '0' && b == '1' && c == '2') || (a == '4' && b == '0' && c == '2')) &&
      rest.length == 8 && rest.all Char.isDigit
  | _ => false

/-- The function `validateCedula` of `IdLogin.js`. The length test counts characters; it is
reached only for strings of ASCII digits, where characters and UTF-16 code units
coincide. -/
def validateCedula (value : String) : Bool :=
  let cleanValue := cleanCedula value
  if !onlyDigits cleanValue then false
  else cedulaRegex cleanValue && cleanValue.length == 11

/-! ## Admin model and library functions -/

/-- The `permissions` record of the Admin schema (`src/server/models/Admin.js`). -/
structure Permissions where
  canViewDashboard : Bool
  canCreateElections : Bool
  canManageElections : Bool
  canManageVoters : Bool
  canFinalizeResults : Bool
  canViewReports : Bool
  canManageAdmins : Bool
  deriving DecidableEq, Repr

/-- A document of the Admin collection. The id of an admin is its position in the
collection, as for the other collections. -/
structure Admin where
  name : String
  username : String
  password : String
  walletAddress : Option String
  permissions : Permissions
  createdAt : Int
  deriving DecidableEq, Repr

/-- The Admin collection, the only collection the admin service reads and writes. -/
structure AdminStore where
  admins : List Admin
  deriving DecidableEq, Repr

/-- Which awaited operations on the Admin collection throw during one request. -/
structure AdminFaults where
  findAdmin : Bool
  saveAdmin : Bool
  deriving DecidableEq, Repr

/-- No operation on the Admin collection throws. -/
def AdminFaults.none : AdminFaults := { findAdmin := false, saveAdmin := false }

/-- A value used as a document id: one that casts to an ObjectId (and then names the
document at that position, if any), one that does not, or `undefined`. -/
inductive IdValue where
  | objectId (n : Nat)
  | other (s : String)
  | undefined
  deriving DecidableEq, Repr

/-- The object a token carries: `id`, `username`, `type` and any further claims put
there by whoever signed it (`iat` and `exp`, which the token library adds and checks
itself, are not listed). -/
structure TokenPayload where
  id : IdValue
  username : Option String
  type : Option String
  extra : List (String × String)
  deriving DecidableEq, Repr

/-- The outcome of `jwt.verify(token, secret)`: the decoded payload, a
`TokenExpiredError`, or any other error. -/
inductive JwtResult where
  | ok (decoded : TokenPayload)
  | expired
  | invalid
  deriving DecidableEq, Repr

/-- The functions the admin service takes from the language and from its libraries.
The sources only call them, so they are parameters of the embedding:
`String.prototype.toLowerCase`; `bcrypt.hash(data, salt)` and
`bcrypt.compare(data, encrypted)`; `ethers.utils.verifyMessage(message, signature)`,
`none` when it throws; `jwt.sign(payload, secret, options)` with the value of
`expiresIn`, at a given time; `jwt.verify(token, secret)` at a given time. -/
structure Libs where
  toLowerCase : String → String
  bcryptHash : String → String → String
  bcryptCompare : String → String → Bool
  verifyMessage : String → String → Option String
  jwtSign : TokenPayload → String → String → Int → String
  jwtVerify : String → String → Int → JwtResult

/-- The signing secret `process.env.JWT_SECRET || 'blockchain_secret_key'`. -/
def jwtSecret (env : Option String) : String :=
  match env with
  | some v => if v = "" then "blockchain_secret_key" else v
  | none => "blockchain_secret_key"

/-- The payload that `generateAuthToken` passes to `jwt.sign`. -/
def authTokenPayload (id : Nat) (admin : Admin) : TokenPayload :=
  { id := IdValue.objectId id, username := some admin.username, type := some "admin",
    extra := [] }

/-- The method `generateAuthToken` of the Admin model, called at time `now` on the
admin stored at position `id`. -/
def generateAuthToken (libs : Libs) (env : Option String) (now : Int) (id : Nat)
    (admin : Admin) : String :=
  libs.jwtSign (authTokenPayload id admin) (jwtSecret env) "24h" now

/-- The method `comparePassword` of the Admin model. -/
def comparePassword (libs : Libs) (admin : Admin) (candidatePassword : String) : Bool :=
  libs.bcryptCompare candidatePassword admin.password

/-- The query `Admin.findOne(filter)`: the first admin that satisfies the filter, with
its id; `start` is the id of the head of the list. -/
def findOneAdmin (filter : Admin → Bool) : List Admin → Nat → Option (Nat × Admin)
  | [], _ => none
  | admin :: rest, start =>
    if filter admin then some (start, admin) else findOneAdmin filter rest (start + 1)

/-- The outcome of `Admin.findById(id)`: the query throws (the store fails, or the id
does not cast to an ObjectId), or it completes with the admin or with `null`. -/
inductive FindResult where
  | threw
  | found (admin : Option (Nat × Admin))
  deriving DecidableEq, Repr

/-- The query `Admin.findById(id)`. -/
def findById (db : AdminFaults) (admins : List Admin) (id : IdValue) : FindResult :=
  match id with
  | IdValue.other _ => FindResult.threw
  | IdValue.undefined => if db.findAdmin then FindResult.threw else FindResult.found none
  | IdValue.objectId n =>
    if db.findAdmin then FindResult.threw
    else
      match admins[n]? with
      | some admin => FindResult.found (some (n, admin))
      | none => FindResult.found none

/-! ## Admin controller -/

/-- The `admin` object in the answers of `login`, `verifySignature` and `getProfile`. -/
structure AdminProfile where
  id : Nat
  name : String
  username : String
  walletAddress : Option String
  permissions : Permissions
  deriving DecidableEq, Repr

/-- An answer of the admin service: the HTTP status and the fields of the JSON body. -/
structure AdminResponse where
  status : Nat
  success : Bool
  message : Option String
  token : Option String
  admin : Option AdminProfile
  deriving DecidableEq, Repr

/-- The `admin` object built from a stored admin. -/
def adminProfile (id : Nat) (admin : Admin) : AdminProfile :=
  { id := id, name := admin.name, username := admin.username,
    walletAddress := admin.walletAddress, permissions := admin.permissions }

/-- A field of a JSON body as `login` tests and uses it: absent, or a falsy value that
is not a string (`null`, `0`, `false`); a string; or a truthy value that is not a string
(a non-zero number, `true`, an object, an array). -/
inductive BodyField where
  | missing
  | text (value : String)
  | other
  deriving DecidableEq, Repr

/-- The test `!field`: true for an absent or falsy value and for the empty string. -/
def BodyField.falsy : BodyField → Bool
  | BodyField.missing => true
  | BodyField.text value => value == ""
  | BodyField.other => false

/-- The fields `login` reads from `req.body`. -/
structure LoginBody where
  username : BodyField
  password : BodyField
  deriving DecidableEq, Repr

/-- The cast of a `username` value in the filter of a query: the model applies the
setters of the schema path, `trim: true` and `lowercase: true`, to the value of the
filter as it does to the value of a document. -/
def castUsername (libs : Libs) (value : String) : String :=
  libs.toLowerCase (jsTrim value)

/-- The answer of the `catch` branch of `login`. -/
def loginError : AdminResponse :=
  { status := 500, success := false, message := some "Error en el servidor",
    token := none, admin := none }

/-- The handler `adminController.login` at time `now`. It does not write to the store.
The call `username.toLowerCase()` throws when `username` is not a string, and
`bcrypt.compare` throws when the password is not a string; a throw is caught and
answered 500. -/
def login (libs : Libs) (db : AdminFaults) (env : Option String) (now : Int)
    (body : LoginBody) (s : AdminStore) : AdminResponse × AdminStore :=
  if body.username.falsy || body.password.falsy then
    ({ status := 400, success := false,
       message := some "Se requiere nombre de usuario y contraseña",
       token := none, admin := none }, s)
  else
    match body.username with
    | BodyField.text username =>
      if db.findAdmin then (loginError, s)
      else
        match findOneAdmin
            (fun a => a.username == castUsername libs (libs.toLowerCase username))
            s.admins 0 with
        | none =>
          ({ status := 401, success := false, message := some "Credenciales inválidas",
             token := none, admin := none }, s)
        | some (id, admin) =>
          match body.password with
          | BodyField.text password =>
            if !comparePassword libs admin password then
              ({ status := 401, success := false, message := some "Credenciales inválidas",
                 token := none, admin := none }, s)
            else
              ({ status := 200, success := true, message := none,
                 token := some (generateAuthToken libs env now id admin),
                 admin := some (adminProfile id admin) }, s)
          | _ => (loginError, s)
    | _ => (loginError, s)

/-- The object `req.session` of one request. -/
structure Session where
  nonce : Option String
  deriving DecidableEq, Repr

/-- The handler `adminController.getNonce`; `random` is the value of
`Math.floor(Math.random() * 1000000)` and `session` the incoming `req.session`, absent
unless something put it on the request. It answers with the challenge message and
leaves the nonce on the `req.session` of this request. -/
def getNonce (random : Nat) (session : Option Session) : AdminResponse × Session :=
  let nonce := toString random
  ({ status := 200, success := true,
     message := some ("Iniciar sesión como administrador: " ++ nonce),
     token := none, admin := none },
   { (session.getD { nonce := none }) with nonce := some nonce })

/-- The request of `verifySignature`: the three fields of `req.body`, each of which may
be absent, and the `req.session` of the request. -/
structure SignatureRequest where
  address : Option String
  signature : Option String
  message : Option String
  session : Option Session
  deriving DecidableEq, Repr

/-- The handler `adminController.verifySignature` at time `now`. It does not write to
the store. -/
def verifySignature (libs : Libs) (db : AdminFaults) (env : Option String) (now : Int)
    (req : SignatureRequest) (s : AdminStore) : AdminResponse × AdminStore :=
  match req.address, req.signature, req.message with
  | some address, some signature, some message =>
    if address = "" ∨ signature = "" ∨ message = "" then
      ({ status := 400, success := false,
         message := some "Se requieren dirección, firma y mensaje",
         token := none, admin := none }, s)
    else
      match libs.verifyMessage message signature with
      | none =>
        ({ status := 500, success := false, message := some "Error en el servidor",
           token := none, admin := none }, s)
      | some signerAddr =>
        if libs.toLowerCase signerAddr ≠ libs.toLowerCase address then
          ({ status := 401, success := false, message := some "Firma inválida",
             token := none, admin := none }, s)
        else if db.findAdmin then
          ({ status := 500, success := false, message := some "Error en el servidor",
             token := none, admin := none }, s)
        else
          match findOneAdmin
              (fun a => a.walletAddress == some (libs.toLowerCase address)) s.admins 0 with
          | none =>
            ({ status := 401, success := false,
               message := some "No hay un administrador asociado a esta dirección de wallet",
               token := none, admin := none }, s)
          | some (id, admin) =>
            ({ status := 200, success := true, message := none,
               token := some (generateAuthToken libs env now id admin),
               admin := some (adminProfile id admin) }, s)
  | _, _, _ =>
    ({ status := 400, success := false,
       message := some "Se requieren dirección, firma y mensaje",
       token := none, admin := none }, s)

/-- The object `req.user` that an authentication middleware leaves on the request. -/
structure ReqUser where
  id : IdValue
  username : Option String
  isAdmin : Bool
  permissions : Option Permissions
  deriving DecidableEq, Repr

/-- The handler `adminController.getProfile` for a request carrying `req.user`. -/
def getProfile (db : AdminFaults) (user : ReqUser) (s : AdminStore) :
    AdminResponse × AdminStore :=
  match findById db s.admins user.id with
  | FindResult.threw =>
    ({ status := 500, success := false, message := some "Error en el servidor",
       token := none, admin := none }, s)
  | FindResult.found none =>
    ({ status := 404, success := false, message := some "Administrador no encontrado",
       token := none, admin := none }, s)
  | FindResult.found (some (id, admin)) =>
    ({ status := 200, success := true, message := none, token := none,
       admin := some (adminProfile id admin) }, s)

/-! ## Authentication middlewares and the profile route -/

/-- What a middleware does with a request: it answers, or it calls `next()` after
leaving `req.user` on the request. -/
inductive AuthOutcome where
  | respond (response : AdminResponse)
  | next (user : ReqUser)
  deriving DecidableEq, Repr

/-- The middleware `adminAuth` of `src/server/middlewares/adminAuth.js` at time `now`;
`header` is `req.header('x-auth-token')`. -/
def adminAuth (libs : Libs) (db : AdminFaults) (env : Option String) (now : Int)
    (header : Option String) (s : AdminStore) : AuthOutcome :=
  match header with
  | none =>
    AuthOutcome.respond
      { status := 401, success := false,
        message := some "No hay token, autorización denegada", token := none, admin := none }
  | some token =>
    if token = "" then
      AuthOutcome.respond
        { status := 401, success := false,
          message := some "No hay token, autorización denegada", token := none,
          admin := none }
    else
      match libs.jwtVerify token (jwtSecret env) now with
      | JwtResult.expired =>
        AuthOutcome.respond
          { status := 401, success := false,
            message := some "El token ha expirado, inicie sesión nuevamente",
            token := none, admin := none }
      | JwtResult.invalid =>
        AuthOutcome.respond
          { status := 401, success := false, message := some "Token inválido",
            token := none, admin := none }
      | JwtResult.ok decoded =>
        if decoded.type ≠ some "admin" then
          AuthOutcome.respond
            { status := 403, success := false,
              message := some "Token inválido, se requiere un token de administrador",
              token := none, admin := none }
        else
          match findById db s.admins decoded.id with
          | FindResult.threw =>
            AuthOutcome.respond
              { status := 401, success := false, message := some "Token inválido",
                token := none, admin := none }
          | FindResult.found none =>
            AuthOutcome.respond
              { status := 401, success := false,
                message := some "Administrador no encontrado", token := none,
                admin := none }
          | FindResult.found (some (id, admin)) =>
            AuthOutcome.next
              { id := IdValue.objectId id, username := some admin.username,
                isAdmin := true, permissions := some admin.permissions }

/-- The middleware `adminAuth` that `src/server/routes/admin.js` defines for itself
and puts in front of `getProfile`: it only tests that a token is there. -/
def Routes.adminAuth (header : Option String) : AuthOutcome :=
  match header with
  | none =>
    AuthOutcome.respond
      { status := 401, success := false,
        message := some "No hay token, autorización denegada", token := none, admin := none }
  | some token =>
    if token = "" then
      AuthOutcome.respond
        { status := 401, success := false,
          message := some "No hay token, autorización denegada", token := none,
          admin := none }
    else
      AuthOutcome.next
        { id := IdValue.other "temp-admin-id", username := none, isAdmin := false,
          permissions := none }

/-- The route `router.get('/profile', adminAuth, adminController.getProfile)` of
`src/server/routes/admin.js`. -/
def Routes.profile (db : AdminFaults) (header : Option String) (s : AdminStore) :
    AdminResponse × AdminStore :=
  match Routes.adminAuth header with
  | AuthOutcome.respond response => (response, s)
  | AuthOutcome.next user => getProfile db user s

/-- The profile route as it would be with the middleware of
`src/server/middlewares/adminAuth.js` in front of `getProfile`. -/
def profileWithMiddleware (libs : Libs) (db : AdminFaults) (env : Option String)
    (now : Int) (header : Option String) (s : AdminStore) : AdminResponse × AdminStore :=
  match adminAuth libs db env now header s with
  | AuthOutcome.respond response => (response, s)
  | AuthOutcome.next user => getProfile db user s

/-! ## The `createAdmin` script -/

/-- The `permissions` object handed to the Admin model: a value or nothing for each
flag of the schema (keys that the schema does not declare are dropped by the model). -/
structure PermissionsInput where
  canViewDashboard : Option Bool
  canCreateElections : Option Bool
  canManageElections : Option Bool
  canManageVoters : Option Bool
  canFinalizeResults : Option Bool
  canViewReports : Option Bool
  canManageAdmins : Option Bool
  deriving DecidableEq, Repr

/-- The permissions read from a document whose `permissions` were set from an input:
the given flags, and the schema defaults for the others. -/
def castPermissions (input : PermissionsInput) : Permissions :=
  { canViewDashboard := input.canViewDashboard.getD true,
    canCreateElections := input.canCreateElections.getD false,
    canManageElections := input.canManageElections.getD false,
    canManageVoters := input.canManageVoters.getD false,
    canFinalizeResults := input.canFinalizeResults.getD false,
    canViewReports := input.canViewReports.getD true,
    canManageAdmins := input.canManageAdmins.getD false }

/-- The record `adminData` of the script. -/
structure AdminData where
  name : String
  username : String
  password : String
  permissions : PermissionsInput
  deriving DecidableEq, Repr

/-- The constant `adminData` of `src/scripts/createAdmin.js`; its key
`canViewStatistics` is not a flag of the schema. -/
def adminData : AdminData :=
  { name := "Katriel Castillo Encarnacion", username := "katriel", password := "FMR2F7Qg@",
    permissions :=
      { canViewDashboard := none, canCreateElections := none,
        canManageElections := some true, canManageVoters := some true,
        canFinalizeResults := none, canViewReports := none, canManageAdmins := none } }

/-- The hook `AdminSchema.pre('save')`: when the password was modified, replace it by
its hash under a fresh salt (`bcrypt.genSalt(10)`). -/
def preSave (libs : Libs) (salt : String) (passwordModified : Bool) (admin : Admin) : Admin :=
  if !passwordModified then admin
  else { admin with password := libs.bcryptHash admin.password salt }

/-- The validators of the Admin schema, which `save` runs before the save hook: `name`
and `username` are required, `password` is required with `minlength: 6` (counted here
in characters). -/
def validAdmin (admin : Admin) : Bool :=
  admin.name != "" && admin.username != "" && decide (6 ≤ admin.password.length)

/-- The function `createAdmin` of `src/scripts/createAdmin.js`, run at time `now` for
the record `data`; `scriptSalt` is the salt the script generates and `hookSalt` the one
the save hook generates. The Admin model is the one of `src/server/models/Admin.js`.
A throw (a failing store operation, a failed validation, a username already taken
under the unique index) is caught and logged, and leaves the store as it was. -/
def createAdmin (libs : Libs) (db : AdminFaults) (scriptSalt hookSalt : String) (now : Int)
    (data : AdminData) (s : AdminStore) : AdminStore :=
  if db.findAdmin then s
  else
    let hashedPassword := libs.bcryptHash data.password scriptSalt
    match findOneAdmin (fun a => a.username == data.username) s.admins 0 with
    | some (id, existingAdmin) =>
      let updated : Admin :=
        { existingAdmin with
          name := jsTrim data.name, password := hashedPassword,
          permissions := castPermissions data.permissions }
      let saved : Admin :=
        preSave libs hookSalt (decide (hashedPassword ≠ existingAdmin.password)) updated
      if !validAdmin updated || db.saveAdmin then s
      else { s with admins := s.admins.set id saved }
    | none =>
      let newAdmin : Admin :=
        { name := jsTrim data.name, username := libs.toLowerCase (jsTrim data.username),
          password := hashedPassword, walletAddress := none,
          permissions := castPermissions data.permissions, createdAt := now }
      let saved : Admin := preSave libs hookSalt true newAdmin
      if !validAdmin newAdmin || db.saveAdmin then s
      else if s.admins.any (fun a => a.username == saved.username) then s
      else { s with admins := s.admins ++ [saved] }

/-! ## Client: roster management (`ManageVoters.js`) -/

/-- The character class `[a-fA-F0-9]`. -/
def isHexDigit (c : Char) : Bool :=
  let n := c.toNat
  (0x61 ≤ n && n ≤ 0x66) || (0x41 ≤ n && n ≤ 0x46) || (0x30 ≤ n && n ≤ 0x39)

/-- The test `/^0x[a-fA-F0-9]{40}$/`, written in `ManageVoters.js` and, as
`ethAddressPattern`, in `routes/admin.js`. -/
def ethAddressPattern (address : String) : Bool :=
  match address.toList with
  | a :: b :: rest => a == '0' && b == 'x' && rest.length == 40 && rest.all isHexDigit
  | _ => false

/-- The function `validateEthereumAddress` of `ManageVoters.js`. -/
def validateEthereumAddress (address : String) : Bool :=
  ethAddressPattern address

/-- The middleware `validateSignatureRequest` of `routes/admin.js`: `none` when it
calls `next()`, the answer otherwise. -/
def Routes.validateSignatureRequest (req : SignatureRequest) : Option AdminResponse :=
  match req.address, req.signature, req.message with
  | some address, some signature, some message =>
    if address = "" ∨ signature = "" ∨ message = "" then
      some { status := 400, success := false,
             message := some "Se requieren dirección, firma y mensaje",
             token := none, admin := none }
    else if !ethAddressPattern address then
      some { status := 400, success := false, message := some "Dirección Ethereum inválida",
             token := none, admin := none }
    else none
  | _, _, _ =>
    some { status := 400, success := false,
           message := some "Se requieren dirección, firma y mensaje",
           token := none, admin := none }

/-- The separators of the bulk input: the class `[\s,]`. -/
def isBulkSeparator (c : Char) : Bool :=
  isJsSpace c || c == ','

/-- The pieces of `text.split(/[\s,]+/)`: `current` holds, reversed, the characters of
the piece being read, and `afterSeparator` tells that the previous character was a
separator, so that a run of separators splits once. -/
def splitAux : List Char → List Char → Bool → List (List Char)
  | [], current, _ => [current.reverse]
  | c :: rest, current, afterSeparator =>
    if isBulkSeparator c then
      if afterSeparator then splitAux rest [] true
      else current.reverse :: splitAux rest [] true
    else splitAux rest (c :: current) false

/-- The call `bulkAddresses.split(/[\s,]+/)`. -/
def splitSeparators (text : String) : List String :=
  (splitAux text.toList [] false).map String.mk

/-- The array `addressesArray` of `handleBulkAddVoters`: split, trim each piece, drop
the empty ones. -/
def parseAddresses (bulkAddresses : String) : List String :=
  ((splitSeparators bulkAddresses).map jsTrim).filter (fun addr => decide (addr.length > 0))

/-- An election as the client components hold it: the fields of the dashboard's
records. Whether it is active or has ended is computed by functions of
`utils/contractUtils`, which are not among the sources. -/
structure ClientElection where
  id : String
  title : String
  description : String
  startTime : Int
  endTime : Int
  totalVotes : Nat
  candidateCount : Nat
  resultsFinalized : Bool
  deriving DecidableEq, Repr

/-- The answers of `isElectionActive` and `hasElectionEnded` of `utils/contractUtils`
at one moment. The two functions are imported, not defined, by the components, so
they are parameters; their answers may change from one moment to the next. -/
structure StatusFns where
  isElectionActive : ClientElection → Bool
  hasElectionEnded : ClientElection → Bool

/-- A voter as listed by `ManageVoters`. -/
structure ClientVoter where
  address : String
  hasVoted : Bool
  deriving DecidableEq, Repr

/-- The text of a toast: a translation key, or a message taken from a reply or from a
caught error. -/
inductive ToastText where
  | key (k : String)
  | message (m : String)
  deriving DecidableEq, Repr

/-- The JSON body of a request of `ManageVoters`. -/
inductive FetchBody where
  | empty
  | voterAddress (address : String)
  | addresses (list : List String)
  deriving DecidableEq, Repr

/-- What a handler of `ManageVoters` does besides updating the state: a toast, a
request to the API, a call of `fetchElectionAndVoters`. -/
inductive ClientEffect where
  | toastError (text : ToastText)
  | toastSuccess (text : ToastText)
  | fetch (method : String) (url : String) (body : FetchBody)
  | refresh
  deriving DecidableEq, Repr

/-- The outcome of an awaited `fetch` with `response.json()`: it throws an error with
some message, or it gives the fields `success` and `message` of the reply. -/
inductive ApiReply where
  | threw (message : String)
  | json (success : Bool) (message : Option String)
  deriving DecidableEq, Repr

/-- The state of `ManageVoters` that its handlers and its buttons read or write (the
search box and the error banner are left out). -/
structure VotersState where
  election : Option ClientElection
  voters : List ClientVoter
  loading : Bool
  actionLoading : Bool
  newVoterAddress : String
  showAddModal : Bool
  showRemoveModal : Bool
  voterToRemove : Option ClientVoter
  bulkAddresses : String
  showBulkModal : Bool
  deriving DecidableEq, Repr

/-- The state after the `useState` calls of `ManageVoters`. -/
def VotersState.initial : VotersState :=
  { election := none, voters := [], loading := true, actionLoading := false,
    newVoterAddress := "", showAddModal := false, showRemoveModal := false,
    voterToRemove := none, bulkAddresses := "", showBulkModal := false }

/-- The base of the API, `process.env.REACT_APP_API_URL || 'http://localhost:5000'`. -/
def apiBase (env : Option String) : String :=
  match env with
  | some v => if v = "" then "http://localhost:5000" else v
  | none => "http://localhost:5000"

/-- The text of the error toast after a request: the message of the caught error, or
the fallback key when that message is empty. A reply without `success` throws the
reply's message, or the fallback key when it has none. -/
def failureToast (reply : ApiReply) (fallback : String) : ToastText :=
  match reply with
  | ApiReply.threw m => if m = "" then ToastText.key fallback else ToastText.message m
  | ApiReply.json _ (some m) =>
    if m = "" then ToastText.key fallback else ToastText.message m
  | ApiReply.json _ none => ToastText.key fallback

/-- The handler `handleAddVoter`; `reply` is the outcome of its request. -/
def handleAddVoter (env : Option String) (electionId : String) (reply : ApiReply)
    (st : VotersState) : VotersState × List ClientEffect :=
  if !validateEthereumAddress st.newVoterAddress then
    (st, [ClientEffect.toastError (ToastText.key "admin.voters.invalid_address")])
  else
    let request := ClientEffect.fetch "POST"
      (apiBase env ++ "/api/elections/" ++ electionId ++ "/voters")
      (FetchBody.voterAddress st.newVoterAddress)
    match reply with
    | ApiReply.json true _ =>
      ({ st with newVoterAddress := "", showAddModal := false, actionLoading := false },
       [request, ClientEffect.toastSuccess (ToastText.key "admin.voters.add_success"),
        ClientEffect.refresh])
    | _ =>
      ({ st with actionLoading := false },
       [request, ClientEffect.toastError (failureToast reply "admin.voters.add_error")])

/-- The handler `handleBulkAddVoters`; `reply` is the outcome of its request. -/
def handleBulkAddVoters (env : Option String) (electionId : String) (reply : ApiReply)
    (st : VotersState) : VotersState × List ClientEffect :=
  let addressesArray := parseAddresses st.bulkAddresses
  let invalidAddresses := addressesArray.filter (fun addr => !validateEthereumAddress addr)
  if invalidAddresses.length > 0 then
    (st, [ClientEffect.toastError (ToastText.key "admin.voters.some_invalid_addresses")])
  else if addressesArray.length = 0 then
    (st, [ClientEffect.toastError (ToastText.key "admin.voters.no_addresses")])
  else
    let request := ClientEffect.fetch "POST"
      (apiBase env ++ "/api/elections/" ++ electionId ++ "/voters/bulk")
      (FetchBody.addresses addressesArray)
    match reply with
    | ApiReply.json true _ =>
      ({ st with bulkAddresses := "", showBulkModal := false, actionLoading := false },
       [request, ClientEffect.toastSuccess (ToastText.key "admin.voters.bulk_add_success"),
        ClientEffect.refresh])
    | _ =>
      ({ st with actionLoading := false },
       [request, ClientEffect.toastError (failureToast reply "admin.voters.bulk_add_error")])

/-- The function `openRemoveModal`. -/
def openRemoveModal (voter : ClientVoter) (st : VotersState) : VotersState :=
  { st with voterToRemove := some voter, showRemoveModal := true }

/-- The handler `handleRemoveVoter`; `reply` is the outcome of its request. -/
def handleRemoveVoter (env : Option String) (electionId : String) (reply : ApiReply)
    (st : VotersState) : VotersState × List ClientEffect :=
  match st.voterToRemove with
  | none => (st, [])
  | some voter =>
    let request := ClientEffect.fetch "DELETE"
      (apiBase env ++ "/api/elections/" ++ electionId ++ "/voters/" ++ voter.address)
      FetchBody.empty
    match reply with
    | ApiReply.json true _ =>
      ({ st with showRemoveModal := false, voterToRemove := none, actionLoading := false },
       [request, ClientEffect.toastSuccess (ToastText.key "admin.voters.remove_success"),
        ClientEffect.refresh])
    | _ =>
      ({ st with actionLoading := false },
       [request, ClientEffect.toastError (failureToast reply "admin.voters.remove_error")])

/-- The constant `canModifyVoters` of a render:
`election && !isElectionActive(election) && !hasElectionEnded(election)`. -/
def canModifyVoters (fns : StatusFns) (st : VotersState) : Bool :=
  match st.election with
  | some election => !fns.isElectionActive election && !fns.hasElectionEnded election
  | none => false

/-- What can happen to a mounted `ManageVoters`: a click on one of the buttons of the
page, typing into a dialog, confirming or closing a dialog, and the start and the end
of `fetchElectionAndVoters` (the end brings the election, when its request succeeded,
and then the voters, when theirs did). -/
inductive VotersEvent where
  | clickAddButton
  | clickBulkButton
  | clickRemoveButton (voter : ClientVoter)
  | typeAddress (value : String)
  | typeBulk (value : String)
  | confirmAdd (reply : ApiReply)
  | confirmBulk (reply : ApiReply)
  | confirmRemove (reply : ApiReply)
  | closeAdd
  | closeBulk
  | closeRemove
  | refreshStarted
  | refreshed (election : Option (Option ClientElection)) (voters : Option (List ClientVoter))
  deriving DecidableEq, Repr

/-- One event on `ManageVoters`, with the answers `fns` of the status functions at that
moment. A handler runs to its end before the next event. A control reacts only when it
is rendered and not disabled: while `loading` only the spinner is rendered; the add and
bulk buttons carry `disabled={!canModifyVoters}`; the remove button of a listed voter
carries `disabled={!canModifyVoters || voter.hasVoted}`; the controls of a dialog exist
while the dialog is shown and are disabled while `actionLoading`; the confirm button of
the bulk dialog is also disabled while the text is blank. -/
def votersStep (env : Option String) (electionId : String) (fns : StatusFns)
    (event : VotersEvent) (st : VotersState) : VotersState × List ClientEffect :=
  match event with
  | VotersEvent.refreshStarted => ({ st with loading := true }, [])
  | VotersEvent.refreshed none _ => ({ st with loading := false }, [])
  | VotersEvent.refreshed (some election) none =>
    ({ st with election := election, loading := false }, [])
  | VotersEvent.refreshed (some election) (some voters) =>
    ({ st with election := election, voters := voters, loading := false }, [])
  | VotersEvent.clickAddButton =>
    if st.loading || !canModifyVoters fns st then (st, [])
    else ({ st with showAddModal := true }, [])
  | VotersEvent.clickBulkButton =>
    if st.loading || !canModifyVoters fns st then (st, [])
    else ({ st with showBulkModal := true }, [])
  | VotersEvent.clickRemoveButton voter =>
    if st.loading || !st.voters.contains voter || !canModifyVoters fns st || voter.hasVoted
    then (st, [])
    else (openRemoveModal voter st, [])
  | VotersEvent.typeAddress value =>
    if st.loading || !st.showAddModal || st.actionLoading then (st, [])
    else ({ st with newVoterAddress := value }, [])
  | VotersEvent.typeBulk value =>
    if st.loading || !st.showBulkModal || st.actionLoading then (st, [])
    else ({ st with bulkAddresses := value }, [])
  | VotersEvent.confirmAdd reply =>
    if st.loading || !st.showAddModal || st.actionLoading then (st, [])
    else handleAddVoter env electionId reply st
  | VotersEvent.confirmBulk reply =>
    if st.loading || !st.showBulkModal || st.actionLoading ||
        jsTrim st.bulkAddresses == "" then (st, [])
    else handleBulkAddVoters env electionId reply st
  | VotersEvent.confirmRemove reply =>
    if st.loading || !st.showRemoveModal || st.actionLoading then (st, [])
    else handleRemoveVoter env electionId reply st
  | VotersEvent.closeAdd =>
    if st.loading || !st.showAddModal || st.actionLoading then (st, [])
    else ({ st with showAddModal := false }, [])
  | VotersEvent.closeBulk =>
    if st.loading || !st.showBulkModal || st.actionLoading then (st, [])
    else ({ st with showBulkModal := false }, [])
  | VotersEvent.closeRemove =>
    if st.loading || !st.showRemoveModal || st.actionLoading then (st, [])
    else ({ st with showRemoveModal := false }, [])

/-- A sequence of events on `ManageVoters`, each with the status answers of its moment;
the effects are collected in order. -/
def votersRun (env : Option String) (electionId : String) :
    List (StatusFns × VotersEvent) → VotersState → VotersState × List ClientEffect
  | [], st => (st, [])
  | (fns, event) :: rest, st =>
    let r := votersStep env electionId fns event st
    let r2 := votersRun env electionId rest r.1
    (r2.1, r.2 ++ r2.2)

/-- The text made of a leading run of characters and then, for each piece, its token
followed by its run: `lead t1 r1 t2 r2 ... tn rn`. -/
def joinPieces (lead : List Char) : List (List Char × List Char) → List Char
  | [] => lead
  | (token, run) :: rest => lead ++ token ++ joinPieces run rest

/-- Pieces as the round trip of the bulk parsing takes them: every token is non-empty
and free of commas and white space, every run consists of commas and white space, and
every run but the last is non-empty. -/
def SeparatedPieces : List (List Char × List Char) → Prop
  | [] => True
  | (token, run) :: rest =>
    token ≠ [] ∧ (∀ c ∈ token, isBulkSeparator c = false) ∧
    (∀ c ∈ run, isBulkSeparator c = true) ∧ (rest ≠ [] → run ≠ []) ∧ SeparatedPieces rest

/-! ## Client: admin dashboard (`AdminDashboard.js`) -/

/-- The object `adminPermissions` of the admin context: keys with boolean values. -/
abbrev PermissionsObject := List (String × Bool)

/-- The `permissions` of an admin as the server sends them in `admin.permissions`: one
key for each flag of the Admin schema. -/
def permissionsJson (p : Permissions) : PermissionsObject :=
  [("canViewDashboard", p.canViewDashboard), ("canCreateElections", p.canCreateElections),
   ("canManageElections", p.canManageElections), ("canManageVoters", p.canManageVoters),
   ("canFinalizeResults", p.canFinalizeResults), ("canViewReports", p.canViewReports),
   ("canManageAdmins", p.canManageAdmins)]

/-- The truth value of `adminPermissions.key`: false when the key is missing. -/
def permissionFlag (permissions : PermissionsObject) (key : String) : Bool :=
  (permissions.lookup key).getD false

/-- The `disabled` attribute of the button "Nueva Elección". -/
def newElectionDisabled (permissions : PermissionsObject) : Bool :=
  !permissionFlag permissions "canCreateElection"

/-- The `disabled` attribute of the button that calls `handleEndElection`. -/
def endElectionDisabled (actionLoading : Bool) (permissions : PermissionsObject) : Bool :=
  actionLoading || !permissionFlag permissions "canEndElection"

/-- The `disabled` attribute of the button that calls `handleFinalizeResults`. -/
def finalizeResultsDisabled (actionLoading : Bool) (permissions : PermissionsObject) : Bool :=
  actionLoading || !permissionFlag permissions "canFinalizeResults"

/-- The `disabled` attribute of the link "Gestión de Votantes". -/
def manageVotersDisabled (permissions : PermissionsObject) : Bool :=
  !permissionFlag permissions "canManageVoters"

/-- The state of `AdminDashboard` that its two action handlers write. -/
structure DashboardState where
  elections : List ClientElection
  actionLoading : Bool
  deriving DecidableEq, Repr

/-- The handler `handleEndElection`; `now` is `Math.floor(Date.now() / 1000)` at the
update. -/
def handleEndElection (now : Int) (electionId : String) (st : DashboardState) :
    DashboardState :=
  { elections := st.elections.map (fun election =>
      if election.id = electionId then { election with endTime := now } else election),
    actionLoading := false }

/-- The handler `handleFinalizeResults`. -/
def handleFinalizeResults (electionId : String) (st : DashboardState) : DashboardState :=
  { elections := st.elections.map (fun election =>
      if election.id = electionId then { election with resultsFinalized := true }
      else election),
    actionLoading := false }

/-- The label of the badge that `getStatusBadge` returns. -/
def getStatusBadge (fns : StatusFns) (election : ClientElection) : String :=
  if election.resultsFinalized then "Finalizada"
  else if fns.hasElectionEnded election then "Terminada"
  else if fns.isElectionActive election then "Activa"
  else "Pendiente"

/-- A call of one of the two action handlers of the dashboard. -/
inductive DashboardAction where
  | endElection (now : Int) (electionId : String)
  | finalizeResults (electionId : String)
  deriving DecidableEq, Repr

/-- A sequence of calls of the two action handlers. -/
def dashboardRun : List DashboardAction → DashboardState → DashboardState
  | [], st => st
  | DashboardAction.endElection now electionId :: rest, st =>
    dashboardRun rest (handleEndElection now electionId st)
  | DashboardAction.finalizeResults electionId :: rest, st =>
    dashboardRun rest (handleFinalizeResults electionId st)

/-! ## Client: the ID gate (`IdLogin.js`) -/

/-- The state of `IdLogin`: the text of the field, the validity of the gate, the key of
the error shown, and the flag of a submission under way. -/
structure IdLoginState where
  cedula : String
  isValid : Bool
  errors : Option String
  isSubmitting : Bool
  deriving DecidableEq, Repr

/-- The state after the `useState` calls of `IdLogin`. -/
def IdLoginState.initial : IdLoginState :=
  { cedula := "", isValid := false, errors := none, isSubmitting := false }

/-- The replacement `e.target.value.replace(/[^0-9\-\s]/g, '')`: keep digits, hyphens
and white space. -/
def keepAllowed (typed : String) : String :=
  String.mk (typed.toList.filter (fun c => c.isDigit || c == '-' || isJsSpace c))

/-- The handler `handleCedulaChange` for the typed value `e.target.value`. -/
def handleCedulaChange (typed : String) (st : IdLoginState) : IdLoginState :=
  let value := keepAllowed typed
  let cleanValue := cleanCedula value
  if jsTrim value = "" then
    { st with cedula := value, errors := some "auth.id_required", isValid := false }
  else if !onlyDigits cleanValue then
    { st with cedula := value, errors := some "auth.only_numbers", isValid := false }
  else if !validateCedula cleanValue then
    { st with cedula := value, errors := some "auth.invalid_id_format", isValid := false }
  else { st with cedula := value, errors := none, isValid := true }

/-- The handler `handleSubmit`: the new state and, when it navigates to the wallet
step, the `cedula` it forwards. -/
def handleSubmit (st : IdLoginState) : IdLoginState × Option String :=
  if !st.isValid then (st, none)
  else ({ st with isSubmitting := true }, some (cleanCedula st.cedula))

/-- What can happen to `IdLogin`: the field changes, or the form is submitted. -/
inductive IdLoginEvent where
  | change (typed : String)
  | submit
  deriving DecidableEq, Repr

/-- A sequence of events on `IdLogin`. -/
def idLoginRun : List IdLoginEvent → IdLoginState → IdLoginState
  | [], st => st
  | IdLoginEvent.change typed :: rest, st => idLoginRun rest (handleCedulaChange typed st)
  | IdLoginEvent.submit :: rest, st => idLoginRun rest (handleSubmit st).1

/-! ## Client: the session of `App.js` -/

/-- The three entries of `localStorage` that `App` writes. -/
structure LocalStorage where
  authToken : Option String
  userAddress : Option String
  userName : Option String
  deriving DecidableEq, Repr

/-- The state of `App` that `login` and `logout` write. -/
structure AppState where
  isAuthenticated : Bool
  userAddress : Option String
  userName : Option String
  isAdmin : Bool
  storage : LocalStorage
  deriving DecidableEq, Repr

/-- The state after the `useState` calls of `App`, over a given `localStorage`. -/
def AppState.initial (storage : LocalStorage) : AppState :=
  { isAuthenticated := false, userAddress := none, userName := none, isAdmin := false,
    storage := storage }

/-- The value `name || 'Usuario'`. -/
def displayName (name : Option String) : String :=
  match name with
  | some v => if v = "" then "Usuario" else v
  | none => "Usuario"

/-- The function `login` of `App`; `toLowerCase` is `String.prototype.toLowerCase` and
`adminAddress` the value of `process.env.REACT_APP_ADMIN_ADDRESS`. -/
def App.login (toLowerCase : String → String) (adminAddress : Option String)
    (address token : String) (name : Option String) (st : AppState) : AppState :=
  let st1 : AppState :=
    { st with
      storage := { authToken := some token, userAddress := some address,
                   userName := some (displayName name) },
      isAuthenticated := true, userAddress := some address,
      userName := some (displayName name) }
  match adminAddress with
  | some admin =>
    if admin ≠ "" ∧ toLowerCase address = toLowerCase admin then { st1 with isAdmin := true }
    else st1
  | none => st1

/-- The function `logout` of `App`. -/
def App.logout (st : AppState) : AppState :=
  { st with
    storage := { st.storage with authToken := none, userAddress := none, userName := none },
    isAuthenticated := false, userAddress := none, userName := none, isAdmin := false }

/-- A call of `login` or of `logout`. -/
inductive AppCall where
  | login (address token : String) (name : Option String)
  | logout
  deriving DecidableEq, Repr

/-- A sequence of calls of `login` and `logout`. -/
def App.run (toLowerCase : String → String) (adminAddress : Option String) :
    List AppCall → AppState → AppState
  | [], st => st
  | AppCall.login address token name :: rest, st =>
    App.run toLowerCase adminAddress rest (App.login toLowerCase adminAddress address token name st)
  | AppCall.logout :: rest, st => App.run toLowerCase adminAddress rest (App.logout st)

/-! ## Request sequences -/

/-- A request to one of the two handlers that write elections and votes. -/
inductive Request where
  | create (db : DbFaults) (now : Int) (body : ElectionBody)
  | vote (db : DbFaults) (now : Int) (req : VoteRequest)
  deriving DecidableEq, Repr

/-- The store after one request. -/
def handle : Request → Store → Store
  | Request.create db now body, s => (createElection db now body s).2
  | Request.vote db now req, s => (castVote db now req s).2

/-- The store after a sequence of requests handled one after another. -/
def handleAll : List Request → Store → Store
  | [], s => s
  | r :: rest, s => handleAll rest (handle r s)

/-- The number of stored votes for an election. -/
def electionVoteCount (s : Store) (electionId : Nat) : Nat :=
  s.votes.countP (fun v => v.election == electionId)

/-- The number of stored votes for an election whose candidate index names one of the
candidates in `candidates`. -/
def countedVotes (s : Store) (electionId : Nat) (candidates : List Candidate) : Nat :=
  s.votes.countP (fun v => v.election == electionId &&
    (candidateAt candidates v.candidateId).isSome)

/-- The relation between counters and votes that the handlers maintain: every stored
vote names a stored election, and the counters of each election are natural numbers
whose sum is the number of stored votes of that election whose candidate index names
one of its candidates. -/
def CountersMatch (s : Store) : Prop :=
  (∀ v ∈ s.votes, v.election < s.elections.length) ∧
  ∀ electionId election, s.elections[electionId]? = some election →
    ∃ counts : List Nat,
      election.candidates.map Candidate.votes = counts.map JsNumber.ofNat ∧
      counts.sum = countedVotes s electionId election.candidates

/-- A request that supplies no initial vote count: a `createElection` body whose
candidates carry no `votes` value or the value 0. -/
def suppliesNoVotes : Request → Bool
  | Request.create _ _ body => body.candidates.all (fun c => c.votes.getD 0 == 0)
  | Request.vote _ _ _ => true

/-- A request whose save of the election document, if reached, does not throw. -/
def electionSaveSucceeds : Request → Bool
  | Request.create _ _ _ => true
  | Request.vote db _ _ => !db.saveElection

/-! ## Sample data -/

/-- A two-candidate election open from time 1000 to time 2000. -/
def sampleElection : Election :=
  { title := "Board", description := "Board election", startDate := 1000, endDate := 2000,
    candidates := [{ name := "A", description := none, votes := 0 },
                   { name := "B", description := none, votes := 0 }],
    status := ElectionStatus.pending, contractAddress := "0xE1", createdAt := 0 }

/-- A store with the sample election, two registered voters and no votes. -/
def sampleStore : Store :=
  { elections := [sampleElection], votes := [],
    voters := [{ address := "0xA1", hasVoted := false },
               { address := "0xA2", hasVoted := false }] }

/-- A request of voter 0 for candidate 0 of election 0. -/
def sampleRequest : VoteRequest :=
  { electionId := 0, voterId := 0, candidateId := 0, signature := "sig" }

/-- A valid `createElection` body for a two-candidate election. -/
def sampleBody : ElectionBody :=
  { title := some "Board", description := some "Board election", startDate := some 1000,
    endDate := some 2000,
    candidates := [{ name := some "A", description := none, votes := none },
                   { name := some "B", description := none, votes := none }],
    contractAddress := some "0xE1" }

/-- The empty store. -/
def emptyStore : Store := { elections := [], votes := [], voters := [] }

/-- An election open for seven days with candidates A and B at 2 and 1 votes. -/
def tallyElection : Election :=
  { title := "Tally", description := "Tally election", startDate := 0,
    endDate := 604800000,
    candidates := [{ name := "A", description := none, votes := 2 },
                   { name := "B", description := none, votes := 1 }],
    status := ElectionStatus.pending, contractAddress := "0xE2", createdAt := 0 }

/-- A store holding the tally election and its three votes. -/
def tallyStore : Store :=
  { elections := [tallyElection],
    votes := [{ election := 0, voter := 0, candidateId := 0, signature := "s0",
                transactionHash := "pending" },
              { election := 0, voter := 1, candidateId := 0, signature := "s1",
                transactionHash := "pending" },
              { election := 0, voter := 2, candidateId := 1, signature := "s2",
                transactionHash := "pending" }],
    voters := [{ address := "0xA1", hasVoted := true },
               { address := "0xA2", hasVoted := true },
               { address := "0xA3", hasVoted := true }] }

/-- The vote that `castVote` builds from a request. -/
def voteOf (req : VoteRequest) : Vote :=
  { election := req.electionId, voter := req.voterId, candidateId := req.candidateId,
    signature := req.signature, transactionHash := "pending" }

/-- The number of stored votes of a voter in an election. -/
def voteCount (s : Store) (electionId voterId : Nat) : Nat :=
  s.votes.countP (fun v => v.election == electionId && v.voter == voterId)

/-- A stand-in for the library functions, for the examples: lower-casing of ASCII
letters; a transparent hash `salt:data` with its comparison; a signature check that
knows two signatures; a token library that knows three tokens. -/
def sampleLibs : Libs :=
  { toLowerCase := fun v => String.mk (v.toList.map Char.toLower),
    bcryptHash := fun data salt => salt ++ ":" ++ data,
    bcryptCompare := fun data encrypted =>
      (encrypted.toList.dropWhile (fun c => c != ':')).drop 1 == data.toList,
    verifyMessage := fun _ signature =>
      if signature = "signed-by-admin" then some "0xABCDEF"
      else if signature = "signed-by-other" then some "0x999999"
      else none,
    jwtSign := fun _ _ _ _ => "admin-token",
    jwtVerify := fun token _ _ =>
      if token = "admin-token" then
        JwtResult.ok { id := IdValue.objectId 0, username := some "root", type := some "admin",
                       extra := [] }
      else if token = "voter-token" then
        JwtResult.ok { id := IdValue.objectId 0, username := none, type := none, extra := [] }
      else if token = "old-token" then JwtResult.expired
      else JwtResult.invalid }

/-- The schema defaults of the permissions with voter management granted. -/
def samplePermissions : Permissions :=
  { canViewDashboard := true, canCreateElections := false, canManageElections := false,
    canManageVoters := true, canFinalizeResults := false, canViewReports := true,
    canManageAdmins := false }

/-- An admin with a wallet address; its password is the sample hash of `secret1`. -/
def sampleAdmin : Admin :=
  { name := "Root", username := "root", password := "salt:secret1",
    walletAddress := some "0xabcdef", permissions := samplePermissions, createdAt := 0 }

/-- An admin store holding the sample admin. -/
def sampleAdminStore : AdminStore := { admins := [sampleAdmin] }

/-- A signature request of the sample admin's wallet over a message without a nonce. -/
def sampleSignatureRequest : SignatureRequest :=
  { address := some "0xABCDEF", signature := some "signed-by-admin",
    message := some "hello", session := none }

/-- The status answers at a moment at which every election is still pending. -/
def pendingFns : StatusFns :=
  { isElectionActive := fun _ => false, hasElectionEnded := fun _ => false }

/-- The status answers at a moment at which every election is active. -/
def activeFns : StatusFns :=
  { isElectionActive := fun _ => true, hasElectionEnded := fun _ => false }

/-- An election as the client holds it. -/
def sampleClientElection : ClientElection :=
  { id := "1", title := "Elección Municipal 2025",
    description := "Elección para alcalde y concejales", startTime := 1000, endTime := 2000,
    totalVotes := 156, candidateCount := 5, resultsFinalized := false }

/-- A well-formed address: `0x` and forty hexadecimal digits. -/
def sampleAddress : String := "0x00000000000000000000000000000000000000aB"

/-- A visit to `ManageVoters`: the data arrive while the election is pending, the add
dialog is opened and an address is typed. -/
def sampleVisit : List (StatusFns × VotersEvent) :=
  [(pendingFns, VotersEvent.refreshed (some (some sampleClientElection)) (some [])),
   (pendingFns, VotersEvent.clickAddButton),
   (pendingFns, VotersEvent.typeAddress sampleAddress)]

/-- The requests by which the voters 0 to `n - 1` vote, one after another at time 1500,
for the first candidate of election 0. -/
def manyVotes (n : Nat) : List Request :=
  (List.range n).map
    (fun voter => Request.vote DbFaults.none 1500 { sampleRequest with voterId := voter })

/-- The sample election after `n` votes for its first candidate: the counter follows the
votes up to `2 ^ 53`. -/
def manyVotesElection (n : Nat) : Election :=
  { sampleElection with
    candidates := [{ name := "A", description := none,
                     votes := JsNumber.ofNat (min n (2 ^ 53)) },
                   { name := "B", description := none, votes := 0 }] }

/-- The store that holds the sample election after `n` votes for its first candidate,
and the votes of the voters 0 to `n - 1`. -/
def manyVotesStore (n : Nat) : Store :=
  { elections := [manyVotesElection n],
    votes := (List.range n).map
      (fun voter => voteOf { sampleRequest with voterId := voter }),
    voters := [] }

/-- A visit to `ManageVoters` during which the list changes under an open dialog: the
remove dialog is opened for a voter listed as not having voted, and the list is then
fetched again and shows the voter as having voted. -/
def staleRemoveVisit : List (StatusFns × VotersEvent) :=
  [(pendingFns, VotersEvent.refreshed (some (some sampleClientElection))
      (some [{ address := sampleAddress, hasVoted := false }])),
   (pendingFns, VotersEvent.clickRemoveButton { address := sampleAddress, hasVoted := false }),
   (pendingFns, VotersEvent.refreshStarted),
   (pendingFns, VotersEvent.refreshed (some (some sampleClientElection))
      (some [{ address := sampleAddress, hasVoted := true }]))]

/-! ## Theorems about JavaScript Numbers -/

/-- A number below `2 ^ k` has at most `k` binary digits. -/
theorem bitLengthAux_le (fuel n k : Nat) (h : n < 2 ^ k) : bitLengthAux fuel n ≤ k := by
  induction fuel generalizing n k with
  | zero => simp [bitLengthAux]
  | succ f ih =>
    unfold bitLengthAux
    split
    · omega
    · cases k with
      | zero => simp at h; omega
      | succ j =>
        have hhalf : n / 2 < 2 ^ j := by
          rw [Nat.div_lt_iff_lt_mul (by decide)]
          rw [pow_succ] at h
          exact h
        have := ih (n / 2) j hhalf
        omega

/-- An integer of magnitude at most `2 ^ 53` is a double: rounding leaves it as it is. -/
theorem roundDouble_int (n : Int) (h : n.natAbs ≤ 2 ^ 53) :
    roundDouble n 0 = JsNumber.finite n 0 := by
  by_cases h0 : n.natAbs = 0
  · have hz : n = 0 := Int.natAbs_eq_zero.mp h0
    subst hz
    rfl
  · rcases Nat.lt_or_ge n.natAbs (2 ^ 53) with hlt | hge
    · have hlog : bitLength n.natAbs ≤ 53 := bitLengthAux_le _ _ _ hlt
      unfold roundDouble
      simp only [h0, if_false]
      have hd : ((0 : Nat) : Int) +
          (max ((bitLength n.natAbs : Int) - 1 - ((0 : Nat) : Int)) (-1022) - 52) ≤ 0 := by
        have : max ((bitLength n.natAbs : Int) - 1 - ((0 : Nat) : Int)) (-1022) ≤ 52 := by
          apply max_le <;> omega
        omega
      simp only [hd, if_true]
      rfl
    · have heq : n.natAbs = 2 ^ 53 := le_antisymm h hge
      rcases Int.natAbs_eq n with hn | hn
      · rw [hn, heq]; decide
      · rw [hn, heq]; decide

/-- The sum of two integers is exact when its magnitude is at most `2 ^ 53`. -/
theorem jsAdd_int (a b : Int) (h : (a + b).natAbs ≤ 2 ^ 53) :
    JsNumber.finite a 0 + JsNumber.finite b 0 = JsNumber.finite (a + b) 0 := by
  show jsAdd _ _ = _
  simp only [jsAdd, max_self, Nat.sub_self, pow_zero, mul_one]
  exact roundDouble_int _ h

/-- Adding 1 to an integer from `-2 ^ 53` up to `2 ^ 53 - 1` is exact. -/
theorem jsAdd_one (z : Int) (hlow : -(2 ^ 53) ≤ z) (hhigh : z < 2 ^ 53) :
    JsNumber.finite z 0 + 1 = JsNumber.finite (z + 1) 0 := by
  show JsNumber.finite z 0 + JsNumber.finite 1 0 = _
  apply jsAdd_int
  omega

/-- Adding 1 to `2 ^ 53` gives `2 ^ 53` again: the exact sum lies halfway between two
doubles and is rounded to the even one. -/
theorem jsAdd_one_saturated :
    JsNumber.finite 9007199254740992 0 + 1 = JsNumber.finite 9007199254740992 0 := by
  decide

/-! ## Theorems about `castVote` -/

/-- C1. Outside the voting window (`now < startDate` or `now > endDate`) `castVote`
answers 400 "Election is not active" and returns the store as it received it: no
vote is stored, no counter and no `hasVoted` flag changes. -/
theorem castVote_outside_window (db : DbFaults) (now : Int) (req : VoteRequest) (s : Store)
    (election : Election) (hfind : db.findElection = false)
    (hel : s.elections[req.electionId]? = some election)
    (hout : now < election.startDate ∨ now > election.endDate) :
    castVote db now req s =
      ({ status := 400, message := "Election is not active", vote := none }, s) := by
  simp [castVote, hfind, hel, hout]

/-- Witness of C1: a request at time 2500 for the sample election, which closed at 2000. -/
theorem castVote_outside_window_witness :
    castVote DbFaults.none 2500 sampleRequest sampleStore =
      ({ status := 400, message := "Election is not active", vote := none }, sampleStore) :=
  castVote_outside_window DbFaults.none 2500 sampleRequest sampleStore sampleElection
    rfl rfl (Or.inr (by decide))

/-- The vote lookup of `castVote` finds a vote as soon as one is stored for the pair. -/
theorem findOneVote_isSome_of_mem (votes : List Vote) (electionId voterId : Nat) (v : Vote)
    (hv : v ∈ votes) (he : v.election = electionId) (hr : v.voter = voterId) :
    ∃ w, findOneVote votes electionId voterId = some w := by
  cases h : findOneVote votes electionId voterId with
  | some w => exact ⟨w, rfl⟩
  | none =>
    simp only [findOneVote, List.find?_eq_none] at h
    have := h v hv
    simp [he, hr] at this

/-- C2. For an existing election inside its window and a voter who already has a stored
vote in it, `castVote` answers 400 "You have already voted in this election" and
returns the store as it received it (votes, counters and voters unchanged). -/
theorem castVote_duplicate (db : DbFaults) (now : Int) (req : VoteRequest) (s : Store)
    (election : Election) (v : Vote)
    (hfind : db.findElection = false) (hfindVote : db.findVote = false)
    (hel : s.elections[req.electionId]? = some election)
    (hstart : election.startDate ≤ now) (hend : now ≤ election.endDate)
    (hv : v ∈ s.votes) (he : v.election = req.electionId) (hr : v.voter = req.voterId) :
    castVote db now req s =
      ({ status := 400, message := "You have already voted in this election",
         vote := none }, s) := by
  obtain ⟨w, hw⟩ := findOneVote_isSome_of_mem s.votes req.electionId req.voterId v hv he hr
  have hwin : ¬ (now < election.startDate ∨ now > election.endDate) := by omega
  simp [castVote, hfind, hfindVote, hel, hwin, hw]

/-- Witness of C2: voter 0 votes again in the sample election after a first vote. -/
theorem castVote_duplicate_witness :
    castVote DbFaults.none 1500 sampleRequest
        { sampleStore with votes := [voteOf sampleRequest] } =
      ({ status := 400, message := "You have already voted in this election",
         vote := none }, { sampleStore with votes := [voteOf sampleRequest] }) :=
  castVote_duplicate DbFaults.none 1500 sampleRequest
    { sampleStore with votes := [voteOf sampleRequest] } sampleElection (voteOf sampleRequest)
    rfl rfl rfl (by decide) (by decide) (List.mem_singleton.mpr rfl) rfl rfl

/-- What `castVote` does to the vote collection: nothing, or it appends the request's
vote after its lookup found no vote for the pair. -/
theorem castVote_votes (db : DbFaults) (now : Int) (req : VoteRequest) (s : Store) :
    (castVote db now req s).2.votes = s.votes ∨
    (findOneVote s.votes req.electionId req.voterId = none ∧
      (castVote db now req s).2.votes = s.votes ++ [voteOf req]) := by
  unfold castVote castVoteFinish
  split
  · simp
  · split
    · simp
    · split
      · simp
      · split
        · simp
        · split
          · simp
          · rename_i hnone
            split
            · simp
            · right
              refine ⟨hnone, ?_⟩
              simp only [voteOf]
              split
              all_goals repeat' split
              all_goals simp

/-- One `castVote` keeps every (election, voter) pair at one stored vote at most. -/
theorem castVote_voteCount_le (db : DbFaults) (now : Int) (req : VoteRequest) (s : Store)
    (h : ∀ e v, voteCount s e v ≤ 1) (e v : Nat) :
    voteCount (castVote db now req s).2 e v ≤ 1 := by
  rcases castVote_votes db now req s with h1 | ⟨hnone, h2⟩
  · have := h e v
    simpa [voteCount, h1] using this
  · simp only [voteCount, h2, List.countP_append, List.countP_singleton, voteOf]
    by_cases hm : (req.electionId == e && req.voterId == v) = true
    · have hev : req.electionId = e ∧ req.voterId = v := by simpa using hm
      have hz : s.votes.countP (fun x => x.election == e && x.voter == v) = 0 := by
        rw [List.countP_eq_zero]
        simp only [findOneVote, List.find?_eq_none] at hnone
        intro a ha
        rw [← hev.1, ← hev.2]
        exact hnone a ha
      rw [hz]
      split <;> omega
    · have := h e v
      simp only [voteCount] at this
      rw [if_neg hm]
      omega

/-- The invariant of C3 along a sequence of requests. -/
theorem castVotes_voteCount_le (reqs : List (DbFaults × Int × VoteRequest)) (s : Store)
    (h : ∀ e v, voteCount s e v ≤ 1) (e v : Nat) :
    voteCount (castVotes reqs s) e v ≤ 1 := by
  induction reqs generalizing s with
  | nil => exact h e v
  | cons r rest ih =>
    obtain ⟨db, now, req⟩ := r
    exact ih (castVote db now req s).2 (fun e1 v1 => castVote_voteCount_le db now req s h e1 v1)

/-- C3. Starting from a store with no votes, after any sequence of `castVote` requests
handled one after another (any elections, voters, candidate indices, times and store
faults) the store holds at most one vote for every (election, voter) pair. -/
theorem castVotes_at_most_one_vote (reqs : List (DbFaults × Int × VoteRequest)) (s : Store)
    (hs : s.votes = []) (electionId voterId : Nat) :
    voteCount (castVotes reqs s) electionId voterId ≤ 1 := by
  apply castVotes_voteCount_le
  intro e v
  simp [voteCount, hs]

/-- Witness of C3: the same voter sends the same request twice to the sample store. -/
theorem castVotes_at_most_one_vote_witness :
    voteCount (castVotes [(DbFaults.none, 1500, sampleRequest),
      (DbFaults.none, 1600, sampleRequest)] sampleStore) 0 0 ≤ 1 :=
  castVotes_at_most_one_vote _ sampleStore rfl 0 0

/-- The lookup of `castVote` finds nothing when no stored vote is for the pair. -/
theorem findOneVote_eq_none (votes : List Vote) (electionId voterId : Nat)
    (h : ∀ v ∈ votes, ¬ (v.election = electionId ∧ v.voter = voterId)) :
    findOneVote votes electionId voterId = none := by
  simp only [findOneVote, List.find?_eq_none]
  intro v hv
  simpa using h v hv

/-- The store after a `castVote` that passes every check, finds candidate `candidate`
at the requested index and meets no store fault. -/
theorem castVote_accept (now : Int) (req : VoteRequest) (s : Store)
    (election : Election) (candidate : Candidate)
    (hel : s.elections[req.electionId]? = some election)
    (hstart : election.startDate ≤ now) (hend : now ≤ election.endDate)
    (hnew : ∀ v ∈ s.votes, ¬ (v.election = req.electionId ∧ v.voter = req.voterId))
    (hc : candidateAt election.candidates req.candidateId = some candidate) :
    castVote DbFaults.none now req s =
      ({ status := 201, message := "Vote cast successfully", vote := some (voteOf req) },
       { elections := s.elections.set req.electionId
           { election with
             candidates := election.candidates.set req.candidateId.toNat
               { candidate with votes := candidate.votes + 1 } },
         votes := s.votes ++ [voteOf req],
         voters := findByIdAndUpdateHasVoted s.voters req.voterId }) := by
  have hwin : ¬ (now < election.startDate ∨ now > election.endDate) := by omega
  have hnone := findOneVote_eq_none s.votes req.electionId req.voterId hnew
  simp [castVote, castVoteFinish, DbFaults.none, hel, hwin, hnone, hc, voteOf]

/-- C6, counterexample. An election is created with the counter `2 ^ 53` for its
candidate; a `castVote` for that candidate passes every check and answers 201, and the
counter is `2 ^ 53` as before. And a `castVote` whose voter id names no stored voter
answers 201 as well, and no `hasVoted` flag has become true. -/
theorem castVote_success_counterexample :
    castVote DbFaults.none 1500 sampleRequest
        (createElection DbFaults.none 0
          { sampleBody with
            candidates := [{ name := some "A", description := none,
                             votes := some (JsNumber.ofInt 9007199254740992) }] }
          emptyStore).2 =
      ({ status := 201, message := "Vote cast successfully",
         vote := some (voteOf sampleRequest) },
       { elections := [{ sampleElection with
           candidates := [{ name := "A", description := none,
                            votes := JsNumber.ofInt 9007199254740992 }] }],
         votes := [voteOf sampleRequest], voters := [] }) ∧
    (castVote DbFaults.none 1500 { sampleRequest with voterId := 5 } sampleStore).1.status
      = 201 ∧
    (castVote DbFaults.none 1500 { sampleRequest with voterId := 5 } sampleStore).2.voters =
      [{ address := "0xA1", hasVoted := false }, { address := "0xA2", hasVoted := false }] := by
  refine ⟨?_, ?_, ?_⟩ <;> decide

/-- C6, amended. A `castVote` that passes its checks (the election exists, `now` is
within `[startDate, endDate]`, the pair has no stored vote, the candidate index `i` is
in range) and meets no store failure answers 201 and: appends exactly the vote for
(election, voter, `i`); replaces candidate `i`'s counter `c` by the sum `c + 1` of the
source, which is `z + 1` when `c` is an integer `z` from `-2 ^ 53` up to `2 ^ 53 - 1`
and is `c` itself when `c` is `2 ^ 53`, and changes nothing else of that candidate;
leaves every other candidate, every other field of the election and every other election
unchanged; sets the `hasVoted` flag of the voter with the request's id when there is one,
changes no voter when there is none, and leaves every other voter unchanged. -/
theorem castVote_success (now : Int) (req : VoteRequest) (s : Store)
    (election : Election)
    (hel : s.elections[req.electionId]? = some election)
    (hstart : election.startDate ≤ now) (hend : now ≤ election.endDate)
    (hnew : ∀ v ∈ s.votes, ¬ (v.election = req.electionId ∧ v.voter = req.voterId))
    (hi : 0 ≤ req.candidateId) (hlt : req.candidateId.toNat < election.candidates.length) :
    (castVote DbFaults.none now req s).1 =
        { status := 201, message := "Vote cast successfully", vote := some (voteOf req) } ∧
    (castVote DbFaults.none now req s).2.votes = s.votes ++ [voteOf req] ∧
    (∃ election1 candidate,
      (castVote DbFaults.none now req s).2.elections[req.electionId]? = some election1 ∧
      election1 = { election with candidates := election1.candidates } ∧
      election1.candidates.length = election.candidates.length ∧
      election.candidates[req.candidateId.toNat]? = some candidate ∧
      election1.candidates[req.candidateId.toNat]? =
        some { candidate with votes := candidate.votes + 1 } ∧
      (∀ z : Int, candidate.votes = JsNumber.ofInt z → -(2 ^ 53) ≤ z → z < 2 ^ 53 →
        election1.candidates[req.candidateId.toNat]? =
          some { candidate with votes := JsNumber.ofInt (z + 1) }) ∧
      (candidate.votes = JsNumber.ofInt (2 ^ 53) →
        election1.candidates[req.candidateId.toNat]? = some candidate) ∧
      ∀ j, j ≠ req.candidateId.toNat → election1.candidates[j]? = election.candidates[j]?) ∧
    (castVote DbFaults.none now req s).2.elections.length = s.elections.length ∧
    (∀ k, k ≠ req.electionId →
      (castVote DbFaults.none now req s).2.elections[k]? = s.elections[k]?) ∧
    (∀ voter, s.voters[req.voterId]? = some voter →
      (castVote DbFaults.none now req s).2.voters[req.voterId]? =
        some { voter with hasVoted := true }) ∧
    (s.voters[req.voterId]? = none → (castVote DbFaults.none now req s).2.voters = s.voters) ∧
    (castVote DbFaults.none now req s).2.voters.length = s.voters.length ∧
    (∀ k, k ≠ req.voterId →
      (castVote DbFaults.none now req s).2.voters[k]? = s.voters[k]?) := by
  have hc : candidateAt election.candidates req.candidateId =
      some (election.candidates[req.candidateId.toNat]) := by
    simp [candidateAt, hi, hlt]
  have hidx : req.electionId < s.elections.length := by
    rcases List.getElem?_eq_some.mp hel with ⟨h, _⟩
    exact h
  rw [castVote_accept now req s election _ hel hstart hend hnew hc]
  refine ⟨rfl, rfl,
    ⟨{ election with
        candidates := election.candidates.set req.candidateId.toNat
          { election.candidates[req.candidateId.toNat] with
            votes := (election.candidates[req.candidateId.toNat]).votes + 1 } },
      election.candidates[req.candidateId.toNat], ?_, rfl, ?_, ?_, ?_, ?_, ?_, ?_⟩,
    ?_, ?_, ?_, ?_, ?_, ?_⟩
  · simp [hidx]
  · simp
  · simp [hlt]
  · simp [hlt]
  · intro z hz hlow hhigh
    simp only [List.getElem?_set_self hlt, hz, JsNumber.ofInt]
    rw [jsAdd_one z hlow hhigh]
  · intro hz
    simp only [List.getElem?_set_self hlt]
    have hsat : (election.candidates[req.candidateId.toNat]).votes + 1 =
        (election.candidates[req.candidateId.toNat]).votes := by
      rw [hz]
      exact jsAdd_one_saturated
    rw [hsat]
  · intro j hj
    simp [List.getElem?_set_ne (Ne.symm hj)]
  · simp
  · intro k hk
    simp [List.getElem?_set_ne (Ne.symm hk)]
  · intro voter hvoter
    have hvidx : req.voterId < s.voters.length := by
      rcases List.getElem?_eq_some.mp hvoter with ⟨h, _⟩
      exact h
    simp [findByIdAndUpdateHasVoted, hvoter, hvidx]
  · intro hnone
    simp [findByIdAndUpdateHasVoted, hnone]
  · cases hvoter : s.voters[req.voterId]? with
    | none => simp [findByIdAndUpdateHasVoted, hvoter]
    | some voter => simp [findByIdAndUpdateHasVoted, hvoter]
  · intro k hk
    cases hvoter : s.voters[req.voterId]? with
    | none => simp [findByIdAndUpdateHasVoted, hvoter]
    | some voter =>
      simp only [findByIdAndUpdateHasVoted, hvoter]
      simp [List.getElem?_set_ne (Ne.symm hk)]

/-- Witness of C6, amended: voter 0 votes for candidate 0 of the sample election at time
1500, and the counter 0 becomes 1. -/
theorem castVote_success_witness :
    (castVote DbFaults.none 1500 sampleRequest sampleStore).1.status = 201 ∧
    (castVote DbFaults.none 1500 sampleRequest sampleStore).2.votes =
      [voteOf sampleRequest] :=
  have h := castVote_success 1500 sampleRequest sampleStore sampleElection
    rfl (by decide) (by decide)
    (fun _ hv => absurd hv (List.not_mem_nil _)) (by decide) (by decide)
  ⟨congrArg VoteResponse.status h.1, h.2.1⟩

/-- C5, counterexample. Candidate index 7 is out of range for the two-candidate sample
election, yet `castVote` answers 201, stores the vote and sets the voter's flag. -/
theorem castVote_invalid_candidate_counterexample :
    candidateAt sampleElection.candidates 7 = none ∧
    castVote DbFaults.none 1500 { sampleRequest with candidateId := 7 } sampleStore =
      ({ status := 201, message := "Vote cast successfully",
         vote := some (voteOf { sampleRequest with candidateId := 7 }) },
       { elections := [sampleElection],
         votes := [voteOf { sampleRequest with candidateId := 7 }],
         voters := [{ address := "0xA1", hasVoted := true },
                    { address := "0xA2", hasVoted := false }] }) := by
  constructor
  · decide
  · decide

/-- C5, amended. For an election inside its window, a voter without a stored vote in it
and a candidate index out of range (negative, or not below the number of candidates),
and when no store operation fails, `castVote` reports no error: it answers 201, stores
the vote with the index as received and sets the voter's `hasVoted` flag; it changes no
counter (the elections are left as they were). -/
theorem castVote_out_of_range (now : Int) (req : VoteRequest) (s : Store)
    (election : Election)
    (hel : s.elections[req.electionId]? = some election)
    (hstart : election.startDate ≤ now) (hend : now ≤ election.endDate)
    (hnew : ∀ v ∈ s.votes, ¬ (v.election = req.electionId ∧ v.voter = req.voterId))
    (hout : req.candidateId < 0 ∨ (election.candidates.length : Int) ≤ req.candidateId) :
    castVote DbFaults.none now req s =
      ({ status := 201, message := "Vote cast successfully", vote := some (voteOf req) },
       { elections := s.elections,
         votes := s.votes ++ [voteOf req],
         voters := findByIdAndUpdateHasVoted s.voters req.voterId }) := by
  have hwin : ¬ (now < election.startDate ∨ now > election.endDate) := by omega
  have hnone := findOneVote_eq_none s.votes req.electionId req.voterId hnew
  have hc : candidateAt election.candidates req.candidateId = none := by
    unfold candidateAt
    split
    · rw [List.getElem?_eq_none_iff]
      omega
    · rfl
  simp [castVote, castVoteFinish, DbFaults.none, hel, hwin, hnone, hc, voteOf]

/-- Witness of C5, amended: index 7 at the sample election. -/
theorem castVote_out_of_range_witness :
    (castVote DbFaults.none 1500 { sampleRequest with candidateId := 7 } sampleStore).1.status
      = 201 :=
  congrArg (fun r => r.1.status)
    (castVote_out_of_range 1500 { sampleRequest with candidateId := 7 } sampleStore
      sampleElection rfl (by decide) (by decide)
      (fun _ hv => absurd hv (List.not_mem_nil _)) (Or.inr (by decide)))

/-- C7, counterexample. When the save of the election document throws, `castVote`
answers 500 but the vote saved just before stays in the store: the store is not the
one before the request and holds a vote without its counter increment. -/
theorem castVote_not_atomic_counterexample :
    castVote { DbFaults.none with saveElection := true } 1500 sampleRequest sampleStore =
      (castVoteError, { sampleStore with votes := [voteOf sampleRequest] }) ∧
    (castVote { DbFaults.none with saveElection := true } 1500 sampleRequest sampleStore).2
      ≠ sampleStore ∧
    totalVotes sampleElection.candidates = 0 := by
  refine ⟨?_, ?_, ?_⟩ <;> decide

/-- C7, amended. A `castVote` that reaches its writes (election found, inside the
window, no stored vote for the pair, both lookups completed) and in which a write
throws answers 500 and rolls nothing back. If saving the vote throws, the store is as
it was. If the save of the election throws, the vote stays stored and every election
is as it was. If the update of the voter throws, the vote stays stored together with
the counter increment (when the index names a candidate) and no voter changes. -/
theorem castVote_write_failure (db : DbFaults) (now : Int) (req : VoteRequest) (s : Store)
    (election : Election)
    (hfind : db.findElection = false) (hfindVote : db.findVote = false)
    (hel : s.elections[req.electionId]? = some election)
    (hstart : election.startDate ≤ now) (hend : now ≤ election.endDate)
    (hnew : ∀ v ∈ s.votes, ¬ (v.election = req.electionId ∧ v.voter = req.voterId)) :
    (db.saveVote = true → castVote db now req s = (castVoteError, s)) ∧
    (db.saveVote = false → db.saveElection = true →
      ∀ candidate, candidateAt election.candidates req.candidateId = some candidate →
        castVote db now req s =
          (castVoteError, { s with votes := s.votes ++ [voteOf req] })) ∧
    (db.saveVote = false → db.saveElection = false → db.updateVoter = true →
      ∀ candidate, candidateAt election.candidates req.candidateId = some candidate →
        castVote db now req s =
          (castVoteError,
           { elections := s.elections.set req.electionId
               { election with
                 candidates := election.candidates.set req.candidateId.toNat
                   { candidate with votes := candidate.votes + 1 } },
             votes := s.votes ++ [voteOf req],
             voters := s.voters })) ∧
    (db.saveVote = false → db.updateVoter = true →
      candidateAt election.candidates req.candidateId = none →
        castVote db now req s =
          (castVoteError, { s with votes := s.votes ++ [voteOf req] })) := by
  have hwin : ¬ (now < election.startDate ∨ now > election.endDate) := by omega
  have hnone := findOneVote_eq_none s.votes req.electionId req.voterId hnew
  refine ⟨?_, ?_, ?_, ?_⟩
  · intro h1
    simp [castVote, hfind, hfindVote, hel, hwin, hnone, h1]
  · intro h1 h2 candidate hc
    simp [castVote, hfind, hfindVote, hel, hwin, hnone, h1, h2, hc, voteOf]
  · intro h1 h2 h3 candidate hc
    simp [castVote, castVoteFinish, hfind, hfindVote, hel, hwin, hnone, h1, h2, h3, hc, voteOf]
  · intro h1 h3 hc
    simp [castVote, castVoteFinish, hfind, hfindVote, hel, hwin, hnone, h1, h3, hc, voteOf]

/-- Witness of C7, amended: the sample request while the election save throws. -/
theorem castVote_write_failure_witness :
    castVote { DbFaults.none with saveElection := true } 1500 sampleRequest sampleStore =
      (castVoteError, { sampleStore with votes := sampleStore.votes ++ [voteOf sampleRequest] }) :=
  (castVote_write_failure { DbFaults.none with saveElection := true } 1500 sampleRequest
    sampleStore sampleElection rfl rfl rfl (by decide) (by decide)
    (fun _ hv => absurd hv (List.not_mem_nil _))).2.1 rfl rfl
    { name := "A", description := none, votes := 0 } rfl

/-! ## Theorems about the counters and the stored votes -/

/-- The sum of two natural numbers is exact when it is at most `2 ^ 53`. -/
theorem jsAdd_ofNat (a b : Nat) (h : a + b ≤ 2 ^ 53) :
    JsNumber.ofNat a + JsNumber.ofNat b = JsNumber.ofNat (a + b) := by
  unfold JsNumber.ofNat
  rw [jsAdd_int (a : Int) (b : Int) (by omega)]
  push_cast
  rfl

/-- The fold of `totalVotes` over counters that are natural numbers, from a natural
number: it is the exact sum as long as that sum is at most `2 ^ 53`. -/
theorem foldl_votes_nat (candidates : List Candidate) (counts : List Nat) (start : Nat)
    (hc : candidates.map Candidate.votes = counts.map JsNumber.ofNat)
    (hb : start + counts.sum ≤ 2 ^ 53) :
    candidates.foldl (fun sum candidate => sum + candidate.votes) (JsNumber.ofNat start) =
      JsNumber.ofNat (start + counts.sum) := by
  induction candidates generalizing counts start with
  | nil =>
    cases counts with
    | nil => simp
    | cons k ks => simp at hc
  | cons c rest ih =>
    cases counts with
    | nil => simp at hc
    | cons k ks =>
      simp only [List.map_cons, List.cons.injEq] at hc
      simp only [List.sum_cons] at hb
      simp only [List.foldl_cons, hc.1]
      rw [jsAdd_ofNat start k (by omega), ih ks (start + k) hc.2 (by omega), List.sum_cons,
        Nat.add_assoc]

/-- The total of counters that are natural numbers with sum at most `2 ^ 53` is their
exact sum. -/
theorem totalVotes_nat (candidates : List Candidate) (counts : List Nat)
    (hc : candidates.map Candidate.votes = counts.map JsNumber.ofNat)
    (hb : counts.sum ≤ 2 ^ 53) :
    totalVotes candidates = JsNumber.ofNat counts.sum := by
  have h := foldl_votes_nat candidates counts 0 hc (by omega)
  simp only [Nat.zero_add] at h
  exact h

/-- Raising one entry of a list of natural numbers by 1 raises the sum by 1. -/
theorem sum_set_succ (counts : List Nat) (i k : Nat) (h : counts[i]? = some k) :
    (counts.set i (k + 1)).sum = counts.sum + 1 := by
  induction counts generalizing i with
  | nil => simp at h
  | cons d rest ih =>
    cases i with
    | zero =>
      simp only [List.getElem?_cons_zero, Option.some.injEq] at h
      subst h
      simp only [List.set_cons_zero, List.sum_cons]
      omega
    | succ j =>
      simp only [List.getElem?_cons_succ] at h
      simp only [List.set_cons_succ, List.sum_cons, ih j h]
      omega

/-- An entry of a list of natural numbers is at most the sum. -/
theorem le_sum_of_getElem (counts : List Nat) (i k : Nat) (h : counts[i]? = some k) :
    k ≤ counts.sum := by
  induction counts generalizing i with
  | nil => simp at h
  | cons d rest ih =>
    cases i with
    | zero =>
      simp only [List.getElem?_cons_zero, Option.some.injEq] at h
      subst h
      simp only [List.sum_cons]
      omega
    | succ j =>
      simp only [List.getElem?_cons_succ] at h
      have := ih j h
      simp only [List.sum_cons]
      omega

/-- Candidates cast from inputs that supply no votes have the counter 0 each. -/
theorem castCandidates_counts (inputs : List CandidateInput) (candidates : List Candidate)
    (h : castCandidates inputs = some candidates)
    (hz : inputs.all (fun c => c.votes.getD 0 == 0) = true) :
    ∃ counts : List Nat,
      candidates.map Candidate.votes = counts.map JsNumber.ofNat ∧
      counts.sum = 0 := by
  induction inputs generalizing candidates with
  | nil =>
    simp only [castCandidates, Option.some.injEq] at h
    subst h
    exact ⟨[], rfl, rfl⟩
  | cons c rest ih =>
    simp only [List.all_cons, Bool.and_eq_true, beq_iff_eq] at hz
    unfold castCandidates at h
    split at h
    · rename_i x xs hx hxs
      simp only [Option.some.injEq] at h
      subst h
      obtain ⟨counts, hmap, hsum⟩ := ih xs hxs hz.2
      refine ⟨0 :: counts, ?_, by simpa using hsum⟩
      have hvotes : x.votes = JsNumber.ofNat 0 := by
        unfold castCandidate at hx
        cases hn : requiredString c.name with
        | none => simp [hn] at hx
        | some name =>
          cases hv : c.votes with
          | none =>
            simp only [hn, hv, Option.some.injEq] at hx
            subst hx
            rfl
          | some value =>
            have hvalue : value = 0 := by simpa [hv] using hz.1
            subst hvalue
            have hcast : castNumber 0 = some 0 := by decide
            simp only [hn, hv, hcast, Option.some.injEq] at hx
            subst hx
            rfl
      simp only [List.map_cons, hvotes, hmap]
    · simp at h

/-- The candidates of a new election are the cast candidates of the body. -/
theorem newElection_candidates (now : Int) (body : ElectionBody) (election : Election)
    (h : newElection now body = some election) :
    castCandidates body.candidates = some election.candidates := by
  unfold newElection at h
  split at h
  · rename_i hc _
    simp only [Option.some.injEq] at h
    subst h
    exact hc
  · simp at h

/-- What `createElection` does to the store: nothing, or it appends the new election. -/
theorem createElection_store (db : DbFaults) (now : Int) (body : ElectionBody) (s : Store) :
    (createElection db now body s).2 = s ∨
    ∃ election, newElection now body = some election ∧
      (createElection db now body s).2 =
        { s with elections := s.elections ++ [election] } := by
  cases hnew : newElection now body with
  | none => left; simp [createElection, hnew]
  | some election =>
    by_cases h1 : db.saveElection = true
    · left; simp [createElection, hnew, h1]
    · by_cases h2 : s.elections.any
          (fun e => e.contractAddress == election.contractAddress) = true
      · left; simp only [createElection, hnew, h1, h2]; simp
      · right
        refine ⟨election, rfl, ?_⟩
        simp only [createElection, hnew, h1, h2]
        simp

/-- What `castVote` does to the store when the election save does not throw: nothing,
or it appends the vote and, when the index names a candidate, raises that counter. -/
theorem castVote_store (db : DbFaults) (now : Int) (req : VoteRequest) (s : Store)
    (hsave : db.saveElection = false) :
    (castVote db now req s).2 = s ∨
    ∃ election, s.elections[req.electionId]? = some election ∧
      (castVote db now req s).2.votes = s.votes ++ [voteOf req] ∧
      ((candidateAt election.candidates req.candidateId = none ∧
          (castVote db now req s).2.elections = s.elections) ∨
       (∃ candidate, candidateAt election.candidates req.candidateId = some candidate ∧
          (castVote db now req s).2.elections =
            s.elections.set req.electionId
              { election with
                candidates := election.candidates.set req.candidateId.toNat
                  { candidate with votes := candidate.votes + 1 } })) := by
  by_cases h1 : db.findElection = true
  · left; simp [castVote, h1]
  cases hel : s.elections[req.electionId]? with
  | none => left; simp [castVote, h1, hel]
  | some election =>
    by_cases hwin : now < election.startDate ∨ now > election.endDate
    · left; simp [castVote, h1, hel, hwin]
    by_cases h2 : db.findVote = true
    · left; simp [castVote, h1, hel, hwin, h2]
    cases hfo : findOneVote s.votes req.electionId req.voterId with
    | some w => left; simp [castVote, h1, hel, hwin, h2, hfo]
    | none =>
      by_cases h3 : db.saveVote = true
      · left; simp [castVote, h1, hel, hwin, h2, hfo, h3]
      right
      refine ⟨election, rfl, ?_⟩
      cases hc : candidateAt election.candidates req.candidateId with
      | none =>
        by_cases h5 : db.updateVoter = true <;>
          simp [castVote, castVoteFinish, h1, hel, hwin, h2, hfo, h3, hc, h5, voteOf]
      | some candidate =>
        by_cases h5 : db.updateVoter = true <;>
          simp [castVote, castVoteFinish, h1, hel, hwin, h2, hfo, h3, hc, h5, hsave, voteOf]

/-- An index that names a candidate is non-negative and inside the list. -/
theorem candidateAt_eq_some (candidates : List Candidate) (i : Int) (c : Candidate)
    (h : candidateAt candidates i = some c) : candidates[i.toNat]? = some c := by
  unfold candidateAt at h
  split at h
  · exact h
  · simp at h

/-- Replacing a candidate does not change which indices name a candidate. -/
theorem candidateAt_isSome_set (candidates : List Candidate) (k : Nat) (c : Candidate)
    (i : Int) :
    (candidateAt (candidates.set k c) i).isSome = (candidateAt candidates i).isSome := by
  unfold candidateAt
  split
  · by_cases h : i.toNat < candidates.length
    · have h2 : i.toNat < (candidates.set k c).length := by simpa using h
      rw [List.getElem?_eq_getElem h, List.getElem?_eq_getElem h2]
      rfl
    · have h1 : candidates[i.toNat]? = none := by
        rw [List.getElem?_eq_none_iff]; omega
      have h2 : (candidates.set k c)[i.toNat]? = none := by
        rw [List.getElem?_eq_none_iff, List.length_set]; omega
      rw [h1, h2]
  · rfl

/-- The counted votes after one more vote is stored. -/
theorem countedVotes_append (s : Store) (v : Vote) (elections : List Election)
    (voters : List Voter) (electionId : Nat) (candidates : List Candidate) :
    countedVotes { elections := elections, votes := s.votes ++ [v], voters := voters }
        electionId candidates =
      countedVotes s electionId candidates +
        (if (v.election == electionId && (candidateAt candidates v.candidateId).isSome) = true
          then 1 else 0) := by
  simp only [countedVotes, List.countP_append, List.countP_singleton]

/-- The counted votes depend only on the vote collection. -/
theorem countedVotes_votes (s t : Store) (h : t.votes = s.votes) (electionId : Nat)
    (candidates : List Candidate) :
    countedVotes t electionId candidates = countedVotes s electionId candidates := by
  simp only [countedVotes, h]

/-- The counted votes after a counter was replaced. -/
theorem countedVotes_set (s : Store) (electionId : Nat) (candidates : List Candidate)
    (k : Nat) (c : Candidate) :
    countedVotes s electionId (candidates.set k c) = countedVotes s electionId candidates := by
  simp only [countedVotes, candidateAt_isSome_set]

/-- The counted votes of an election are at most the stored votes. -/
theorem countedVotes_le (s : Store) (electionId : Nat) (candidates : List Candidate) :
    countedVotes s electionId candidates ≤ s.votes.length := by
  simp only [countedVotes]
  exact List.countP_le_length _

/-- The empty collections satisfy the relation. -/
theorem countersMatch_init (s : Store) (he : s.elections = []) (hv : s.votes = []) :
    CountersMatch s := by
  constructor
  · intro v hmem
    simp [hv] at hmem
  · intro electionId election hel
    simp [he] at hel

/-- A `createElection` that supplies no votes keeps the relation. -/
theorem countersMatch_createElection (db : DbFaults) (now : Int) (body : ElectionBody)
    (s : Store) (hz : body.candidates.all (fun c => c.votes.getD 0 == 0) = true)
    (h : CountersMatch s) : CountersMatch (createElection db now body s).2 := by
  rcases createElection_store db now body s with hs | ⟨election, hnew, hs⟩
  · rw [hs]; exact h
  · rw [hs]
    obtain ⟨h1, h2⟩ := h
    constructor
    · intro v hv
      have := h1 v hv
      simp only [List.length_append, List.length_singleton]
      omega
    · intro electionId e hel
      change ∃ counts : List Nat,
        e.candidates.map Candidate.votes =
          counts.map JsNumber.ofNat ∧
        counts.sum = countedVotes s electionId e.candidates
      change (s.elections ++ [election])[electionId]? = some e at hel
      by_cases hlt : electionId < s.elections.length
      · simp only [List.getElem?_append_left hlt] at hel
        exact h2 electionId e hel
      · have hge : s.elections.length ≤ electionId := by omega
        simp only [List.getElem?_append_right hge] at hel
        have hidx : electionId - s.elections.length = 0 := by
          by_contra hne
          have : ([election] : List Election)[electionId - s.elections.length]? = none := by
            rw [List.getElem?_eq_none_iff]
            simp only [List.length_singleton]
            omega
          rw [this] at hel
          simp at hel
        rw [hidx] at hel
        simp only [List.getElem?_cons_zero, Option.some.injEq] at hel
        subst hel
        obtain ⟨counts, hmap, hsum⟩ := castCandidates_counts body.candidates
          election.candidates (newElection_candidates now body election hnew) hz
        refine ⟨counts, hmap, ?_⟩
        rw [hsum]
        symm
        simp only [countedVotes, List.countP_eq_zero]
        intro v hv
        have := h1 v hv
        have hne : v.election ≠ electionId := by omega
        simp [hne]

/-- A `castVote` whose election save does not throw keeps the relation, as long as
the store holds at most `2 ^ 53` votes afterwards. -/
theorem countersMatch_castVote (db : DbFaults) (now : Int) (req : VoteRequest) (s : Store)
    (hsave : db.saveElection = false) (h : CountersMatch s)
    (hbound : (castVote db now req s).2.votes.length ≤ 2 ^ 53) :
    CountersMatch (castVote db now req s).2 := by
  rcases castVote_store db now req s hsave with hs | ⟨election, hel, hv, hcase⟩
  · rw [hs]; exact h
  · obtain ⟨h1, h2⟩ := h
    have hidx : req.electionId < s.elections.length := by
      rcases List.getElem?_eq_some.mp hel with ⟨hlt, _⟩
      exact hlt
    have hroom : s.votes.length < 2 ^ 53 := by
      rw [hv] at hbound
      simp only [List.length_append, List.length_singleton] at hbound
      omega
    have hcv : ∀ electionId candidates,
        countedVotes (castVote db now req s).2 electionId candidates =
          countedVotes s electionId candidates +
            (if (req.electionId == electionId &&
                (candidateAt candidates req.candidateId).isSome) = true then 1 else 0) := by
      intro electionId candidates
      have := countedVotes_append s (voteOf req) (castVote db now req s).2.elections
        (castVote db now req s).2.voters electionId candidates
      simp only [voteOf] at this
      rw [← this]
      exact countedVotes_votes _ _ (by simp [hv, voteOf]) electionId candidates
    have hlen : (castVote db now req s).2.elections.length = s.elections.length := by
      rcases hcase with ⟨_, hE⟩ | ⟨_, _, hE⟩ <;> simp [hE]
    constructor
    · intro v hmem
      rw [hv] at hmem
      rw [hlen]
      rcases List.mem_append.mp hmem with hm | hm
      · exact h1 v hm
      · simp only [List.mem_singleton] at hm
        subst hm
        exact hidx
    · intro electionId e he
      rw [hcv]
      rcases hcase with ⟨hc, hE⟩ | ⟨candidate, hc, hE⟩
      · rw [hE] at he
        obtain ⟨counts, hmap, hsum⟩ := h2 electionId e he
        refine ⟨counts, hmap, ?_⟩
        rw [hsum]
        by_cases hid : req.electionId = electionId
        · subst hid
          rw [hel] at he
          simp only [Option.some.injEq] at he
          subst he
          simp [hc]
        · simp [hid]
      · rw [hE] at he
        by_cases hid : req.electionId = electionId
        · subst hid
          rw [List.getElem?_set_self hidx] at he
          simp only [Option.some.injEq] at he
          subst he
          obtain ⟨counts, hmap, hsum⟩ := h2 req.electionId election hel
          have hcand := candidateAt_eq_some _ _ _ hc
          have hvotes : (election.candidates.map Candidate.votes)[req.candidateId.toNat]? =
              some candidate.votes := by
            rw [List.getElem?_map, hcand]
            rfl
          rw [hmap, List.getElem?_map] at hvotes
          cases hk : counts[req.candidateId.toNat]? with
          | none => rw [hk] at hvotes; simp at hvotes
          | some k =>
            rw [hk] at hvotes
            simp only [Option.map_some', Option.some.injEq] at hvotes
            have hle : k ≤ counts.sum := le_sum_of_getElem counts _ k hk
            have hcount := countedVotes_le s req.electionId election.candidates
            refine ⟨counts.set req.candidateId.toNat (k + 1), ?_, ?_⟩
            · simp only [List.map_set, hmap, ← hvotes]
              rw [← jsAdd_ofNat k 1 (by omega)]
              rfl
            · rw [sum_set_succ counts _ k hk, hsum, countedVotes_set, candidateAt_isSome_set]
              simp [hc]
        · rw [List.getElem?_set_ne hid] at he
          obtain ⟨counts, hmap, hsum⟩ := h2 electionId e he
          refine ⟨counts, hmap, ?_⟩
          rw [hsum]
          simp [hid]

/-- No request removes a stored vote. -/
theorem votes_length_handle (r : Request) (s : Store) :
    s.votes.length ≤ (handle r s).votes.length := by
  cases r with
  | create db now body =>
    rcases createElection_store db now body s with hs | ⟨election, _, hs⟩
    · simp [handle, hs]
    · simp [handle, hs]
  | vote db now req =>
    rcases castVote_votes db now req s with hs | ⟨_, hs⟩
    · simp [handle, hs]
    · simp [handle, hs]

/-- No sequence of requests removes a stored vote. -/
theorem votes_length_handleAll (reqs : List Request) (s : Store) :
    s.votes.length ≤ (handleAll reqs s).votes.length := by
  induction reqs generalizing s with
  | nil => exact Nat.le_refl _
  | cons r rest ih =>
    exact Nat.le_trans (votes_length_handle r s) (ih (handle r s))

/-- Sequences of requests that supply no votes and whose election saves do not throw
keep the relation, as long as the store holds at most `2 ^ 53` votes in the end. -/
theorem countersMatch_handleAll (reqs : List Request) (s : Store)
    (hreqs : ∀ r ∈ reqs, suppliesNoVotes r = true ∧ electionSaveSucceeds r = true)
    (hbound : (handleAll reqs s).votes.length ≤ 2 ^ 53)
    (h : CountersMatch s) : CountersMatch (handleAll reqs s) := by
  induction reqs generalizing s with
  | nil => exact h
  | cons r rest ih =>
    have hr := hreqs r (List.mem_cons_self r rest)
    apply ih (handle r s) (fun q hq => hreqs q (List.mem_cons_of_mem r hq)) hbound
    have hstep : (handle r s).votes.length ≤ 2 ^ 53 :=
      Nat.le_trans (votes_length_handleAll rest (handle r s)) hbound
    cases r with
    | create db now body =>
      exact countersMatch_createElection db now body s hr.1 h
    | vote db now req =>
      have hsave : db.saveElection = false := by simpa [electionSaveSucceeds] using hr.2
      exact countersMatch_castVote db now req s hsave h hstep

/-- The store after a sequence of requests and one more. -/
theorem handleAll_append (reqs : List Request) (r : Request) (s : Store) :
    handleAll (reqs ++ [r]) s = handle r (handleAll reqs s) := by
  induction reqs generalizing s with
  | nil => rfl
  | cons q rest ih => exact ih (handle q s)

/-- Adding 1 to a counter of natural numbers that stops at `2 ^ 53`. -/
theorem jsAdd_one_capped (n : Nat) :
    JsNumber.ofNat (min n (2 ^ 53)) + 1 = JsNumber.ofNat (min (n + 1) (2 ^ 53)) := by
  by_cases h : n < 2 ^ 53
  · have h1 : min n (2 ^ 53) = n := Nat.min_eq_left (Nat.le_of_lt h)
    have h2 : min (n + 1) (2 ^ 53) = n + 1 := Nat.min_eq_left h
    rw [h1, h2]
    exact jsAdd_ofNat n 1 h
  · have h1 : min n (2 ^ 53) = 2 ^ 53 := Nat.min_eq_right (by omega)
    have h2 : min (n + 1) (2 ^ 53) = 2 ^ 53 := Nat.min_eq_right (by omega)
    rw [h1, h2]
    exact jsAdd_one_saturated

/-- The store after the sample election was created and the voters 0 to `n - 1` have
voted for its first candidate: the counter has followed the votes up to `2 ^ 53` and has
stopped there. -/
theorem handleAll_manyVotes (n : Nat) :
    handleAll (Request.create DbFaults.none 0 sampleBody :: manyVotes n) emptyStore =
      manyVotesStore n := by
  induction n with
  | zero => decide
  | succ n ih =>
    have hsplit : Request.create DbFaults.none 0 sampleBody :: manyVotes (n + 1) =
        (Request.create DbFaults.none 0 sampleBody :: manyVotes n) ++
          [Request.vote DbFaults.none 1500 { sampleRequest with voterId := n }] := by
      simp [manyVotes, List.range_succ]
    have hnew : ∀ v ∈ (manyVotesStore n).votes,
        ¬ (v.election = ({ sampleRequest with voterId := n } : VoteRequest).electionId ∧
           v.voter = ({ sampleRequest with voterId := n } : VoteRequest).voterId) := by
      intro v hv
      simp only [manyVotesStore, List.mem_map, List.mem_range] at hv
      obtain ⟨voter, hlt, hvoter⟩ := hv
      subst hvoter
      simp only [voteOf, sampleRequest]
      omega
    have hstart : (manyVotesElection n).startDate ≤ 1500 := by
      show (1000 : Int) ≤ 1500
      decide
    have hend : (1500 : Int) ≤ (manyVotesElection n).endDate := by
      show (1500 : Int) ≤ 2000
      decide
    rw [hsplit, handleAll_append, ih]
    simp only [handle]
    rw [castVote_accept 1500 { sampleRequest with voterId := n } (manyVotesStore n)
      (manyVotesElection n)
      { name := "A", description := none, votes := JsNumber.ofNat (min n (2 ^ 53)) }
      rfl hstart hend hnew rfl]
    simp only [manyVotesStore, manyVotesElection, jsAdd_one_capped, sampleRequest,
      findByIdAndUpdateHasVoted, List.range_succ, List.map_append, List.map_cons,
      List.map_nil]
    rfl

/-- The store after `n` votes for the first candidate holds `n` votes of election 0. -/
theorem electionVoteCount_manyVotes (n : Nat) :
    electionVoteCount (manyVotesStore n) 0 = n := by
  simp only [electionVoteCount, manyVotesStore, List.countP_map]
  have hall : List.countP ((fun v => v.election == 0) ∘
      fun voter => voteOf { sampleRequest with voterId := voter }) (List.range n) =
      (List.range n).length := by
    rw [List.countP_eq_length]
    intro voter _
    rfl
  rw [hall, List.length_range]

/-- The requests that create the sample election and cast `n` votes supply no votes,
and none of their election saves throws. -/
theorem manyVotes_requests (n : Nat) :
    ∀ r ∈ Request.create DbFaults.none 0 sampleBody :: manyVotes n,
      suppliesNoVotes r = true ∧ electionSaveSucceeds r = true := by
  intro r hr
  rcases List.mem_cons.mp hr with h | h
  · subst h
    exact ⟨by decide, rfl⟩
  · simp only [manyVotes, List.mem_map] at h
    obtain ⟨voter, _, hvoter⟩ := h
    subst hvoter
    exact ⟨rfl, rfl⟩

/-- C4, counterexample. Four request sequences from the empty store after which the
counters of election 0 do not total its stored votes: an election created with an
initial count of 5 (counters 5, votes 0); a vote for candidate index 7 of a
two-candidate election (counters 0, votes 1); a vote whose election save throws
(counters 0, votes 1); and, with no initial counts and no failing save, the votes of
`2 ^ 53 + 1` voters for one candidate (counters `2 ^ 53`, votes `2 ^ 53 + 1`). -/
theorem counters_match_votes_counterexample :
    ((handleAll [Request.create DbFaults.none 0
          { sampleBody with
            candidates := [{ name := some "A", description := none, votes := some 5 }] }]
        emptyStore).elections.map (fun e => totalVotes e.candidates) = [5] ∧
      electionVoteCount (handleAll [Request.create DbFaults.none 0
          { sampleBody with
            candidates := [{ name := some "A", description := none, votes := some 5 }] }]
        emptyStore) 0 = 0) ∧
    ((handleAll [Request.create DbFaults.none 0 sampleBody,
          Request.vote DbFaults.none 1500 { sampleRequest with candidateId := 7 }]
        emptyStore).elections.map (fun e => totalVotes e.candidates) = [0] ∧
      electionVoteCount (handleAll [Request.create DbFaults.none 0 sampleBody,
          Request.vote DbFaults.none 1500 { sampleRequest with candidateId := 7 }]
        emptyStore) 0 = 1) ∧
    ((handleAll [Request.create DbFaults.none 0 sampleBody,
          Request.vote { DbFaults.none with saveElection := true } 1500 sampleRequest]
        emptyStore).elections.map (fun e => totalVotes e.candidates) = [0] ∧
      electionVoteCount (handleAll [Request.create DbFaults.none 0 sampleBody,
          Request.vote { DbFaults.none with saveElection := true } 1500 sampleRequest]
        emptyStore) 0 = 1) ∧
    ((∀ r ∈ Request.create DbFaults.none 0 sampleBody :: manyVotes (2 ^ 53 + 1),
        suppliesNoVotes r = true ∧ electionSaveSucceeds r = true) ∧
      (handleAll (Request.create DbFaults.none 0 sampleBody :: manyVotes (2 ^ 53 + 1))
        emptyStore).elections.map (fun e => totalVotes e.candidates) =
          [JsNumber.ofNat (2 ^ 53)] ∧
      electionVoteCount
        (handleAll (Request.create DbFaults.none 0 sampleBody :: manyVotes (2 ^ 53 + 1))
          emptyStore) 0 = 2 ^ 53 + 1) := by
  refine ⟨⟨?_, ?_⟩, ⟨?_, ?_⟩, ⟨?_, ?_⟩, ⟨manyVotes_requests _, ?_, ?_⟩⟩
  · decide
  · decide
  · decide
  · decide
  · decide
  · decide
  · have hmin : min (2 ^ 53 + 1) (2 ^ 53) = 2 ^ 53 := Nat.min_eq_right (by decide)
    rw [handleAll_manyVotes]
    simp only [manyVotesStore, manyVotesElection, hmin, List.map_cons, List.map_nil]
    decide
  · rw [handleAll_manyVotes]
    exact electionVoteCount_manyVotes _

/-- C4, amended. In every state reached from a store without elections and votes through
`createElection` requests that supply no initial vote counts and `castVote` requests
whose election save does not throw, and in which at most `2 ^ 53` votes are stored, the
counters of every election are natural numbers whose sum is the number of stored votes
of that election whose candidate index names one of its candidates, and the total that
the source computes from them is that number; so it is the number of all its stored
votes when every one of them names a candidate. -/
theorem counters_match_counted_votes (reqs : List Request) (s : Store)
    (he : s.elections = []) (hv : s.votes = [])
    (hreqs : ∀ r ∈ reqs, suppliesNoVotes r = true ∧ electionSaveSucceeds r = true)
    (hbound : (handleAll reqs s).votes.length ≤ 2 ^ 53)
    (electionId : Nat) (election : Election)
    (hel : (handleAll reqs s).elections[electionId]? = some election) :
    (∃ counts : List Nat,
      election.candidates.map Candidate.votes =
        counts.map JsNumber.ofNat ∧
      counts.sum = countedVotes (handleAll reqs s) electionId election.candidates) ∧
    totalVotes election.candidates =
      JsNumber.ofNat (countedVotes (handleAll reqs s) electionId election.candidates) ∧
    ((∀ v ∈ (handleAll reqs s).votes, v.election = electionId →
        (candidateAt election.candidates v.candidateId).isSome = true) →
      totalVotes election.candidates =
        JsNumber.ofNat (electionVoteCount (handleAll reqs s) electionId)) := by
  have h := (countersMatch_handleAll reqs s hreqs hbound (countersMatch_init s he hv)).2
    electionId election hel
  obtain ⟨counts, hmap, hsum⟩ := h
  have hle := countedVotes_le (handleAll reqs s) electionId election.candidates
  have htotal : totalVotes election.candidates =
      JsNumber.ofNat (countedVotes (handleAll reqs s) electionId election.candidates) := by
    rw [totalVotes_nat election.candidates counts hmap (by omega), hsum]
  refine ⟨⟨counts, hmap, hsum⟩, htotal, fun hall => ?_⟩
  rw [htotal]
  have hcount : countedVotes (handleAll reqs s) electionId election.candidates =
      electionVoteCount (handleAll reqs s) electionId := by
    simp only [countedVotes, electionVoteCount]
    apply List.countP_congr
    intro v hmem
    constructor
    · intro hp
      simp only [Bool.and_eq_true] at hp
      exact hp.1
    · intro hp
      simp only [Bool.and_eq_true]
      exact ⟨hp, hall v hmem (by simpa using hp)⟩
  rw [hcount]

/-- Witness of C4, amended: an election is created and voter 0 votes for candidate 0. -/
theorem counters_match_counted_votes_witness :
    totalVotes
        ({ sampleElection with
           candidates := [{ name := "A", description := none, votes := 1 },
                          { name := "B", description := none, votes := 0 }] } :
          Election).candidates =
      JsNumber.ofNat
        (countedVotes (handleAll [Request.create DbFaults.none 0 sampleBody,
            Request.vote DbFaults.none 1500 sampleRequest] emptyStore) 0
          [{ name := "A", description := none, votes := 1 },
           { name := "B", description := none, votes := 0 }]) :=
  (counters_match_counted_votes
    [Request.create DbFaults.none 0 sampleBody, Request.vote DbFaults.none 1500 sampleRequest]
    emptyStore rfl rfl (by decide) (by decide) 0
    { sampleElection with
      candidates := [{ name := "A", description := none, votes := 1 },
                     { name := "B", description := none, votes := 0 }] }
    (by decide)).2.1

/-! ## Theorems about `getResults` -/

/-- The fold of `totalVotes` over counters that are integers, from an integer: it is
the exact sum as long as the magnitudes add up to at most `2 ^ 53`. -/
theorem foldl_votes_int (candidates : List Candidate) (values : List Int) (start : Int)
    (hc : candidates.map Candidate.votes = values.map JsNumber.ofInt)
    (hb : start.natAbs + (values.map Int.natAbs).sum ≤ 2 ^ 53) :
    candidates.foldl (fun sum candidate => sum + candidate.votes) (JsNumber.ofInt start) =
      JsNumber.ofInt (start + values.sum) := by
  induction candidates generalizing values start with
  | nil =>
    cases values with
    | nil => simp
    | cons z zs => simp at hc
  | cons c rest ih =>
    cases values with
    | nil => simp at hc
    | cons z zs =>
      simp only [List.map_cons, List.cons.injEq] at hc
      simp only [List.map_cons, List.sum_cons] at hb
      have hsum : (start + z).natAbs ≤ start.natAbs + z.natAbs := Int.natAbs_add_le start z
      have hstep : JsNumber.ofInt start + JsNumber.ofInt z = JsNumber.ofInt (start + z) :=
        jsAdd_int start z (by omega)
      simp only [List.foldl_cons, hc.1]
      rw [hstep, ih zs (start + z) hc.2 (by omega), List.sum_cons, Int.add_assoc]

/-- The total of counters that are integers whose magnitudes add up to at most `2 ^ 53`
is their exact sum. -/
theorem totalVotes_int (candidates : List Candidate) (values : List Int)
    (hc : candidates.map Candidate.votes = values.map JsNumber.ofInt)
    (hb : (values.map Int.natAbs).sum ≤ 2 ^ 53) :
    totalVotes candidates = JsNumber.ofInt values.sum := by
  have h := foldl_votes_int candidates values 0 hc (by simpa using hb)
  simp only [Int.zero_add] at h
  exact h

/-- The percentage of a finite counter against a finite positive total. -/
theorem percentage_finite (a n : Int) (j k : Nat) (hn : 0 < n) :
    percentage (JsNumber.finite a j) (JsNumber.finite n k) =
      ExactNumber.finite (((a : ℚ) / 2 ^ j) / ((n : ℚ) / 2 ^ k) * 100) := by
  have hne : n ≠ 0 := by omega
  simp [percentage, JsNumber.greaterThanZero, hn, jsDivide, hne, timesHundred]

/-- The percentage against a total that is not greater than 0. -/
theorem percentage_not_positive (votes total : JsNumber)
    (h : total.greaterThanZero = false) : percentage votes total = ExactNumber.finite 0 := by
  simp [percentage, h]

/-- C8, amended. For an existing election `getResults` answers with `totalVotes` equal to
the sum of the candidates' counters as the source's `+` computes it, from 0 and in list
order (the exact sum when the counters are integers whose magnitudes add up to at most
`2 ^ 53`), and one entry per candidate, in list order, carrying the candidate's name and
counter and a percentage that is 0 when the total is not greater than 0 and otherwise
100 times the counter divided by the total; the store is returned as it was received. -/
theorem getResults_existing (db : DbFaults) (id : Nat) (s : Store) (election : Election)
    (hfind : db.findElection = false) (hel : s.elections[id]? = some election) :
    ∃ summary entries,
      getResults db id s = (ResultsResponse.results summary entries, s) ∧
      summary.totalVotes =
        (election.candidates.map Candidate.votes).foldl (fun sum votes => sum + votes) 0 ∧
      (∀ values : List Int,
        election.candidates.map Candidate.votes = values.map JsNumber.ofInt →
        (values.map Int.natAbs).sum ≤ 2 ^ 53 →
        summary.totalVotes = JsNumber.ofInt values.sum) ∧
      entries.length = election.candidates.length ∧
      ∀ (i : Nat) (candidate : Candidate), election.candidates[i]? = some candidate →
        ∃ entry : CandidateResult, entries[i]? = some entry ∧
          entry.name = candidate.name ∧ entry.votes = candidate.votes ∧
          (summary.totalVotes.greaterThanZero = false →
            entry.percentage = ExactNumber.finite 0) ∧
          (summary.totalVotes.greaterThanZero = true →
            entry.percentage =
              timesHundred (jsDivide candidate.votes summary.totalVotes)) ∧
          (∀ (a n : Int) (j k : Nat), candidate.votes = JsNumber.finite a j →
            summary.totalVotes = JsNumber.finite n k → 0 < n →
            entry.percentage =
              ExactNumber.finite (((a : ℚ) / 2 ^ j) / ((n : ℚ) / 2 ^ k) * 100)) := by
  refine ⟨_, _, by simp only [getResults, hfind, hel]; rfl, ?_, ?_, ?_, ?_⟩
  · simp only [totalVotes, List.foldl_map]
  · intro values hvalues hbound
    exact totalVotes_int election.candidates values hvalues hbound
  · simp [candidateResults]
  · intro i candidate hi
    refine ⟨{ name := candidate.name, description := candidate.description,
              votes := candidate.votes,
              percentage := percentage candidate.votes (totalVotes election.candidates) },
      by simp [candidateResults, List.getElem?_map, hi], rfl, rfl, ?_, ?_, ?_⟩
    · intro h0
      exact percentage_not_positive _ _ h0
    · intro hpos
      simp only at hpos
      simp only [percentage, hpos, if_true]
    · intro a n j k ha hn hpos
      simp only at hn
      simp only [ha, hn]
      exact percentage_finite a n j k hpos

/-- Witness of C8, amended: the results of the tally election (counters 2 and 1). -/
theorem getResults_existing_witness :
    (getResults DbFaults.none 0 tallyStore).2 = tallyStore :=
  match getResults_existing DbFaults.none 0 tallyStore tallyElection rfl rfl with
  | ⟨_, _, h1, _⟩ => congrArg Prod.snd h1

/-- C8, counterexample. An election created with the counter -1 for its only candidate
has total -1, and `getResults` reports the percentage 0 for the candidate, although
the counter divided by the total is 1. An election created with the counters `2 ^ 53`
and 1 has the total `2 ^ 53` in `getResults`, which is not the sum of the counters. -/
theorem getResults_total_counterexample :
    (getResults DbFaults.none 0
        (createElection DbFaults.none 0
          { sampleBody with
            candidates := [{ name := some "A", description := none,
                             votes := some (JsNumber.ofInt (-1)) }] }
          emptyStore).2).1 =
      ResultsResponse.results
        { id := 0, title := "Board", description := "Board election",
          status := ElectionStatus.pending, totalVotes := JsNumber.ofInt (-1) }
        [{ name := "A", description := none, votes := JsNumber.ofInt (-1),
           percentage := ExactNumber.finite 0 }] ∧
    jsDivide (JsNumber.ofInt (-1)) (JsNumber.ofInt (-1)) = ExactNumber.finite 1 ∧
    (createElection DbFaults.none 0
        { sampleBody with
          candidates := [{ name := some "A", description := none,
                           votes := some (JsNumber.ofInt 9007199254740992) },
                         { name := some "B", description := none,
                           votes := some (JsNumber.ofInt 1) }] }
        emptyStore).2.elections.map
        (fun e => (e.candidates.map Candidate.votes, totalVotes e.candidates)) =
      [([JsNumber.ofInt 9007199254740992, JsNumber.ofInt 1],
        JsNumber.ofInt 9007199254740992)] ∧
    (9007199254740992 + 1 : Int) ≠ 9007199254740992 := by
  have hstore : (createElection DbFaults.none 0
      { sampleBody with
        candidates := [{ name := some "A", description := none,
                         votes := some (JsNumber.ofInt (-1)) }] }
      emptyStore).2 =
      { elections := [{ sampleElection with
          candidates := [{ name := "A", description := none,
                           votes := JsNumber.ofInt (-1) }] }],
        votes := [], voters := [] } := by decide
  have htotal : totalVotes [Candidate.mk "A" none (JsNumber.ofInt (-1))] =
      JsNumber.ofInt (-1) := by decide
  refine ⟨?_, ?_, by decide, by decide⟩
  · rw [hstore]
    simp only [getResults, DbFaults.none, List.getElem?_cons_zero, candidateResults,
      sampleElection, htotal, List.map_cons, List.map_nil]
    simp [percentage, JsNumber.greaterThanZero, JsNumber.ofInt]
  · simp [jsDivide, JsNumber.ofInt]

/-- The store is never changed by `getResults`. -/
theorem getResults_store (db : DbFaults) (id : Nat) (s : Store) :
    (getResults db id s).2 = s := by
  unfold getResults
  split
  · rfl
  · split <;> rfl

/-- The total of the tally election. -/
theorem totalVotes_tally : totalVotes tallyElection.candidates = 3 := by decide

/-- The percentages of the counters 2 and 1 against the total 3. -/
theorem percentage_tally :
    percentage 2 3 = ExactNumber.finite (200 / 3) ∧
    percentage 1 3 = ExactNumber.finite (100 / 3) := by
  have hA := percentage_finite 2 3 0 0 (by decide)
  have hB := percentage_finite 1 3 0 0 (by decide)
  constructor
  · rw [show (2 : JsNumber) = JsNumber.finite 2 0 from rfl,
      show (3 : JsNumber) = JsNumber.finite 3 0 from rfl, hA]
    norm_num
  · rw [show (1 : JsNumber) = JsNumber.finite 1 0 from rfl,
      show (3 : JsNumber) = JsNumber.finite 3 0 from rfl, hB]
    norm_num

/-- C9, counterexample. For candidates A and B with counters 2 and 1 `getResults` reports
the unrounded quotients 200/3 and 100/3 as percentages, not 66.67 and 33.33. -/
theorem getResults_rounding_counterexample :
    (getResults DbFaults.none 0 tallyStore).1 =
      ResultsResponse.results
        { id := 0, title := "Tally", description := "Tally election",
          status := ElectionStatus.pending, totalVotes := 3 }
        [{ name := "A", description := none, votes := 2,
           percentage := ExactNumber.finite (200 / 3) },
         { name := "B", description := none, votes := 1,
           percentage := ExactNumber.finite (100 / 3) }] ∧
    (candidateResults tallyElection.candidates).map CandidateResult.percentage ≠
      [ExactNumber.finite 66.67, ExactNumber.finite 33.33] := by
  have hA := percentage_tally.1
  have hB := percentage_tally.2
  have ht := totalVotes_tally
  constructor
  · simp only [getResults, DbFaults.none, tallyStore, List.getElem?_cons_zero,
      candidateResults, ht]
    simp [tallyElection, hA, hB]
  · simp only [candidateResults, ht]
    simp only [tallyElection, List.map_cons, List.map_nil, hA, hB]
    intro h
    simp only [List.cons.injEq, ExactNumber.finite.injEq] at h
    norm_num at h

/-- C9, amended. For candidates A and B with counters 2 and 1 `getResults` reports
`totalVotes` 3 and the percentages 200/3 and 100/3, unrounded; they are the values that
round to 66.67 and 33.33 (each lies within half a hundredth of it). -/
theorem getResults_tally :
    getResults DbFaults.none 0 tallyStore =
      (ResultsResponse.results
        { id := 0, title := "Tally", description := "Tally election",
          status := ElectionStatus.pending, totalVotes := 3 }
        [{ name := "A", description := none, votes := 2,
           percentage := ExactNumber.finite (200 / 3) },
         { name := "B", description := none, votes := 1,
           percentage := ExactNumber.finite (100 / 3) }],
       tallyStore) ∧
    percentage 2 3 = ExactNumber.finite (200 / 3) ∧ |(200 / 3 : ℚ) - 66.67| < 0.005 ∧
    percentage 1 3 = ExactNumber.finite (100 / 3) ∧ |(100 / 3 : ℚ) - 33.33| < 0.005 := by
  have hA := percentage_tally.1
  have hB := percentage_tally.2
  have ht := totalVotes_tally
  refine ⟨?_, hA, ?_, hB, ?_⟩
  · simp only [getResults, DbFaults.none, tallyStore, List.getElem?_cons_zero,
      candidateResults, ht]
    simp [tallyElection, hA, hB]
  · rw [abs_lt]; constructor <;> norm_num
  · rw [abs_lt]; constructor <;> norm_num

/-! ## Theorems about `validateCedula` -/

/-- A decimal digit is neither a hyphen nor white space. -/
theorem not_stripped_of_isDigit (c : Char) (h : c.isDigit = true) :
    (!(c == '-' || isJsSpace c)) = true := by
  have hb : 48 ≤ c.toNat ∧ c.toNat ≤ 57 := by
    simp only [Char.isDigit, Bool.and_eq_true, decide_eq_true_eq] at h
    exact ⟨h.1, h.2⟩
  have hne : c ≠ '-' := by
    intro hc
    rw [hc] at hb
    revert hb
    decide
  have hs : isJsSpace c = false := by
    simp only [isJsSpace, Bool.or_eq_false_iff, Bool.and_eq_false_iff, beq_eq_false_iff_ne,
      decide_eq_false_iff_not]
    omega
  simp [hne, hs]

/-- Cleaning leaves a string of decimal digits as it is. -/
theorem cleanCedula_digits (s : String) (hd : ∀ c ∈ s.toList, c.isDigit = true) :
    cleanCedula s = s := by
  unfold cleanCedula
  rw [List.filter_eq_self.mpr (fun c hc => not_stripped_of_isDigit c (hd c hc))]
  rfl

/-- C10. For every string `s` of decimal digits, `validateCedula s` is true exactly when
`s` has 11 digits and starts with 012 or 402; and for every string whose cleaned form
(hyphens and white space removed) is empty or contains a character that is not a
decimal digit, `validateCedula` is false. -/
theorem validateCedula_spec :
    (∀ s : String, (∀ c ∈ s.toList, c.isDigit = true) →
      (validateCedula s = true ↔
        s.length = 11 ∧ (['0', '1', '2'] <+: s.toList ∨ ['4', '0', '2'] <+: s.toList))) ∧
    (∀ v : String,
      ((cleanCedula v).toList = [] ∨ ∃ c ∈ (cleanCedula v).toList, c.isDigit = false) →
        validateCedula v = false) := by
  constructor
  · intro s hd
    have hlen : s.length = s.toList.length := rfl
    simp only [validateCedula, cleanCedula_digits s hd]
    have hall : s.toList.all Char.isDigit = true := by
      rw [List.all_eq_true]; exact hd
    constructor
    · intro h
      split at h
      · simp at h
      · simp only [Bool.and_eq_true, beq_iff_eq] at h
        refine ⟨h.2, ?_⟩
        have hr := h.1
        unfold cedulaRegex at hr
        split at hr
        · rename_i a b c rest heq
          rw [heq]
          simp only [Bool.and_eq_true, Bool.or_eq_true, beq_iff_eq] at hr
          rcases hr.1.1 with ⟨⟨ha, hb⟩, hc⟩ | ⟨⟨ha, hb⟩, hc⟩
          · left; subst ha hb hc
            exact ⟨rest, rfl⟩
          · right; subst ha hb hc
            exact ⟨rest, rfl⟩
        · simp at hr
    · rintro ⟨h11, hp⟩
      have key : ∀ p : List Char, p.length = 3 → p <+: s.toList →
          ∃ rest, s.toList = p ++ rest ∧ rest.length = 8 ∧ rest.all Char.isDigit = true := by
        intro p hp3 ⟨rest, hrest⟩
        refine ⟨rest, hrest.symm, ?_, ?_⟩
        · have : (p ++ rest).length = 11 := by rw [hrest, ← hlen, h11]
          simp only [List.length_append, hp3] at this
          omega
        · rw [List.all_eq_true]
          intro c hc
          exact hd c (by rw [← hrest]; exact List.mem_append_right p hc)
      have hne : s.toList ≠ [] := by
        intro he
        rw [hlen, he] at h11
        simp at h11
      have hod : onlyDigits s = true := by
        simp only [onlyDigits, hall, Bool.and_true, Bool.not_eq_true', List.isEmpty_eq_false]
        exact hne
      simp only [hod, Bool.not_true, Bool.false_eq_true, if_false, Bool.and_eq_true,
        beq_iff_eq]
      refine ⟨?_, h11⟩
      rcases hp with hp | hp
      · obtain ⟨rest, hs, hl, hr⟩ := key ['0', '1', '2'] rfl hp
        have hs2 : s.data = '0' :: '1' :: '2' :: rest := hs
        simp [cedulaRegex, hs2, hl, hr]
      · obtain ⟨rest, hs, hl, hr⟩ := key ['4', '0', '2'] rfl hp
        have hs2 : s.data = '4' :: '0' :: '2' :: rest := hs
        simp [cedulaRegex, hs2, hl, hr]
  · intro v h
    have hod : onlyDigits (cleanCedula v) = false := by
      rcases h with h | ⟨c, hc, hnd⟩
      · have h2 : (cleanCedula v).data = [] := h
        simp [onlyDigits, h2]
      · simp only [onlyDigits, Bool.and_eq_false_iff]
        right
        rw [List.all_eq_false]
        exact ⟨c, hc, by simp [hnd]⟩
    simp [validateCedula, hod]

/-- Witness of C10: an accepted identifier, a digit string that is too short, and an
identifier with a letter. -/
theorem validateCedula_spec_witness :
    validateCedula "40212345678" = true ∧ validateCedula "4021234567" = false ∧
      validateCedula "402-1234567-X" = false :=
  ⟨(validateCedula_spec.1 "40212345678" (by decide)).mpr ⟨rfl, Or.inr (by decide)⟩,
   by
    have h := (validateCedula_spec.1 "4021234567" (by decide)).not
    simpa using h.mpr (by decide),
   validateCedula_spec.2 "402-1234567-X" (Or.inr ⟨'X', by decide, by decide⟩)⟩

/-! ## Further theorems about `validateCedula` -/

/-- Cleaning a cleaned value changes nothing. -/
theorem cleanCedula_idem (v : String) : cleanCedula (cleanCedula v) = cleanCedula v := by
  simp [cleanCedula, List.filter_filter]

/-- A hyphen or white-space character inserted anywhere disappears in cleaning. -/
theorem cleanCedula_insert (a b : List Char) (c : Char)
    (hc : c = '-' ∨ isJsSpace c = true) :
    cleanCedula (String.mk (a ++ c :: b)) = cleanCedula (String.mk (a ++ b)) := by
  have hdrop : (!(c == '-' || isJsSpace c)) = false := by
    rcases hc with h | h
    · simp [h]
    · simp [h]
  have hneg : ¬ ((fun c => !(c == '-' || isJsSpace c)) c = true) := by
    simp only [hdrop]
    decide
  unfold cleanCedula
  change String.mk (List.filter _ (a ++ c :: b)) = String.mk (List.filter _ (a ++ b))
  rw [List.filter_append, List.filter_append, List.filter_cons, if_neg hneg]

/-- C11. The verdict of `validateCedula` depends only on the cleaned identifier:
`validateCedula v = validateCedula (cleanCedula v)`; cleaning leaves no hyphen and no
white space and is idempotent; inserting a hyphen or a white-space character at any
position of a string does not change the verdict, so an accepted identifier stays
accepted; and 402-1234567-8 is accepted. -/
theorem validateCedula_clean :
    (∀ v : String, validateCedula v = validateCedula (cleanCedula v)) ∧
    (∀ v : String, ∀ c ∈ (cleanCedula v).toList, c ≠ '-' ∧ isJsSpace c = false) ∧
    (∀ v : String, cleanCedula (cleanCedula v) = cleanCedula v) ∧
    (∀ (a b : List Char) (c : Char), (c = '-' ∨ isJsSpace c = true) →
      validateCedula (String.mk (a ++ c :: b)) = validateCedula (String.mk (a ++ b))) ∧
    validateCedula "402-1234567-8" = true := by
  refine ⟨?_, ?_, cleanCedula_idem, ?_, by decide⟩
  · intro v
    simp only [validateCedula, cleanCedula_idem]
  · intro v c hc
    have hmem : c ∈ v.toList.filter (fun c => !(c == '-' || isJsSpace c)) := hc
    have hp := (List.mem_filter.mp hmem).2
    simp only [Bool.not_eq_true', Bool.or_eq_false_iff, beq_eq_false_iff_ne] at hp
    exact ⟨hp.1, hp.2⟩
  · intro a b c hc
    simp only [validateCedula, cleanCedula_insert a b c hc]

/-- Witness of C11: a hyphen inserted after the prefix of an accepted identifier. -/
theorem validateCedula_clean_witness :
    validateCedula "402-12345678" = validateCedula "40212345678" :=
  validateCedula_clean.2.2.2.1 ['4', '0', '2'] ['1', '2', '3', '4', '5', '6', '7', '8'] '-'
    (Or.inl rfl)

/-! ## Theorems about the admin controller -/

/-- The query `findOne` finds nothing exactly when no admin satisfies the filter. -/
theorem findOneAdmin_eq_none (filter : Admin → Bool) (admins : List Admin) (start : Nat) :
    findOneAdmin filter admins start = none ↔ ∀ a ∈ admins, filter a = false := by
  induction admins generalizing start with
  | nil => simp [findOneAdmin]
  | cons a rest ih =>
    by_cases h : filter a = true
    · simp [findOneAdmin, h]
    · simp only [Bool.not_eq_true] at h
      simp [findOneAdmin, h, ih]

/-- An admin found by `findOne` is stored under the returned id and satisfies the
filter. -/
theorem findOneAdmin_eq_some (filter : Admin → Bool) (admins : List Admin) (start id : Nat)
    (admin : Admin) (h : findOneAdmin filter admins start = some (id, admin)) :
    start ≤ id ∧ admins[id - start]? = some admin ∧ filter admin = true := by
  induction admins generalizing start with
  | nil => simp [findOneAdmin] at h
  | cons a rest ih =>
    by_cases hf : filter a = true
    · simp only [findOneAdmin, hf, if_true, Option.some.injEq, Prod.mk.injEq] at h
      obtain ⟨h1, h2⟩ := h
      subst h1 h2
      simp [hf]
    · simp only [findOneAdmin, hf, if_false] at h
      obtain ⟨h1, h2, h3⟩ := ih (start + 1) h
      refine ⟨by omega, ?_, h3⟩
      have hid : id - start = (id - (start + 1)) + 1 := by omega
      rw [hid, List.getElem?_cons_succ]
      exact h2

/-- C12, counterexample. With the password 123 (a number, not a string) `login` answers
500 "Error en el servidor" for the username of the stored admin and 401 "Credenciales
inválidas" for a username that no admin has: the two answers differ. -/
theorem login_password_type_counterexample :
    (login sampleLibs AdminFaults.none none 0
        { username := BodyField.text "root", password := BodyField.other }
        sampleAdminStore).1 =
      { status := 500, success := false, message := some "Error en el servidor",
        token := none, admin := none } ∧
    (login sampleLibs AdminFaults.none none 0
        { username := BodyField.text "nobody", password := BodyField.other }
        sampleAdminStore).1 =
      { status := 401, success := false, message := some "Credenciales inválidas",
        token := none, admin := none } ∧
    (login sampleLibs AdminFaults.none none 0
        { username := BodyField.text "root", password := BodyField.other }
        sampleAdminStore).1 ≠
      (login sampleLibs AdminFaults.none none 0
        { username := BodyField.text "nobody", password := BodyField.other }
        sampleAdminStore).1 := by
  refine ⟨?_, ?_, ?_⟩ <;> decide

/-- C12, amended. For non-empty strings as username and password, the answer of `login`
when no admin has the username as the query casts it (lower-cased and trimmed) and its
answer when admins with that username exist but the password comparison fails are the
same: status 401, `success: false`, the message "Credenciales inválidas", no token and
no admin data. With a password that is truthy and not a string the two cases are
answered differently: 401 when no admin has the username, 500 when one has. -/
theorem login_failure_indistinguishable (libs : Libs) (db : AdminFaults)
    (env : Option String) (now1 now2 : Int) (u1 p1 u2 p2 : String) (s1 s2 : AdminStore)
    (hdb : db.findAdmin = false)
    (hu1 : u1 ≠ "") (hp1 : p1 ≠ "") (hu2 : u2 ≠ "") (hp2 : p2 ≠ "")
    (habsent : ∀ a ∈ s1.admins, a.username ≠ castUsername libs (libs.toLowerCase u1))
    (hpresent : ∃ a ∈ s2.admins, a.username = castUsername libs (libs.toLowerCase u2))
    (hwrong : ∀ a ∈ s2.admins, a.username = castUsername libs (libs.toLowerCase u2) →
      comparePassword libs a p2 = false) :
    (login libs db env now1
        { username := BodyField.text u1, password := BodyField.text p1 } s1).1 =
      (login libs db env now2
        { username := BodyField.text u2, password := BodyField.text p2 } s2).1 ∧
    (login libs db env now1
        { username := BodyField.text u1, password := BodyField.text p1 } s1).1 =
      { status := 401, success := false, message := some "Credenciales inválidas",
        token := none, admin := none } ∧
    (login libs db env now1
        { username := BodyField.text u1, password := BodyField.other } s1).1 =
      { status := 401, success := false, message := some "Credenciales inválidas",
        token := none, admin := none } ∧
    (login libs db env now2
        { username := BodyField.text u2, password := BodyField.other } s2).1 =
      { status := 500, success := false, message := some "Error en el servidor",
        token := none, admin := none } := by
  have h1 : findOneAdmin
      (fun a => a.username == castUsername libs (libs.toLowerCase u1)) s1.admins 0 =
      none := by
    rw [findOneAdmin_eq_none]
    intro a ha
    simpa using habsent a ha
  have hl1 : (login libs db env now1
      { username := BodyField.text u1, password := BodyField.text p1 } s1).1 =
      { status := 401, success := false, message := some "Credenciales inválidas",
        token := none, admin := none } := by
    simp [login, BodyField.falsy, hdb, hu1, hp1, h1]
  have hl3 : (login libs db env now1
      { username := BodyField.text u1, password := BodyField.other } s1).1 =
      { status := 401, success := false, message := some "Credenciales inválidas",
        token := none, admin := none } := by
    simp [login, BodyField.falsy, hdb, hu1, h1]
  cases h2 : findOneAdmin
      (fun a => a.username == castUsername libs (libs.toLowerCase u2)) s2.admins 0 with
  | none =>
    obtain ⟨a, ha, hname⟩ := hpresent
    have := (findOneAdmin_eq_none _ _ _).mp h2 a ha
    simp [hname] at this
  | some found =>
    obtain ⟨id, admin⟩ := found
    obtain ⟨_, hget, hfil⟩ := findOneAdmin_eq_some _ _ _ _ _ h2
    have hmem : admin ∈ s2.admins := List.getElem?_mem hget
    have hname : admin.username = castUsername libs (libs.toLowerCase u2) := by
      simpa using hfil
    have hcmp := hwrong admin hmem hname
    refine ⟨?_, hl1, hl3, ?_⟩
    · rw [hl1]
      simp [login, BodyField.falsy, hdb, hu2, hp2, h2, hcmp]
    · simp [login, BodyField.falsy, hdb, hu2, h2, loginError]

/-- Witness of C12, amended: an unknown username against the empty store, and the sample
admin, whose username is found from ` Root ` by the cast of the query, with a wrong
password. -/
theorem login_failure_indistinguishable_witness :
    (login sampleLibs AdminFaults.none none 0
        { username := BodyField.text "nobody", password := BodyField.text "secret1" }
        { admins := [] }).1 =
      (login sampleLibs AdminFaults.none none 0
        { username := BodyField.text " Root ", password := BodyField.text "wrong" }
        sampleAdminStore).1 ∧
    (login sampleLibs AdminFaults.none none 0
        { username := BodyField.text " Root ", password := BodyField.text "secret1" }
        sampleAdminStore).1.status = 200 :=
  ⟨(login_failure_indistinguishable sampleLibs AdminFaults.none none 0 0
      "nobody" "secret1" " Root " "wrong" { admins := [] } sampleAdminStore rfl
      (by decide) (by decide) (by decide) (by decide)
      (by decide) (by decide) (by decide)).1,
   by decide⟩

/-- C13. For a request with its three fields present whose recovered signing address
differs from the claimed address after lower-casing both, `verifySignature` answers 401
"Firma inválida" without token; and whenever `verifySignature` issues a token, the
recovered address equals the claimed one after lower-casing and a stored admin has the
lower-cased claimed address as wallet address. -/
theorem verifySignature_mismatch (libs : Libs) (db : AdminFaults) (env : Option String)
    (now : Int) (s : AdminStore) :
    (∀ (address signature message signerAddr : String) (session : Option Session),
      address ≠ "" → signature ≠ "" → message ≠ "" →
      libs.verifyMessage message signature = some signerAddr →
      libs.toLowerCase signerAddr ≠ libs.toLowerCase address →
      verifySignature libs db env now
          { address := some address, signature := some signature, message := some message,
            session := session } s =
        ({ status := 401, success := false, message := some "Firma inválida",
           token := none, admin := none }, s)) ∧
    (∀ (req : SignatureRequest) (token : String),
      (verifySignature libs db env now req s).1.token = some token →
      ∃ (address signature message signerAddr : String) (id : Nat) (admin : Admin),
        req.address = some address ∧ req.signature = some signature ∧
        req.message = some message ∧
        libs.verifyMessage message signature = some signerAddr ∧
        libs.toLowerCase signerAddr = libs.toLowerCase address ∧
        s.admins[id]? = some admin ∧
        admin.walletAddress = some (libs.toLowerCase address) ∧
        token = generateAuthToken libs env now id admin) := by
  constructor
  · intro address signature message signerAddr session ha hs hm hrec hne
    simp [verifySignature, ha, hs, hm, hrec, hne]
  · intro req token htok
    obtain ⟨oa, os, om, session⟩ := req
    cases oa with
    | none => simp [verifySignature] at htok
    | some address =>
      cases os with
      | none => simp [verifySignature] at htok
      | some signature =>
        cases om with
        | none => simp [verifySignature] at htok
        | some message =>
          by_cases hempty : address = "" ∨ signature = "" ∨ message = ""
          · simp [verifySignature, hempty] at htok
          cases hrec : libs.verifyMessage message signature with
          | none => simp [verifySignature, hempty, hrec] at htok
          | some signerAddr =>
            by_cases hne : libs.toLowerCase signerAddr ≠ libs.toLowerCase address
            · simp [verifySignature, hempty, hrec, hne] at htok
            by_cases hdb : db.findAdmin = true
            · simp [verifySignature, hempty, hrec, hne, hdb] at htok
            cases hfind : findOneAdmin
                (fun a => a.walletAddress == some (libs.toLowerCase address)) s.admins 0 with
            | none => simp [verifySignature, hempty, hrec, hne, hdb, hfind] at htok
            | some found =>
              obtain ⟨id, admin⟩ := found
              simp [verifySignature, hempty, hrec, hne, hdb, hfind] at htok
              obtain ⟨_, hget, hfil⟩ := findOneAdmin_eq_some _ _ _ _ _ hfind
              refine ⟨address, signature, message, signerAddr, id, admin, rfl, rfl, rfl, hrec,
                ?_, hget, ?_, htok.symm⟩
              · exact Classical.not_not.mp hne
              · simpa using hfil

/-- Witness of C13: a signature of another wallet for the sample admin's address, and
the token the sample admin's own signature obtains. -/
theorem verifySignature_mismatch_witness :
    verifySignature sampleLibs AdminFaults.none none 0
        { address := some "0xABCDEF", signature := some "signed-by-other",
          message := some "hello", session := none } sampleAdminStore =
      ({ status := 401, success := false, message := some "Firma inválida",
         token := none, admin := none }, sampleAdminStore) :=
  (verifySignature_mismatch sampleLibs AdminFaults.none none 0 sampleAdminStore).1
    "0xABCDEF" "signed-by-other" "hello" "0x999999" none
    (by decide) (by decide) (by decide) rfl (by decide)

/-- The store is never changed by `verifySignature`. -/
theorem verifySignature_store (libs : Libs) (db : AdminFaults) (env : Option String)
    (now : Int) (req : SignatureRequest) (s : AdminStore) :
    (verifySignature libs db env now req s).2 = s := by
  unfold verifySignature
  repeat' split
  all_goals rfl

/-- Whether `verifySignature` issues a token does not depend on the time of the
request nor on the session of the request. -/
theorem verifySignature_token_isSome (libs : Libs) (db : AdminFaults) (env : Option String)
    (now1 now2 : Int) (req : SignatureRequest) (session : Option Session) (s : AdminStore) :
    (verifySignature libs db env now2 { req with session := session } s).1.token.isSome =
      (verifySignature libs db env now1 req s).1.token.isSome := by
  unfold verifySignature
  repeat' split
  all_goals simp_all

/-- C14, the code at the failing input. A request that obtained a token obtains one
again: after a `verifySignature` that issued a token, the same address, message and
signature, sent at any other time and with any `req.session` (with or without a nonce
left by `getNonce`), are answered with a token once more. -/
theorem verifySignature_replay (libs : Libs) (db : AdminFaults) (env : Option String)
    (now1 now2 : Int) (req : SignatureRequest) (session : Option Session) (s : AdminStore)
    (h : (verifySignature libs db env now1 req s).1.token.isSome = true) :
    (verifySignature libs db env now2 { req with session := session }
      (verifySignature libs db env now1 req s).2).1.token.isSome = true := by
  rw [verifySignature_store, verifySignature_token_isSome libs db env now1 now2 req session s]
  exact h

/-- Witness of C14: the sample admin's wallet signs the message "hello", which carries
no nonce, and the same request is answered with a token twice. -/
theorem verifySignature_replay_witness :
    (verifySignature sampleLibs AdminFaults.none none 0 sampleSignatureRequest
        sampleAdminStore).1.token = some "admin-token" ∧
    (verifySignature sampleLibs AdminFaults.none none 500
      { sampleSignatureRequest with session := some { nonce := some "123456" } }
      (verifySignature sampleLibs AdminFaults.none none 0 sampleSignatureRequest
        sampleAdminStore).2).1.token.isSome = true :=
  ⟨by decide,
   verifySignature_replay sampleLibs AdminFaults.none none 0 500 sampleSignatureRequest
    (some { nonce := some "123456" }) sampleAdminStore (by decide)⟩

/-! ## Theorems about the middlewares and the profile route -/

/-- C16, the code at the failing input. The middleware in front of `getProfile` in
`routes/admin.js` calls `next()` for every non-empty `x-auth-token`, whatever the
string is, with `req.user.id = 'temp-admin-id'`; so the request reaches `getProfile`. -/
theorem routes_adminAuth_accepts_any_token (db : AdminFaults) (token : String)
    (s : AdminStore) (h : token ≠ "") :
    Routes.adminAuth (some token) =
      AuthOutcome.next { id := IdValue.other "temp-admin-id", username := none,
                         isAdmin := false, permissions := none } ∧
    Routes.profile db (some token) s =
      getProfile db { id := IdValue.other "temp-admin-id", username := none,
                      isAdmin := false, permissions := none } s := by
  simp [Routes.profile, Routes.adminAuth, h]

/-- Witness of C16: a token without the admin role and a string that is no token at
all both pass the middleware of the route, while the middleware of
`middlewares/adminAuth.js` answers 403 and 401 to them. -/
theorem routes_adminAuth_accepts_any_token_witness :
    Routes.adminAuth (some "voter-token") = Routes.adminAuth (some "not-a-jwt") ∧
    (∃ user, Routes.adminAuth (some "not-a-jwt") = AuthOutcome.next user) ∧
    adminAuth sampleLibs AdminFaults.none none 0 (some "voter-token") sampleAdminStore =
      AuthOutcome.respond
        { status := 403, success := false,
          message := some "Token inválido, se requiere un token de administrador",
          token := none, admin := none } ∧
    adminAuth sampleLibs AdminFaults.none none 0 (some "not-a-jwt") sampleAdminStore =
      AuthOutcome.respond
        { status := 401, success := false, message := some "Token inválido",
          token := none, admin := none } :=
  ⟨((routes_adminAuth_accepts_any_token AdminFaults.none "voter-token" sampleAdminStore
      (by decide)).1).trans
    ((routes_adminAuth_accepts_any_token AdminFaults.none "not-a-jwt" sampleAdminStore
      (by decide)).1).symm,
   ⟨_, (routes_adminAuth_accepts_any_token AdminFaults.none "not-a-jwt" sampleAdminStore
      (by decide)).1⟩,
   by decide, by decide⟩

/-- C15, the code at the failing input. The profile route as wired never answers with
admin data: without a token it answers 401, and with any token, the one of a
successful login included, `getProfile` looks up the id `'temp-admin-id'`, the lookup
throws and the answer is 500 "Error en el servidor". -/
theorem routes_profile_never_resolves (db : AdminFaults) (header : Option String)
    (s : AdminStore) :
    (Routes.profile db header s).1.admin = none ∧
    (∀ token, header = some token → token ≠ "" →
      Routes.profile db header s =
        ({ status := 500, success := false, message := some "Error en el servidor",
           token := none, admin := none }, s)) := by
  constructor
  · cases header with
    | none => simp [Routes.profile, Routes.adminAuth]
    | some token =>
      by_cases h : token = ""
      · simp [Routes.profile, Routes.adminAuth, h]
      · simp [Routes.profile, Routes.adminAuth, h, getProfile, findById]
  · intro token hh h
    subst hh
    simp [Routes.profile, Routes.adminAuth, h, getProfile, findById]

/-- The round trip on the sibling path: with the middleware of `middlewares/adminAuth.js`
in front of `getProfile`, and a token library that verifies what it signed, the token of
a successful login resolves to the admin that logged in, with the stored permissions. -/
theorem profileWithMiddleware_roundtrip (libs : Libs) (db : AdminFaults)
    (env : Option String) (now1 now2 : Int) (body : LoginBody) (s : AdminStore)
    (token : String) (profile : AdminProfile)
    (hdb : db.findAdmin = false) (htoken : token ≠ "")
    (hjwt : ∀ payload, libs.jwtVerify (libs.jwtSign payload (jwtSecret env) "24h" now1)
      (jwtSecret env) now2 = JwtResult.ok payload)
    (hlogin : (login libs db env now1 body s).1.token = some token)
    (hprofile : (login libs db env now1 body s).1.admin = some profile) :
    profileWithMiddleware libs db env now2 (some token) s =
      ({ status := 200, success := true, message := none, token := none,
         admin := some profile }, s) ∧
    ∃ admin, s.admins[profile.id]? = some admin ∧ profile.permissions = admin.permissions := by
  obtain ⟨ou, op⟩ := body
  by_cases hfalsy : (ou.falsy || op.falsy) = true
  · simp [login, hfalsy] at hlogin
  cases ou with
  | missing => simp [login, hfalsy, loginError] at hlogin
  | other => simp [login, hfalsy, loginError] at hlogin
  | text username =>
    cases hfind : findOneAdmin
        (fun a => a.username == castUsername libs (libs.toLowerCase username))
        s.admins 0 with
    | none => simp [login, hfalsy, hdb, hfind] at hlogin
    | some found =>
      obtain ⟨id, admin⟩ := found
      cases op with
      | missing => simp [login, hfalsy, hdb, hfind, loginError] at hlogin
      | other => simp [login, hfalsy, hdb, hfind, loginError] at hlogin
      | text password =>
        by_cases hcmp : comparePassword libs admin password = true
        · simp [login, hfalsy, hdb, hfind, hcmp] at hlogin hprofile
          obtain ⟨_, hget, _⟩ := findOneAdmin_eq_some _ _ _ _ _ hfind
          simp only [Nat.sub_zero] at hget
          subst hlogin hprofile
          have hne : generateAuthToken libs env now1 id admin ≠ "" := htoken
          refine ⟨?_, admin, by simpa [adminProfile] using hget, rfl⟩
          have hv : libs.jwtVerify (generateAuthToken libs env now1 id admin) (jwtSecret env)
              now2 = JwtResult.ok (authTokenPayload id admin) := hjwt _
          simp [profileWithMiddleware, adminAuth, hne, hv, authTokenPayload, findById, hdb,
            hget, getProfile]
        · simp [login, hfalsy, hdb, hfind, hcmp] at hlogin

/-- C17. When the admin lookup does not throw, the middleware `adminAuth` of
`middlewares/adminAuth.js` calls `next()` exactly when a non-empty token is present,
`jwt.verify` accepts it under the signing secret at the time of the request, the
decoded `type` is `'admin'` and the decoded id names a stored admin. Otherwise it
answers: 401 "No hay token, autorización denegada" when the token is absent or empty;
401 "El token ha expirado, inicie sesión nuevamente" when it is expired; 401 "Token
inválido" for every other verification failure; 403 when the type is not `'admin'`;
401 "Administrador no encontrado" when no admin is stored under the id. -/
theorem adminAuth_next_iff (libs : Libs) (db : AdminFaults) (env : Option String)
    (now : Int) (header : Option String) (s : AdminStore) (hdb : db.findAdmin = false) :
    ((∃ user, adminAuth libs db env now header s = AuthOutcome.next user) ↔
      ∃ (token : String) (decoded : TokenPayload) (n : Nat) (admin : Admin),
        header = some token ∧ token ≠ "" ∧
        libs.jwtVerify token (jwtSecret env) now = JwtResult.ok decoded ∧
        decoded.type = some "admin" ∧ decoded.id = IdValue.objectId n ∧
        s.admins[n]? = some admin) ∧
    ((header = none ∨ header = some "") →
      adminAuth libs db env now header s =
        AuthOutcome.respond
          { status := 401, success := false,
            message := some "No hay token, autorización denegada", token := none,
            admin := none }) ∧
    (∀ token, header = some token → token ≠ "" →
      (libs.jwtVerify token (jwtSecret env) now = JwtResult.expired →
        adminAuth libs db env now header s =
          AuthOutcome.respond
            { status := 401, success := false,
              message := some "El token ha expirado, inicie sesión nuevamente",
              token := none, admin := none }) ∧
      (libs.jwtVerify token (jwtSecret env) now = JwtResult.invalid →
        adminAuth libs db env now header s =
          AuthOutcome.respond
            { status := 401, success := false, message := some "Token inválido",
              token := none, admin := none }) ∧
      (∀ decoded, libs.jwtVerify token (jwtSecret env) now = JwtResult.ok decoded →
        (decoded.type ≠ some "admin" →
          adminAuth libs db env now header s =
            AuthOutcome.respond
              { status := 403, success := false,
                message := some "Token inválido, se requiere un token de administrador",
                token := none, admin := none }) ∧
        (∀ n, decoded.type = some "admin" → decoded.id = IdValue.objectId n →
          s.admins[n]? = none →
          adminAuth libs db env now header s =
            AuthOutcome.respond
              { status := 401, success := false,
                message := some "Administrador no encontrado", token := none,
                admin := none }))) := by
  refine ⟨⟨?_, ?_⟩, ?_, ?_⟩
  · rintro ⟨user, hnext⟩
    cases header with
    | none => simp [adminAuth] at hnext
    | some token =>
      by_cases ht : token = ""
      · simp [adminAuth, ht] at hnext
      cases hv : libs.jwtVerify token (jwtSecret env) now with
      | expired => simp [adminAuth, ht, hv] at hnext
      | invalid => simp [adminAuth, ht, hv] at hnext
      | ok decoded =>
        by_cases hty : decoded.type = some "admin"
        · cases hid : decoded.id with
          | other v => simp [adminAuth, ht, hv, hty, hid, findById] at hnext
          | undefined => simp [adminAuth, ht, hv, hty, hid, findById, hdb] at hnext
          | objectId n =>
            cases hget : s.admins[n]? with
            | none => simp [adminAuth, ht, hv, hty, hid, findById, hdb, hget] at hnext
            | some admin => exact ⟨token, decoded, n, admin, rfl, ht, hv, hty, hid, hget⟩
        · simp [adminAuth, ht, hv, hty] at hnext
  · rintro ⟨token, decoded, n, admin, hh, ht, hv, hty, hid, hget⟩
    subst hh
    refine ⟨{ id := IdValue.objectId n, username := some admin.username, isAdmin := true,
              permissions := some admin.permissions }, ?_⟩
    simp [adminAuth, ht, hv, hty, hid, findById, hdb, hget]
  · rintro (hh | hh) <;> subst hh <;> simp [adminAuth]
  · intro token hh ht
    subst hh
    refine ⟨?_, ?_, ?_⟩
    · intro hv
      simp [adminAuth, ht, hv]
    · intro hv
      simp [adminAuth, ht, hv]
    · intro decoded hv
      refine ⟨?_, ?_⟩
      · intro hty
        simp [adminAuth, ht, hv, hty]
      · intro n hty hid hget
        simp [adminAuth, ht, hv, hty, hid, findById, hdb, hget]

/-- Witness of C17: the sample admin's token passes, an expired token does not. -/
theorem adminAuth_next_iff_witness :
    (∃ user, adminAuth sampleLibs AdminFaults.none none 0 (some "admin-token")
      sampleAdminStore = AuthOutcome.next user) ∧
    adminAuth sampleLibs AdminFaults.none none 0 (some "old-token") sampleAdminStore =
      AuthOutcome.respond
        { status := 401, success := false,
          message := some "El token ha expirado, inicie sesión nuevamente",
          token := none, admin := none } :=
  ⟨(adminAuth_next_iff sampleLibs AdminFaults.none none 0 (some "admin-token")
      sampleAdminStore rfl).1.mpr
      ⟨"admin-token", _, 0, sampleAdmin, rfl, by decide, rfl, rfl, rfl, rfl⟩,
   ((adminAuth_next_iff sampleLibs AdminFaults.none none 0 (some "old-token")
      sampleAdminStore rfl).2.2 "old-token" rfl (by decide)).1 rfl⟩

/-- C18. Permissions are never taken from the token. The payload that
`generateAuthToken` signs has the admin's id, its username and the type `'admin'` and
nothing else. Whenever `adminAuth` calls `next()`, the decoded id names a stored admin
and the permissions left on the request are the ones stored for that admin, whatever
else the token carries. So for one token and two stores whose admin under the token's
id has permissions `p1` in one and `p2` in the other, the handler gets `p1` from the
one and `p2` from the other. -/
theorem adminAuth_permissions_from_store (libs : Libs) (db : AdminFaults)
    (env : Option String) (now : Int) :
    (∀ (id : Nat) (admin : Admin),
      generateAuthToken libs env now id admin =
        libs.jwtSign (authTokenPayload id admin) (jwtSecret env) "24h" now ∧
      (authTokenPayload id admin).id = IdValue.objectId id ∧
      (authTokenPayload id admin).username = some admin.username ∧
      (authTokenPayload id admin).type = some "admin" ∧
      (authTokenPayload id admin).extra = []) ∧
    (∀ (header : Option String) (s : AdminStore) (user : ReqUser),
      adminAuth libs db env now header s = AuthOutcome.next user →
      ∃ (token : String) (decoded : TokenPayload) (n : Nat) (admin : Admin),
        header = some token ∧
        libs.jwtVerify token (jwtSecret env) now = JwtResult.ok decoded ∧
        decoded.id = IdValue.objectId n ∧ s.admins[n]? = some admin ∧
        user.id = IdValue.objectId n ∧ user.permissions = some admin.permissions) ∧
    (∀ (token : String) (decoded : TokenPayload) (n : Nat) (s1 s2 : AdminStore)
        (a1 a2 : Admin),
      db.findAdmin = false → token ≠ "" →
      libs.jwtVerify token (jwtSecret env) now = JwtResult.ok decoded →
      decoded.type = some "admin" → decoded.id = IdValue.objectId n →
      s1.admins[n]? = some a1 → s2.admins[n]? = some a2 →
      ∃ u1 u2, adminAuth libs db env now (some token) s1 = AuthOutcome.next u1 ∧
        adminAuth libs db env now (some token) s2 = AuthOutcome.next u2 ∧
        u1.permissions = some a1.permissions ∧ u2.permissions = some a2.permissions) := by
  refine ⟨fun id admin => ⟨rfl, rfl, rfl, rfl, rfl⟩, ?_, ?_⟩
  · intro header s user hnext
    cases header with
    | none => simp [adminAuth] at hnext
    | some token =>
      by_cases ht : token = ""
      · simp [adminAuth, ht] at hnext
      cases hv : libs.jwtVerify token (jwtSecret env) now with
      | expired => simp [adminAuth, ht, hv] at hnext
      | invalid => simp [adminAuth, ht, hv] at hnext
      | ok decoded =>
        by_cases hty : decoded.type = some "admin"
        · cases hid : decoded.id with
          | other v => simp [adminAuth, ht, hv, hty, hid, findById] at hnext
          | undefined =>
            by_cases hdb : db.findAdmin = true <;>
              simp [adminAuth, ht, hv, hty, hid, findById, hdb] at hnext
          | objectId n =>
            by_cases hdb : db.findAdmin = true
            · simp [adminAuth, ht, hv, hty, hid, findById, hdb] at hnext
            cases hget : s.admins[n]? with
            | none => simp [adminAuth, ht, hv, hty, hid, findById, hdb, hget] at hnext
            | some admin =>
              simp [adminAuth, ht, hv, hty, hid, findById, hdb, hget] at hnext
              subst hnext
              exact ⟨token, decoded, n, admin, rfl, hv, hid, hget, rfl, rfl⟩
        · simp [adminAuth, ht, hv, hty] at hnext
  · intro token decoded n s1 s2 a1 a2 hdb ht hv hty hid h1 h2
    refine ⟨{ id := IdValue.objectId n, username := some a1.username, isAdmin := true,
              permissions := some a1.permissions },
            { id := IdValue.objectId n, username := some a2.username, isAdmin := true,
              permissions := some a2.permissions }, ?_, ?_, rfl, rfl⟩
    · simp [adminAuth, ht, hv, hty, hid, findById, hdb, h1]
    · simp [adminAuth, ht, hv, hty, hid, findById, hdb, h2]

/-- Witness of C18: the sample token against the sample store and against a store in
which the sample admin has lost voter management. -/
theorem adminAuth_permissions_from_store_witness :
    ∃ u1 u2,
      adminAuth sampleLibs AdminFaults.none none 0 (some "admin-token") sampleAdminStore =
        AuthOutcome.next u1 ∧
      adminAuth sampleLibs AdminFaults.none none 0 (some "admin-token")
        { admins := [{ sampleAdmin with
            permissions := { samplePermissions with canManageVoters := false } }] } =
        AuthOutcome.next u2 ∧
      u1.permissions = some samplePermissions ∧
      u2.permissions = some { samplePermissions with canManageVoters := false } :=
  (adminAuth_permissions_from_store sampleLibs AdminFaults.none none 0).2.2
    "admin-token" _ 0 sampleAdminStore
    { admins := [{ sampleAdmin with
        permissions := { samplePermissions with canManageVoters := false } }] }
    sampleAdmin
    { sampleAdmin with permissions := { samplePermissions with canManageVoters := false } }
    rfl (by decide) rfl rfl rfl rfl rfl

/-! ## Theorems about the `createAdmin` script -/

/-- C19, the code at the failing input. An admin provisioned by `createAdmin` does not
carry the hash of the cleartext password: the script hashes the password and the save
hook, which sees a modified password, hashes that hash again. In the create branch and,
whenever the script's hash differs from the stored password, in the update branch, the
stored password is `hash (hash p scriptSalt) hookSalt`. -/
theorem createAdmin_hashes_twice (libs : Libs) (scriptSalt hookSalt : String) (now : Int)
    (data : AdminData) (s : AdminStore) :
    (findOneAdmin (fun a => a.username == data.username) s.admins 0 = none →
      jsTrim data.name ≠ "" → libs.toLowerCase (jsTrim data.username) ≠ "" →
      6 ≤ (libs.bcryptHash data.password scriptSalt).length →
      (∀ a ∈ s.admins, a.username ≠ libs.toLowerCase (jsTrim data.username)) →
      createAdmin libs AdminFaults.none scriptSalt hookSalt now data s =
        { admins := s.admins ++
            [{ name := jsTrim data.name, username := libs.toLowerCase (jsTrim data.username),
               password :=
                 libs.bcryptHash (libs.bcryptHash data.password scriptSalt) hookSalt,
               walletAddress := none, permissions := castPermissions data.permissions,
               createdAt := now }] }) ∧
    (∀ (id : Nat) (existingAdmin : Admin),
      findOneAdmin (fun a => a.username == data.username) s.admins 0 =
        some (id, existingAdmin) →
      jsTrim data.name ≠ "" → existingAdmin.username ≠ "" →
      6 ≤ (libs.bcryptHash data.password scriptSalt).length →
      libs.bcryptHash data.password scriptSalt ≠ existingAdmin.password →
      createAdmin libs AdminFaults.none scriptSalt hookSalt now data s =
        { admins := s.admins.set id
            { existingAdmin with
              name := jsTrim data.name,
              password :=
                libs.bcryptHash (libs.bcryptHash data.password scriptSalt) hookSalt,
              permissions := castPermissions data.permissions } }) := by
  constructor
  · intro hfind hname huser hlen huniq
    have hany : (s.admins.any
        (fun a => a.username == libs.toLowerCase (jsTrim data.username))) = false := by
      rw [List.any_eq_false]
      intro a ha
      simpa using huniq a ha
    simp [createAdmin, AdminFaults.none, hfind, validAdmin, preSave, hname, huser, hlen, hany]
  · intro id existingAdmin hfind hname huser hlen hne
    simp [createAdmin, AdminFaults.none, hfind, validAdmin, preSave, hname, huser, hlen, hne]

/-- Witness of C19: the script's own `adminData` on an empty collection and again on the
collection it produced, with the stand-in hash `salt:data`. Both runs store a hash of a
hash, against which the comparison of the cleartext password fails, and the login with
the credentials the script prints is answered 401. -/
theorem createAdmin_hashes_twice_witness :
    createAdmin sampleLibs AdminFaults.none "s1" "h1" 0 adminData { admins := [] } =
      { admins := [{ name := "Katriel Castillo Encarnacion", username := "katriel",
                     password := "h1:s1:FMR2F7Qg@", walletAddress := none,
                     permissions := castPermissions adminData.permissions,
                     createdAt := 0 }] } ∧
    (createAdmin sampleLibs AdminFaults.none "s2" "h2" 9 adminData
        (createAdmin sampleLibs AdminFaults.none "s1" "h1" 0 adminData
          { admins := [] })).admins.map Admin.password = ["h2:s2:FMR2F7Qg@"] ∧
    sampleLibs.bcryptCompare "FMR2F7Qg@" "s1:FMR2F7Qg@" = true ∧
    sampleLibs.bcryptCompare "FMR2F7Qg@" "h1:s1:FMR2F7Qg@" = false ∧
    (login sampleLibs AdminFaults.none none 10
        { username := BodyField.text "katriel", password := BodyField.text "FMR2F7Qg@" }
        (createAdmin sampleLibs AdminFaults.none "s1" "h1" 0 adminData
          { admins := [] })).1.status = 401 :=
  ⟨(createAdmin_hashes_twice sampleLibs "s1" "h1" 0 adminData { admins := [] }).1
      rfl (by decide) (by decide) (by decide) (by decide),
   by decide, by decide, by decide, by decide⟩

/-! ## Theorems about the dates of `createElection` -/

/-- C20, counterexample. A body whose `startDate` 2000 lies after its `endDate` 1000 is
stored by `createElection`, which answers 201. -/
theorem createElection_dates_counterexample :
    (createElection DbFaults.none 0
        { sampleBody with startDate := some 2000, endDate := some 1000 } emptyStore).1.status
      = 201 ∧
    (createElection DbFaults.none 0
        { sampleBody with startDate := some 2000, endDate := some 1000 }
        emptyStore).2.elections.map (fun e => (e.startDate, e.endDate)) = [(2000, 1000)] := by
  constructor <;> decide

/-- A date path that was cast holds the value the body gave, and that value lies in the
range of a `Date`. -/
theorem bind_castDate (field : Option Int) (result : Int)
    (h : field.bind castDate = some result) :
    field = some result ∧ result.natAbs ≤ 8640000000000000 := by
  cases field with
  | none => simp at h
  | some value =>
    by_cases hrange : value.natAbs ≤ 8640000000000000
    · have hvalue : value = result := by simpa [castDate, hrange] using h
      subst hvalue
      exact ⟨rfl, hrange⟩
    · simp [castDate, hrange] at h

/-- The dates of a valid body can be replaced by any dates in the range of a `Date`
without making it invalid. -/
theorem newElection_any_dates (now : Int) (body : ElectionBody) (election : Election)
    (h : newElection now body = some election) (startDate endDate : Int)
    (hs : startDate.natAbs ≤ 8640000000000000) (he : endDate.natAbs ≤ 8640000000000000) :
    newElection now { body with startDate := some startDate, endDate := some endDate } =
      some { election with startDate := startDate, endDate := endDate } := by
  unfold newElection at h ⊢
  split at h
  · rename_i title description sd ed candidates contractAddress h1 h2 h3 h4 h5 h6
    simp only [Option.some.injEq] at h
    subst h
    simp [h1, h2, h5, h6, castDate, hs, he]
  · simp at h

/-- A body with a date outside the range of a `Date` is not valid. -/
theorem newElection_date_out_of_range (now : Int) (body : ElectionBody)
    (startDate endDate : Int)
    (h : 8640000000000000 < startDate.natAbs ∨ 8640000000000000 < endDate.natAbs) :
    newElection now { body with startDate := some startDate, endDate := some endDate } =
      none := by
  unfold newElection
  split
  · rename_i h3 h4 _ _
    have hs := (bind_castDate _ _ h3).2
    have he := (bind_castDate _ _ h4).2
    have hs1 := (bind_castDate _ _ h3).1
    have he1 := (bind_castDate _ _ h4).1
    simp only [Option.some.injEq] at hs1 he1
    subst hs1 he1
    omega
  · rfl

/-- C20, amended. No relation between `startDate` and `endDate` is checked by
`createElection`: a body that passes the schema's casts and validation, with a contract
address not yet stored and a save that does not throw, is stored with its two dates as
received, and it stays valid, and is stored, with any other two dates in the range of a
`Date` in their place, also when `startDate >= endDate`. The only check on a date is its
cast: with a date outside the range of a `Date` the body is answered 500 and nothing is
stored. -/
theorem createElection_dates_unchecked (now : Int) (body : ElectionBody) (s : Store)
    (election : Election) (startDate endDate : Int)
    (hvalid : newElection now body = some election)
    (hfresh : ∀ e ∈ s.elections, e.contractAddress ≠ election.contractAddress) :
    createElection DbFaults.none now body s =
      ({ status := 201, message := "Election created successfully",
         election := some election },
       { s with elections := s.elections ++ [election] }) ∧
    body.startDate = some election.startDate ∧ body.endDate = some election.endDate ∧
    (startDate.natAbs ≤ 8640000000000000 → endDate.natAbs ≤ 8640000000000000 →
      createElection DbFaults.none now
          { body with startDate := some startDate, endDate := some endDate } s =
        ({ status := 201, message := "Election created successfully",
           election := some { election with startDate := startDate, endDate := endDate } },
         { s with elections := s.elections ++
             [{ election with startDate := startDate, endDate := endDate }] })) ∧
    (8640000000000000 < startDate.natAbs ∨ 8640000000000000 < endDate.natAbs →
      createElection DbFaults.none now
          { body with startDate := some startDate, endDate := some endDate } s =
        (createElectionError, s)) := by
  have hany : (s.elections.any
      (fun e => e.contractAddress == election.contractAddress)) = false := by
    rw [List.any_eq_false]
    intro e he
    simpa using hfresh e he
  refine ⟨?_, ?_, ?_, ?_, ?_⟩
  · simp [createElection, hvalid, DbFaults.none, hany]
  · unfold newElection at hvalid
    split at hvalid
    · rename_i h3 _ _ _
      simp only [Option.some.injEq] at hvalid
      subst hvalid
      exact (bind_castDate _ _ h3).1
    · simp at hvalid
  · unfold newElection at hvalid
    split at hvalid
    · rename_i h4 _ _
      simp only [Option.some.injEq] at hvalid
      subst hvalid
      exact (bind_castDate _ _ h4).1
    · simp at hvalid
  · intro hs he
    simp [createElection,
      newElection_any_dates now body election hvalid startDate endDate hs he,
      DbFaults.none, hany]
  · intro hout
    simp [createElection, newElection_date_out_of_range now body startDate endDate hout]

/-- Witness of C20, amended: the sample body with its dates swapped is stored, and with a
start date one millisecond beyond the range of a `Date` it is answered 500. -/
theorem createElection_dates_unchecked_witness :
    (createElection DbFaults.none 0
        { sampleBody with startDate := some 2000, endDate := some 1000 }
        emptyStore).2.elections =
      [{ sampleElection with startDate := 2000, endDate := 1000 }] ∧
    createElection DbFaults.none 0
        { sampleBody with startDate := some 8640000000000001, endDate := some 1000 }
        emptyStore =
      ({ status := 500, message := "Error creating election", election := none },
       emptyStore) :=
  ⟨congrArg (fun r => r.2.elections)
    ((createElection_dates_unchecked 0 sampleBody emptyStore sampleElection 2000 1000
      (by decide) (fun _ he => absurd he (List.not_mem_nil _))).2.2.2.1
      (by decide) (by decide)),
   (createElection_dates_unchecked 0 sampleBody emptyStore sampleElection
      8640000000000001 1000
      (by decide) (fun _ he => absurd he (List.not_mem_nil _))).2.2.2.2
      (Or.inl (by decide))⟩

/-! ## Theorems about roster management in the client -/

/-- The three ranges of the class of hexadecimal digits, on characters. -/
theorem isHexDigit_iff (c : Char) :
    isHexDigit c = true ↔
      ('0' ≤ c ∧ c ≤ '9') ∨ ('a' ≤ c ∧ c ≤ 'f') ∨ ('A' ≤ c ∧ c ≤ 'F') := by
  have h0 : ∀ a b : Char, a ≤ b ↔ a.toNat ≤ b.toNat := by
    intro a b
    exact Iff.rfl
  simp only [isHexDigit, h0, Bool.or_eq_true, Bool.and_eq_true, decide_eq_true_eq]
  have e0 : ('0' : Char).toNat = 0x30 := rfl
  have e9 : ('9' : Char).toNat = 0x39 := rfl
  have ea : ('a' : Char).toNat = 0x61 := rfl
  have ef : ('f' : Char).toNat = 0x66 := rfl
  have eA : ('A' : Char).toNat = 0x41 := rfl
  have eF : ('F' : Char).toNat = 0x46 := rfl
  rw [e0, e9, ea, ef, eA, eF]
  omega

/-- C21. For every string, `validateEthereumAddress` is true exactly when the string
has 42 characters, starts with `0x`, and its other 40 characters are hexadecimal digits
(0-9, a-f, A-F); `handleAddVoter` sends no request for an address that fails the check
(it only shows the error toast and leaves the state as it is); and the middleware
`validateSignatureRequest` of the server applies the same pattern. -/
theorem validateEthereumAddress_iff :
    (∀ a : String, validateEthereumAddress a = true ↔
      a.length = 42 ∧ a.toList.take 2 = ['0', 'x'] ∧
      ∀ c ∈ a.toList.drop 2,
        ('0' ≤ c ∧ c ≤ '9') ∨ ('a' ≤ c ∧ c ≤ 'f') ∨ ('A' ≤ c ∧ c ≤ 'F')) ∧
    (∀ (env : Option String) (electionId : String) (reply : ApiReply) (st : VotersState),
      validateEthereumAddress st.newVoterAddress = false →
      handleAddVoter env electionId reply st =
        (st, [ClientEffect.toastError (ToastText.key "admin.voters.invalid_address")])) ∧
    (∀ (address signature message : String) (session : Option Session),
      address ≠ "" → signature ≠ "" → message ≠ "" →
      (Routes.validateSignatureRequest
          { address := some address, signature := some signature, message := some message,
            session := session } = none ↔ validateEthereumAddress address = true)) := by
  refine ⟨?_, ?_, ?_⟩
  · intro a
    have hlen : a.length = a.toList.length := rfl
    simp only [validateEthereumAddress, ethAddressPattern]
    rw [hlen]
    cases a.toList with
    | nil => simp
    | cons x rest1 =>
      cases rest1 with
      | nil => simp
      | cons y rest =>
        simp only [List.length_cons, List.take_succ_cons, List.take_zero,
          List.drop_succ_cons, List.drop_zero, Bool.and_eq_true, beq_iff_eq,
          List.all_eq_true, isHexDigit_iff, List.cons.injEq, and_true]
        constructor
        · rintro ⟨⟨⟨hx, hy⟩, h40⟩, hall⟩
          exact ⟨by omega, ⟨hx, hy⟩, hall⟩
        · rintro ⟨h42, ⟨hx, hy⟩, hall⟩
          exact ⟨⟨⟨hx, hy⟩, by omega⟩, hall⟩
  · intro env electionId reply st h
    simp [handleAddVoter, h]
  · intro address signature message session ha hs hm
    simp only [Routes.validateSignatureRequest, validateEthereumAddress]
    cases hp : ethAddressPattern address <;> simp [ha, hs, hm]

/-- Witness of C21: a well-formed address, one with a character too few, and an add
request that is not sent. -/
theorem validateEthereumAddress_iff_witness :
    validateEthereumAddress sampleAddress = true ∧
    validateEthereumAddress "0x00000000000000000000000000000000000000a" = false ∧
    (handleAddVoter none "1" (ApiReply.json true none)
        { VotersState.initial with newVoterAddress := "0xZZ" }).2 =
      [ClientEffect.toastError (ToastText.key "admin.voters.invalid_address")] :=
  ⟨(validateEthereumAddress_iff.1 sampleAddress).mpr (by decide),
   by decide,
   congrArg Prod.snd (validateEthereumAddress_iff.2.1 none "1" (ApiReply.json true none)
     { VotersState.initial with newVoterAddress := "0xZZ" } (by decide))⟩

/-- C22. The validation of `handleBulkAddVoters` is all-or-nothing. It sends a request
exactly when the parsed list is non-empty and every entry passes the address check,
and the request then carries the whole parsed list; when some entry fails the check
it shows "some invalid addresses" and sends nothing; when the parsed list is empty it
shows "no addresses" and sends nothing. In the two failing cases the state is left as
it is. -/
theorem handleBulkAddVoters_all_or_nothing (env : Option String) (electionId : String)
    (reply : ApiReply) (st : VotersState) :
    ((∃ e ∈ (handleBulkAddVoters env electionId reply st).2,
        ∃ method url body, e = ClientEffect.fetch method url body) ↔
      (parseAddresses st.bulkAddresses ≠ [] ∧
        ∀ a ∈ parseAddresses st.bulkAddresses, validateEthereumAddress a = true)) ∧
    (∀ method url body,
      ClientEffect.fetch method url body ∈ (handleBulkAddVoters env electionId reply st).2 →
      method = "POST" ∧
      url = apiBase env ++ "/api/elections/" ++ electionId ++ "/voters/bulk" ∧
      body = FetchBody.addresses (parseAddresses st.bulkAddresses)) ∧
    ((∃ a ∈ parseAddresses st.bulkAddresses, validateEthereumAddress a = false) →
      handleBulkAddVoters env electionId reply st =
        (st, [ClientEffect.toastError
          (ToastText.key "admin.voters.some_invalid_addresses")])) ∧
    (parseAddresses st.bulkAddresses = [] →
      handleBulkAddVoters env electionId reply st =
        (st, [ClientEffect.toastError (ToastText.key "admin.voters.no_addresses")])) := by
  by_cases hinv : ∃ a ∈ parseAddresses st.bulkAddresses, validateEthereumAddress a = false
  · have hf : ((parseAddresses st.bulkAddresses).filter
        (fun addr => !validateEthereumAddress addr)).length > 0 := by
      obtain ⟨a, ha, hva⟩ := hinv
      apply List.length_pos_of_mem
      exact List.mem_filter.mpr ⟨ha, by simp [hva]⟩
    have hres : handleBulkAddVoters env electionId reply st =
        (st, [ClientEffect.toastError
          (ToastText.key "admin.voters.some_invalid_addresses")]) := by
      simp only [handleBulkAddVoters, hf, if_true]
    have hne : parseAddresses st.bulkAddresses ≠ [] := by
      obtain ⟨a, ha, _⟩ := hinv
      exact List.ne_nil_of_mem ha
    refine ⟨?_, ?_, fun _ => hres, fun h => absurd h hne⟩
    · rw [hres]
      constructor
      · rintro ⟨e, he, m, u, b, heq⟩
        simp [heq] at he
      · rintro ⟨_, hall⟩
        obtain ⟨a, ha, hva⟩ := hinv
        rw [hall a ha] at hva
        exact absurd hva (by decide)
    · intro m u b hmem
      rw [hres] at hmem
      simp at hmem
  · have hall : ∀ a ∈ parseAddresses st.bulkAddresses, validateEthereumAddress a = true := by
      intro a ha
      by_contra hne
      exact hinv ⟨a, ha, by simpa using hne⟩
    have hf : ((parseAddresses st.bulkAddresses).filter
        (fun addr => !validateEthereumAddress addr)) = [] := by
      rw [List.filter_eq_nil_iff]
      intro a ha
      simp [hall a ha]
    by_cases hempty : parseAddresses st.bulkAddresses = []
    · have hres : handleBulkAddVoters env electionId reply st =
          (st, [ClientEffect.toastError (ToastText.key "admin.voters.no_addresses")]) := by
        simp [handleBulkAddVoters, hempty]
      refine ⟨?_, ?_, fun h => absurd h hinv, fun _ => hres⟩
      · rw [hres]
        constructor
        · rintro ⟨e, he, m, u, b, heq⟩
          simp [heq] at he
        · rintro ⟨hne, _⟩
          exact absurd hempty hne
      · intro m u b hmem
        rw [hres] at hmem
        simp at hmem
    · have hlen : (parseAddresses st.bulkAddresses).length ≠ 0 := by
        intro h0
        exact hempty (List.length_eq_zero.mp h0)
      refine ⟨?_, ?_, fun h => absurd h hinv, fun h => absurd h hempty⟩
      · constructor
        · intro _
          exact ⟨hempty, hall⟩
        · intro _
          refine ⟨ClientEffect.fetch "POST"
            (apiBase env ++ "/api/elections/" ++ electionId ++ "/voters/bulk")
            (FetchBody.addresses (parseAddresses st.bulkAddresses)), ?_, _, _, _, rfl⟩
          simp only [handleBulkAddVoters, hf, List.length_nil, gt_iff_lt, Nat.lt_irrefl,
            if_false, hlen]
          split <;> simp
      · intro m u b hmem
        simp only [handleBulkAddVoters, hf, List.length_nil, gt_iff_lt, Nat.lt_irrefl,
          if_false, hlen] at hmem
        split at hmem <;> simp at hmem <;> exact ⟨hmem.1, hmem.2.1, hmem.2.2⟩

/-! ## Theorems about the bulk parsing -/

/-- Dropping a prefix by a test that no element passes drops nothing. -/
theorem dropWhile_of_all_false (p : Char → Bool) (l : List Char)
    (h : ∀ c ∈ l, p c = false) : l.dropWhile p = l := by
  cases l with
  | nil => rfl
  | cons a rest =>
    have ha : p a = false := h a (List.mem_cons_self a rest)
    simp [List.dropWhile_cons, ha]

/-- Trimming leaves a string without white space as it is. -/
theorem jsTrim_of_no_space (x : List Char) (h : ∀ c ∈ x, isJsSpace c = false) :
    jsTrim (String.mk x) = String.mk x := by
  have h1 : x.dropWhile isJsSpace = x := dropWhile_of_all_false isJsSpace x h
  have h2 : x.reverse.dropWhile isJsSpace = x.reverse :=
    dropWhile_of_all_false isJsSpace x.reverse (fun c hc => h c (List.mem_reverse.mp hc))
  change String.mk (((x.dropWhile isJsSpace).reverse.dropWhile isJsSpace).reverse) = String.mk x
  rw [h1, h2, List.reverse_reverse]

/-- A character that is no separator is no white space. -/
theorem not_space_of_not_separator (c : Char) (h : isBulkSeparator c = false) :
    isJsSpace c = false ∧ c ≠ ',' := by
  simp only [isBulkSeparator, Bool.or_eq_false_iff, beq_eq_false_iff_ne] at h
  exact h

/-- The entries that a list of pieces contributes to `addressesArray`. -/
theorem tokens_cons_nil (l : List (List Char)) :
    (((([] : List Char) :: l).map String.mk).map jsTrim).filter
        (fun addr => decide (addr.length > 0)) =
      ((l.map String.mk).map jsTrim).filter (fun addr => decide (addr.length > 0)) := by
  have h : jsTrim (String.mk []) = String.mk [] := jsTrim_of_no_space [] (by simp)
  simp only [List.map_cons, h]
  rw [List.filter_cons_of_neg]
  decide

/-- A non-empty piece without separators is kept as it is. -/
theorem tokens_cons_token (x : List Char) (l : List (List Char)) (hx : x ≠ [])
    (hfree : ∀ c ∈ x, isBulkSeparator c = false) :
    (((x :: l).map String.mk).map jsTrim).filter (fun addr => decide (addr.length > 0)) =
      String.mk x ::
        ((l.map String.mk).map jsTrim).filter (fun addr => decide (addr.length > 0)) := by
  have h : jsTrim (String.mk x) = String.mk x :=
    jsTrim_of_no_space x (fun c hc => (not_space_of_not_separator c (hfree c hc)).1)
  have hlen : (String.mk x).length > 0 := by
    change x.length > 0
    exact List.length_pos.mpr hx
  simp only [List.map_cons, h]
  rw [List.filter_cons_of_pos]
  simpa using hlen

/-- Every piece of a split is free of separators. -/
theorem splitAux_free (cs current : List Char) (flag : Bool)
    (hcur : ∀ c ∈ current, isBulkSeparator c = false) :
    ∀ x ∈ splitAux cs current flag, ∀ c ∈ x, isBulkSeparator c = false := by
  induction cs generalizing current flag with
  | nil =>
    intro x hx c hc
    simp only [splitAux, List.mem_singleton] at hx
    subst hx
    exact hcur c (List.mem_reverse.mp hc)
  | cons a rest ih =>
    intro x hx
    by_cases ha : isBulkSeparator a = true
    · cases flag with
      | true =>
        simp only [splitAux, ha, if_true] at hx
        exact ih [] true (by simp) x hx
      | false =>
        simp only [splitAux, ha, if_true, Bool.false_eq_true, if_false, List.mem_cons] at hx
        rcases hx with hx | hx
        · subst hx
          intro c hc
          exact hcur c (List.mem_reverse.mp hc)
        · exact ih [] true (by simp) x hx
    · simp only [splitAux, ha, if_false] at hx
      have ha2 : isBulkSeparator a = false := by simpa using ha
      refine ih (a :: current) false ?_ x hx
      intro c hc
      rcases List.mem_cons.mp hc with h | h
      · rw [h]; exact ha2
      · exact hcur c h

/-- After an empty piece, the flag of the split does not change the entries. -/
theorem tokens_flag (cs : List Char) :
    (((splitAux cs [] false).map String.mk).map jsTrim).filter
        (fun addr => decide (addr.length > 0)) =
      (((splitAux cs [] true).map String.mk).map jsTrim).filter
        (fun addr => decide (addr.length > 0)) := by
  cases cs with
  | nil => rfl
  | cons a rest =>
    by_cases ha : isBulkSeparator a = true
    · simp only [splitAux, ha, if_true, Bool.false_eq_true, if_false, List.reverse_nil]
      exact tokens_cons_nil _
    · have ha2 : isBulkSeparator a = false := by simpa using ha
      simp [splitAux, ha2]

/-- A run of separators read after a separator adds no piece. -/
theorem splitAux_run (run rest : List Char) (h : ∀ c ∈ run, isBulkSeparator c = true) :
    splitAux (run ++ rest) [] true = splitAux rest [] true := by
  induction run with
  | nil => rfl
  | cons a tail ih =>
    have ha : isBulkSeparator a = true := h a (List.mem_cons_self a tail)
    simp only [List.cons_append, splitAux, ha, if_true]
    exact ih (fun c hc => h c (List.mem_cons_of_mem a hc))

/-- A token is read into the current piece. -/
theorem splitAux_token (token rest current : List Char) (flag : Bool) (hne : token ≠ [])
    (h : ∀ c ∈ token, isBulkSeparator c = false) :
    splitAux (token ++ rest) current flag = splitAux rest (token.reverse ++ current) false := by
  induction token generalizing current flag with
  | nil => exact absurd rfl hne
  | cons a tail ih =>
    have ha : isBulkSeparator a = false := h a (List.mem_cons_self a tail)
    by_cases ht : tail = []
    · subst ht
      simp [splitAux, ha]
    · have := ih (a :: current) false ht (fun c hc => h c (List.mem_cons_of_mem a hc))
      have e : splitAux (a :: tail ++ rest) current flag =
          splitAux (tail ++ rest) (a :: current) false := by
        simp [splitAux, ha]
      rw [e, this]
      simp

/-- A leading character of the first run stays in front. -/
theorem joinPieces_cons (c : Char) (lead : List Char)
    (pieces : List (List Char × List Char)) :
    joinPieces (c :: lead) pieces = c :: joinPieces lead pieces := by
  cases pieces with
  | nil => rfl
  | cons p rest =>
    obtain ⟨token, run⟩ := p
    simp [joinPieces]

/-- The round trip on the level of pieces, read after a separator. -/
theorem tokens_joinPieces (pieces : List (List Char × List Char)) (lead : List Char)
    (hlead : ∀ c ∈ lead, isBulkSeparator c = true) (hp : SeparatedPieces pieces) :
    (((splitAux (joinPieces lead pieces) [] true).map String.mk).map jsTrim).filter
        (fun addr => decide (addr.length > 0)) =
      pieces.map (fun p => String.mk p.1) := by
  induction pieces generalizing lead with
  | nil =>
    have h := splitAux_run lead [] hlead
    simp only [List.append_nil] at h
    simp only [joinPieces, h, List.map_nil]
    rfl
  | cons p rest ih =>
    obtain ⟨token, run⟩ := p
    obtain ⟨hne, hfree, hrun, hlast, hrest⟩ := hp
    simp only [joinPieces, List.append_assoc, List.map_cons]
    rw [splitAux_run lead _ hlead, splitAux_token token _ [] true hne hfree]
    simp only [List.append_nil]
    cases run with
    | nil =>
      have hr : rest = [] := by
        by_contra hcon
        exact hlast hcon rfl
      subst hr
      simp only [joinPieces, splitAux, List.reverse_reverse, List.map_nil]
      rw [tokens_cons_token token [] hne hfree]
      rfl
    | cons c run1 =>
      have hc : isBulkSeparator c = true := hrun c (List.mem_cons_self c run1)
      rw [joinPieces_cons]
      simp only [splitAux, hc, if_true, Bool.false_eq_true, if_false, List.reverse_reverse]
      rw [tokens_cons_token token _ hne hfree,
        ih run1 (fun d hd => hrun d (List.mem_cons_of_mem c hd)) hrest]

/-- C30. For every input text, the entries of the parsed bulk list are non-empty and
contain neither a comma nor white space. For every list of non-empty tokens free of
commas and white space, the text made of these tokens in order, joined by non-empty
runs of commas and white space, with any such run (or none) in front and behind,
parses to exactly these tokens, in their order and with duplicates kept. -/
theorem parseAddresses_roundtrip :
    (∀ (text : String), ∀ t ∈ parseAddresses text,
      t ≠ "" ∧ ∀ c ∈ t.toList, c ≠ ',' ∧ isJsSpace c = false) ∧
    (∀ (lead : List Char) (pieces : List (List Char × List Char)),
      (∀ c ∈ lead, isBulkSeparator c = true) → SeparatedPieces pieces →
      parseAddresses (String.mk (joinPieces lead pieces)) =
        pieces.map (fun p => String.mk p.1)) := by
  constructor
  · intro text t ht
    simp only [parseAddresses, splitSeparators, List.mem_filter, List.mem_map,
      decide_eq_true_eq] at ht
    obtain ⟨⟨s, ⟨x, hx, hs⟩, hst⟩, hlen⟩ := ht
    have hfree := splitAux_free text.toList [] false (by simp) x hx
    have htrim : jsTrim (String.mk x) = String.mk x :=
      jsTrim_of_no_space x (fun c hc => (not_space_of_not_separator c (hfree c hc)).1)
    rw [← hs, htrim] at hst
    subst hst
    refine ⟨?_, ?_⟩
    · intro h
      rw [h] at hlen
      exact absurd hlen (by decide)
    · intro c hc
      have := not_space_of_not_separator c (hfree c hc)
      exact ⟨this.2, this.1⟩
  · intro lead pieces hlead hp
    have h := tokens_joinPieces pieces lead hlead hp
    simp only [parseAddresses, splitSeparators]
    change (((splitAux (joinPieces lead pieces) [] false).map String.mk).map jsTrim).filter
        (fun addr => decide (addr.length > 0)) = _
    rw [tokens_flag, h]

/-- Witness of C30: two addresses, one of them twice, between commas, blanks and line
breaks. -/
theorem parseAddresses_roundtrip_witness :
    parseAddresses " ,0xA, \n0xB\n0xA ," = ["0xA", "0xB", "0xA"] :=
  parseAddresses_roundtrip.2 [' ', ',']
    [(['0', 'x', 'A'], [',', ' ', '\n']), (['0', 'x', 'B'], ['\n']),
     (['0', 'x', 'A'], [' ', ','])]
    (by decide)
    ⟨by decide, by decide, by decide, by decide,
     ⟨by decide, by decide, by decide, by decide,
      ⟨by decide, by decide, by decide, by decide, trivial⟩⟩⟩

/-! ## Theorems about the gating of the roster controls -/

/-- The handler `handleAddVoter` neither touches the voter selected for removal nor
sends a removal request. -/
theorem handleAddVoter_remove (env : Option String) (electionId : String) (reply : ApiReply)
    (st : VotersState) :
    (handleAddVoter env electionId reply st).1.voterToRemove = st.voterToRemove ∧
    ∀ url body,
      ClientEffect.fetch "DELETE" url body ∉ (handleAddVoter env electionId reply st).2 := by
  by_cases hv : validateEthereumAddress st.newVoterAddress = true
  · rcases reply with m | ⟨_ | _, msg⟩ <;> simp [handleAddVoter, hv]
  · simp [handleAddVoter, hv]

/-- The handler `handleBulkAddVoters` neither touches the voter selected for removal
nor sends a removal request. -/
theorem handleBulkAddVoters_remove (env : Option String) (electionId : String)
    (reply : ApiReply) (st : VotersState) :
    (handleBulkAddVoters env electionId reply st).1.voterToRemove = st.voterToRemove ∧
    ∀ url body,
      ClientEffect.fetch "DELETE" url body ∉
        (handleBulkAddVoters env electionId reply st).2 := by
  by_cases h1 : ((parseAddresses st.bulkAddresses).filter
      (fun addr => !validateEthereumAddress addr)).length > 0
  · simp [handleBulkAddVoters, h1]
  · by_cases h2 : (parseAddresses st.bulkAddresses).length = 0
    · simp only [handleBulkAddVoters, h1, h2, if_true, if_false]
      simp
    · rcases reply with m | ⟨_ | _, msg⟩ <;>
        simp only [handleBulkAddVoters, h1, h2, if_false] <;> simp

/-- The handler `handleRemoveVoter` clears or keeps the voter selected for removal, and
a removal request it sends is for that voter. -/
theorem handleRemoveVoter_remove (env : Option String) (electionId : String)
    (reply : ApiReply) (st : VotersState) :
    ((handleRemoveVoter env electionId reply st).1.voterToRemove = none ∨
      (handleRemoveVoter env electionId reply st).1.voterToRemove = st.voterToRemove) ∧
    ∀ url body,
      ClientEffect.fetch "DELETE" url body ∈ (handleRemoveVoter env electionId reply st).2 →
      ∃ voter : ClientVoter, st.voterToRemove = some voter ∧
        url = apiBase env ++ "/api/elections/" ++ electionId ++ "/voters/" ++ voter.address := by
  cases hsel : st.voterToRemove with
  | none => simp [handleRemoveVoter, hsel]
  | some voter =>
    rcases reply with m | ⟨_ | _, msg⟩ <;> simp [handleRemoveVoter, hsel]

/-- One event keeps the voter selected for removal a record whose `hasVoted` flag is
false, and a removal request it sends is for the voter that was selected before it. -/
theorem votersStep_remove_invariant (env : Option String) (electionId : String)
    (fns : StatusFns) (event : VotersEvent) (st : VotersState)
    (h : ∀ v, st.voterToRemove = some v → v.hasVoted = false) :
    (∀ v, (votersStep env electionId fns event st).1.voterToRemove = some v →
      v.hasVoted = false) ∧
    (∀ url body,
      ClientEffect.fetch "DELETE" url body ∈ (votersStep env electionId fns event st).2 →
      ∃ v : ClientVoter, st.voterToRemove = some v ∧ v.hasVoted = false ∧
        url = apiBase env ++ "/api/elections/" ++ electionId ++ "/voters/" ++ v.address) := by
  cases event with
  | refreshStarted => exact ⟨fun v hv => h v hv, fun url body hm => by simp [votersStep] at hm⟩
  | refreshed election voters =>
    cases election with
    | none => exact ⟨fun v hv => h v hv, fun url body hm => by simp [votersStep] at hm⟩
    | some e =>
      cases voters with
      | none => exact ⟨fun v hv => h v hv, fun url body hm => by simp [votersStep] at hm⟩
      | some vs => exact ⟨fun v hv => h v hv, fun url body hm => by simp [votersStep] at hm⟩
  | clickAddButton =>
    simp only [votersStep]
    split
    · exact ⟨h, fun url body hm => by simp at hm⟩
    · exact ⟨h, fun url body hm => by simp at hm⟩
  | clickBulkButton =>
    simp only [votersStep]
    split
    · exact ⟨h, fun url body hm => by simp at hm⟩
    · exact ⟨h, fun url body hm => by simp at hm⟩
  | clickRemoveButton voter =>
    simp only [votersStep]
    split
    · exact ⟨h, fun url body hm => by simp at hm⟩
    · rename_i hc
      refine ⟨?_, fun url body hm => by simp at hm⟩
      intro v hv
      simp only [openRemoveModal, Option.some.injEq] at hv
      subst hv
      simp only [Bool.or_eq_true, not_or, Bool.not_eq_true] at hc
      exact hc.2
  | typeAddress value =>
    simp only [votersStep]
    split
    · exact ⟨h, fun url body hm => by simp at hm⟩
    · exact ⟨h, fun url body hm => by simp at hm⟩
  | typeBulk value =>
    simp only [votersStep]
    split
    · exact ⟨h, fun url body hm => by simp at hm⟩
    · exact ⟨h, fun url body hm => by simp at hm⟩
  | closeAdd =>
    simp only [votersStep]
    split
    · exact ⟨h, fun url body hm => by simp at hm⟩
    · exact ⟨h, fun url body hm => by simp at hm⟩
  | closeBulk =>
    simp only [votersStep]
    split
    · exact ⟨h, fun url body hm => by simp at hm⟩
    · exact ⟨h, fun url body hm => by simp at hm⟩
  | closeRemove =>
    simp only [votersStep]
    split
    · exact ⟨h, fun url body hm => by simp at hm⟩
    · exact ⟨h, fun url body hm => by simp at hm⟩
  | confirmAdd reply =>
    simp only [votersStep]
    split
    · exact ⟨h, fun url body hm => by simp at hm⟩
    · have ha := handleAddVoter_remove env electionId reply st
      exact ⟨fun v hv => h v (ha.1 ▸ hv), fun url body hm => absurd hm (ha.2 url body)⟩
  | confirmBulk reply =>
    simp only [votersStep]
    split
    · exact ⟨h, fun url body hm => by simp at hm⟩
    · have hb := handleBulkAddVoters_remove env electionId reply st
      exact ⟨fun v hv => h v (hb.1 ▸ hv), fun url body hm => absurd hm (hb.2 url body)⟩
  | confirmRemove reply =>
    simp only [votersStep]
    split
    · exact ⟨h, fun url body hm => by simp at hm⟩
    · have hr := handleRemoveVoter_remove env electionId reply st
      refine ⟨fun v hv => ?_, fun url body hm => ?_⟩
      · rcases hr.1 with h1 | h1
        · rw [h1] at hv
          exact absurd hv (by simp)
        · exact h v (h1 ▸ hv)
      · obtain ⟨voter, hsel, hurl⟩ := hr.2 url body hm
        exact ⟨voter, hsel, h voter hsel, hurl⟩

/-- Along a sequence of events the voter selected for removal is a record whose
`hasVoted` flag is false. -/
theorem votersRun_remove_invariant (env : Option String) (electionId : String)
    (events : List (StatusFns × VotersEvent)) (st : VotersState)
    (h : ∀ v, st.voterToRemove = some v → v.hasVoted = false) :
    ∀ v, (votersRun env electionId events st).1.voterToRemove = some v →
      v.hasVoted = false := by
  induction events generalizing st with
  | nil => exact h
  | cons e rest ih =>
    obtain ⟨fns, event⟩ := e
    exact ih (votersStep env electionId fns event st).1
      (votersStep_remove_invariant env electionId fns event st h).1

/-- C23, the code at the failing input. The roster controls of `ManageVoters` are gated
where a change starts, not where its request is sent. `canModifyVoters` holds exactly
when an election is loaded and is, at that moment, neither active nor ended; without it
a click on the add, bulk or remove button does nothing, and a click on the remove button
of a voter whose `hasVoted` flag is true never does anything. So in every state reached
from the initial state the voter selected for removal is a record whose `hasVoted` flag
was false when it was selected, and a removal request is for that record. But the
handlers behind the dialogs test neither the election nor the list again: an open add
dialog with a well-formed address, an open bulk dialog with a non-empty list of
well-formed addresses and an open remove dialog with a selected voter send their
request whatever the status functions answer at that moment and whatever the list of
voters says by then. -/
theorem roster_controls_gated (env : Option String) (electionId : String) :
    (∀ (fns : StatusFns) (st : VotersState),
      canModifyVoters fns st = true ↔
        ∃ e, st.election = some e ∧ fns.isElectionActive e = false ∧
          fns.hasElectionEnded e = false) ∧
    (∀ (fns : StatusFns) (st : VotersState), canModifyVoters fns st = false →
      votersStep env electionId fns VotersEvent.clickAddButton st = (st, []) ∧
      votersStep env electionId fns VotersEvent.clickBulkButton st = (st, []) ∧
      ∀ voter, votersStep env electionId fns (VotersEvent.clickRemoveButton voter) st =
        (st, [])) ∧
    (∀ (fns : StatusFns) (st : VotersState) (voter : ClientVoter), voter.hasVoted = true →
      votersStep env electionId fns (VotersEvent.clickRemoveButton voter) st = (st, [])) ∧
    (∀ (events : List (StatusFns × VotersEvent)),
      (∀ v, (votersRun env electionId events VotersState.initial).1.voterToRemove = some v →
        v.hasVoted = false) ∧
      (∀ (fns : StatusFns) (event : VotersEvent) url body,
        ClientEffect.fetch "DELETE" url body ∈
          (votersStep env electionId fns event
            (votersRun env electionId events VotersState.initial).1).2 →
        ∃ v : ClientVoter,
          (votersRun env electionId events VotersState.initial).1.voterToRemove = some v ∧
          v.hasVoted = false ∧
          url = apiBase env ++ "/api/elections/" ++ electionId ++ "/voters/" ++ v.address)) ∧
    (∀ (fns : StatusFns) (st : VotersState) (reply : ApiReply),
      st.loading = false → st.showAddModal = true → st.actionLoading = false →
      validateEthereumAddress st.newVoterAddress = true →
      ClientEffect.fetch "POST" (apiBase env ++ "/api/elections/" ++ electionId ++ "/voters")
          (FetchBody.voterAddress st.newVoterAddress) ∈
        (votersStep env electionId fns (VotersEvent.confirmAdd reply) st).2) ∧
    (∀ (fns : StatusFns) (st : VotersState) (reply : ApiReply),
      st.loading = false → st.showBulkModal = true → st.actionLoading = false →
      jsTrim st.bulkAddresses ≠ "" → parseAddresses st.bulkAddresses ≠ [] →
      (∀ a ∈ parseAddresses st.bulkAddresses, validateEthereumAddress a = true) →
      ClientEffect.fetch "POST"
          (apiBase env ++ "/api/elections/" ++ electionId ++ "/voters/bulk")
          (FetchBody.addresses (parseAddresses st.bulkAddresses)) ∈
        (votersStep env electionId fns (VotersEvent.confirmBulk reply) st).2) ∧
    (∀ (fns : StatusFns) (st : VotersState) (reply : ApiReply) (voter : ClientVoter),
      st.loading = false → st.showRemoveModal = true → st.actionLoading = false →
      st.voterToRemove = some voter →
      ClientEffect.fetch "DELETE"
          (apiBase env ++ "/api/elections/" ++ electionId ++ "/voters/" ++ voter.address)
          FetchBody.empty ∈
        (votersStep env electionId fns (VotersEvent.confirmRemove reply) st).2) := by
  refine ⟨?_, ?_, ?_, ?_, ?_, ?_, ?_⟩
  · intro fns st
    unfold canModifyVoters
    cases st.election with
    | none => simp
    | some e => simp
  · intro fns st h
    refine ⟨?_, ?_, ?_⟩
    · simp [votersStep, h]
    · simp [votersStep, h]
    · intro voter
      simp [votersStep, h]
  · intro fns st voter h
    simp [votersStep, h]
  · intro events
    have hinv := votersRun_remove_invariant env electionId events VotersState.initial
      (fun v hv => by simp [VotersState.initial] at hv)
    exact ⟨hinv, fun fns event url body hm =>
      (votersStep_remove_invariant env electionId fns event _ hinv).2 url body hm⟩
  · intro fns st reply h1 h2 h3 h4
    rcases reply with m | ⟨_ | _, msg⟩ <;>
      simp [votersStep, h1, h2, h3, handleAddVoter, h4]
  · intro fns st reply h1 h2 h3 hblank hne hall
    have hf : (parseAddresses st.bulkAddresses).filter
        (fun addr => !validateEthereumAddress addr) = [] := by
      rw [List.filter_eq_nil_iff]
      intro a ha
      simp [hall a ha]
    rcases reply with m | ⟨_ | _, msg⟩ <;>
      simp [votersStep, h1, h2, h3, hblank, handleBulkAddVoters, hf, hne]
  · intro fns st reply voter h1 h2 h3 h4
    rcases reply with m | ⟨_ | _, msg⟩ <;>
      simp [votersStep, h1, h2, h3, handleRemoveVoter, h4]

/-- Witness of C23: the two failing visits. The add dialog is opened while the election
is pending; when it is confirmed the election is active, `canModifyVoters` is false, and
the request to add the voter is sent all the same. The remove dialog is opened for a
voter listed as not having voted; the list is fetched again and shows the voter as
having voted, and the confirmed dialog sends the removal request all the same. -/
theorem roster_controls_gated_witness :
    canModifyVoters activeFns (votersRun none "1" sampleVisit VotersState.initial).1 = false ∧
    ClientEffect.fetch "POST" "http://localhost:5000/api/elections/1/voters"
        (FetchBody.voterAddress sampleAddress) ∈
      (votersStep none "1" activeFns (VotersEvent.confirmAdd (ApiReply.json true none))
        (votersRun none "1" sampleVisit VotersState.initial).1).2 ∧
    (votersRun none "1" staleRemoveVisit VotersState.initial).1.voters =
      [{ address := sampleAddress, hasVoted := true }] ∧
    ClientEffect.fetch "DELETE"
        "http://localhost:5000/api/elections/1/voters/0x00000000000000000000000000000000000000aB"
        FetchBody.empty ∈
      (votersStep none "1" pendingFns (VotersEvent.confirmRemove (ApiReply.json true none))
        (votersRun none "1" staleRemoveVisit VotersState.initial).1).2 :=
  ⟨by decide,
   (roster_controls_gated none "1").2.2.2.2.1 activeFns
      (votersRun none "1" sampleVisit VotersState.initial).1 (ApiReply.json true none)
      (by decide) (by decide) (by decide) (by decide),
   by decide,
   (roster_controls_gated none "1").2.2.2.2.2.2 pendingFns
      (votersRun none "1" staleRemoveVisit VotersState.initial).1 (ApiReply.json true none)
      { address := sampleAddress, hasVoted := false }
      (by decide) (by decide) (by decide) (by decide)⟩

/-- Witness of C22: two well-formed addresses are sent together, and one malformed entry
stops the whole list. -/
theorem handleBulkAddVoters_all_or_nothing_witness :
    (handleBulkAddVoters none "1" (ApiReply.json true none)
        { VotersState.initial with
          bulkAddresses := sampleAddress ++ ", " ++ sampleAddress }).2.head? =
      some (ClientEffect.fetch "POST" "http://localhost:5000/api/elections/1/voters/bulk"
        (FetchBody.addresses [sampleAddress, sampleAddress])) ∧
    handleBulkAddVoters none "1" (ApiReply.json true none)
        { VotersState.initial with bulkAddresses := sampleAddress ++ ",0x12" } =
      ({ VotersState.initial with bulkAddresses := sampleAddress ++ ",0x12" },
       [ClientEffect.toastError (ToastText.key "admin.voters.some_invalid_addresses")]) :=
  ⟨by decide,
   (handleBulkAddVoters_all_or_nothing none "1" (ApiReply.json true none)
      { VotersState.initial with bulkAddresses := sampleAddress ++ ",0x12" }).2.2.1
      ⟨"0x12", by decide, by decide⟩⟩

/-! ## Theorems about the admin dashboard -/

/-- C24, the code at the failing input. For every permission record of the shape the
Admin model stores, the button "Nueva Elección" and the button that ends an election
are disabled, whatever the record grants: the dashboard reads the keys
`canCreateElection` and `canEndElection`, which the record does not have. The button
that finalizes results and the link to voter management follow `canFinalizeResults`
and `canManageVoters` (no action in flight). -/
theorem dashboard_permission_keys (p : Permissions) :
    newElectionDisabled (permissionsJson p) = true ∧
    (∀ actionLoading, endElectionDisabled actionLoading (permissionsJson p) = true) ∧
    finalizeResultsDisabled false (permissionsJson p) = !p.canFinalizeResults ∧
    manageVotersDisabled (permissionsJson p) = !p.canManageVoters := by
  refine ⟨?_, ?_, ?_, ?_⟩
  · simp [newElectionDisabled, permissionFlag, permissionsJson, List.lookup]
  · intro actionLoading
    simp [endElectionDisabled, permissionFlag, permissionsJson, List.lookup]
  · simp [finalizeResultsDisabled, permissionFlag, permissionsJson, List.lookup]
  · simp [manageVotersDisabled, permissionFlag, permissionsJson, List.lookup]

/-- One handler call keeps the length of the list and, at every position, the id of the
election and a `resultsFinalized` that was true. -/
theorem dashboard_step_finalized (action : DashboardAction) (st : DashboardState)
    (i : Nat) (e : ClientElection) (h : st.elections[i]? = some e) :
    ∃ e2, (dashboardRun [action] st).elections[i]? = some e2 ∧ e2.id = e.id ∧
      (e.resultsFinalized = true → e2.resultsFinalized = true) := by
  cases action with
  | endElection now electionId =>
    by_cases hid : e.id = electionId
    · exact ⟨{ e with endTime := now }, by simp [dashboardRun, handleEndElection, h, hid],
        rfl, fun hf => hf⟩
    · exact ⟨e, by simp [dashboardRun, handleEndElection, h, hid], rfl, fun hf => hf⟩
  | finalizeResults electionId =>
    by_cases hid : e.id = electionId
    · exact ⟨{ e with resultsFinalized := true },
        by simp [dashboardRun, handleFinalizeResults, h, hid], rfl, fun _ => rfl⟩
    · exact ⟨e, by simp [dashboardRun, handleFinalizeResults, h, hid], rfl, fun hf => hf⟩

/-- Along any sequence of handler calls an election stays at its position, keeps its id,
and keeps a `resultsFinalized` that was true. -/
theorem dashboardRun_finalized (actions : List DashboardAction) (st : DashboardState)
    (i : Nat) (e : ClientElection) (h : st.elections[i]? = some e) :
    ∃ e2, (dashboardRun actions st).elections[i]? = some e2 ∧ e2.id = e.id ∧
      (e.resultsFinalized = true → e2.resultsFinalized = true) := by
  induction actions generalizing st e with
  | nil => exact ⟨e, h, rfl, fun hf => hf⟩
  | cons a rest ih =>
    obtain ⟨e1, h1, hid1, hf1⟩ := dashboard_step_finalized a st i e h
    have hrun : dashboardRun (a :: rest) st = dashboardRun rest (dashboardRun [a] st) := by
      cases a <;> rfl
    obtain ⟨e2, h2, hid2, hf2⟩ := ih (dashboardRun [a] st) e1 h1
    rw [hrun]
    exact ⟨e2, h2, hid2.trans hid1, fun hf => hf2 (hf1 hf)⟩

/-- C25. The handler `handleFinalizeResults` sets `resultsFinalized` to true on exactly
the elections with the given id and changes nothing else of the list. An election whose
`resultsFinalized` is true keeps it true, at its position and with its id, after any
sequence of `handleEndElection` and `handleFinalizeResults` calls with any ids; and the
status badge of an election with `resultsFinalized` true is "Finalizada" whatever the
status functions answer about its time window. -/
theorem finalization_irreversible :
    (∀ (electionId : String) (st : DashboardState),
      (handleFinalizeResults electionId st).elections.length = st.elections.length ∧
      ∀ (i : Nat) (e : ClientElection), st.elections[i]? = some e →
        (handleFinalizeResults electionId st).elections[i]? =
          some (if e.id = electionId then { e with resultsFinalized := true } else e)) ∧
    (∀ (actions : List DashboardAction) (st : DashboardState) (i : Nat) (e : ClientElection),
      st.elections[i]? = some e → e.resultsFinalized = true →
      ∃ e2, (dashboardRun actions st).elections[i]? = some e2 ∧ e2.id = e.id ∧
        e2.resultsFinalized = true) ∧
    (∀ (fns : StatusFns) (e : ClientElection), e.resultsFinalized = true →
      getStatusBadge fns e = "Finalizada") := by
  refine ⟨?_, ?_, ?_⟩
  · intro electionId st
    refine ⟨by simp [handleFinalizeResults], ?_⟩
    intro i e h
    simp [handleFinalizeResults, h]
  · intro actions st i e h hf
    obtain ⟨e2, h2, hid, hfin⟩ := dashboardRun_finalized actions st i e h
    exact ⟨e2, h2, hid, hfin hf⟩
  · intro fns e hf
    simp [getStatusBadge, hf]

/-- Witness of C25: election "1" is finalized, then ended and finalized again under
other ids, and stays finalized. -/
theorem finalization_irreversible_witness :
    ∃ e2, (dashboardRun [DashboardAction.endElection 5000 "1",
          DashboardAction.finalizeResults "2", DashboardAction.endElection 6000 "3"]
        { elections := [{ sampleClientElection with resultsFinalized := true }],
          actionLoading := false }).elections[0]? = some e2 ∧
      e2.id = "1" ∧ e2.resultsFinalized = true :=
  finalization_irreversible.2.1 _ _ 0 { sampleClientElection with resultsFinalized := true }
    rfl rfl

/-! ## Theorems about the ID gate -/

/-- C26, counterexample. The typed value `012a12345678` contains a letter, yet
`handleCedulaChange` makes the gate valid: it drops the letter, keeps `01212345678`
in the field, and `handleSubmit` forwards that identifier. -/
theorem idGate_letter_counterexample :
    (handleCedulaChange "012a12345678" IdLoginState.initial).isValid = true ∧
    (handleCedulaChange "012a12345678" IdLoginState.initial).cedula = "01212345678" ∧
    (handleSubmit (handleCedulaChange "012a12345678" IdLoginState.initial)).2 =
      some "01212345678" := by
  refine ⟨?_, ?_, ?_⟩ <;> decide

/-- An element that fails the test of `dropWhile` is not dropped. -/
theorem mem_dropWhile_of_false (p : Char → Bool) (l : List Char) (c : Char) (hc : c ∈ l)
    (hp : p c = false) : c ∈ l.dropWhile p := by
  induction l with
  | nil => simp at hc
  | cons a rest ih =>
    by_cases ha : p a = true
    · rw [List.dropWhile_cons, if_pos ha]
      rcases List.mem_cons.mp hc with h | h
      · rw [h, ha] at hp
        exact absurd hp (by decide)
      · exact ih h
    · rw [List.dropWhile_cons, if_neg ha]
      exact hc

/-- A value accepted by `validateCedula` is not blank. -/
theorem jsTrim_ne_empty_of_valid (v : String) (h : validateCedula v = true) :
    jsTrim v ≠ "" := by
  have hod : onlyDigits (cleanCedula v) = true := by
    by_contra hn
    simp only [Bool.not_eq_true] at hn
    simp [validateCedula, hn] at h
  have hne : (cleanCedula v).toList ≠ [] := by
    intro he
    have he2 : (cleanCedula v).data = [] := he
    simp [onlyDigits, he2] at hod
  obtain ⟨c, rest, hcr⟩ := List.exists_cons_of_ne_nil hne
  have hmem : c ∈ v.toList.filter (fun c => !(c == '-' || isJsSpace c)) := by
    have : (cleanCedula v).toList = v.toList.filter (fun c => !(c == '-' || isJsSpace c)) :=
      rfl
    rw [← this, hcr]
    exact List.mem_cons_self c rest
  obtain ⟨hcv, hcp⟩ := List.mem_filter.mp hmem
  have hsp : isJsSpace c = false := by
    simp only [Bool.not_eq_true', Bool.or_eq_false_iff] at hcp
    exact hcp.2
  have h1 := mem_dropWhile_of_false isJsSpace v.toList c hcv hsp
  have h2 := mem_dropWhile_of_false isJsSpace _ c (List.mem_reverse.mpr h1) hsp
  intro hempty
  have hlist : ((v.toList.dropWhile isJsSpace).reverse.dropWhile isJsSpace).reverse = [] :=
    congrArg String.toList hempty
  rw [List.reverse_eq_nil_iff] at hlist
  rw [hlist] at h2
  exact absurd h2 (List.not_mem_nil c)

/-- What `validateCedula` accepts: the cleaned value has 11 characters, all of them
digits, and starts with 012 or 402. -/
theorem validateCedula_true (v : String) (h : validateCedula v = true) :
    (cleanCedula v).length = 11 ∧ (∀ c ∈ (cleanCedula v).toList, c.isDigit = true) ∧
    (['0', '1', '2'] <+: (cleanCedula v).toList ∨
      ['4', '0', '2'] <+: (cleanCedula v).toList) := by
  simp only [validateCedula] at h
  split at h
  · simp at h
  · rename_i hod
    simp only [Bool.and_eq_true, beq_iff_eq] at h
    simp only [Bool.not_eq_true, Bool.not_eq_false', onlyDigits, Bool.and_eq_true,
      List.all_eq_true] at hod
    refine ⟨h.2, hod.2, ?_⟩
    have hr := h.1
    unfold cedulaRegex at hr
    split at hr
    · rename_i a b c rest heq
      rw [heq]
      simp only [Bool.and_eq_true, Bool.or_eq_true, beq_iff_eq] at hr
      rcases hr.1.1 with ⟨⟨ha, hb⟩, hc⟩ | ⟨⟨ha, hb⟩, hc⟩
      · left; subst ha hb hc
        exact ⟨rest, rfl⟩
      · right; subst ha hb hc
        exact ⟨rest, rfl⟩
    · simp at hr

/-- The field and the validity that `handleCedulaChange` leaves. -/
theorem handleCedulaChange_valid (typed : String) (st : IdLoginState) :
    (handleCedulaChange typed st).cedula = keepAllowed typed ∧
    ((handleCedulaChange typed st).isValid = true ↔
      validateCedula (keepAllowed typed) = true) := by
  have hidem : validateCedula (cleanCedula (keepAllowed typed)) =
      validateCedula (keepAllowed typed) := by
    simp only [validateCedula, cleanCedula_idem]
  by_cases h1 : jsTrim (keepAllowed typed) = ""
  · refine ⟨by simp [handleCedulaChange, h1], ?_⟩
    constructor
    · intro h
      simp [handleCedulaChange, h1] at h
    · intro h
      exact absurd h1 (jsTrim_ne_empty_of_valid _ h)
  · by_cases h2 : onlyDigits (cleanCedula (keepAllowed typed)) = true
    · by_cases h3 : validateCedula (keepAllowed typed) = true
      · have h3b := hidem.trans h3
        exact ⟨by simp [handleCedulaChange, h1, h2, h3b],
          by simp [handleCedulaChange, h1, h2, h3b, h3]⟩
      · have h3b : validateCedula (cleanCedula (keepAllowed typed)) = false := by
          rw [hidem]; simpa using h3
        exact ⟨by simp [handleCedulaChange, h1, h2, h3b],
          by simp [handleCedulaChange, h1, h2, h3b, h3]⟩
    · have h2b : onlyDigits (cleanCedula (keepAllowed typed)) = false := by simpa using h2
      have h3 : validateCedula (keepAllowed typed) = false := by
        simp [validateCedula, h2b]
      exact ⟨by simp [handleCedulaChange, h1, h2b], by simp [handleCedulaChange, h1, h2b, h3]⟩

/-- Along any sequence of events, a valid gate holds a value that `validateCedula`
accepts. -/
theorem idLoginRun_valid (events : List IdLoginEvent) (st : IdLoginState)
    (h : st.isValid = true → validateCedula st.cedula = true) :
    (idLoginRun events st).isValid = true →
      validateCedula (idLoginRun events st).cedula = true := by
  induction events generalizing st with
  | nil => exact h
  | cons e rest ih =>
    cases e with
    | change typed =>
      apply ih (handleCedulaChange typed st)
      intro hv
      have hc := handleCedulaChange_valid typed st
      rw [hc.1]
      exact hc.2.mp hv
    | submit =>
      apply ih (handleSubmit st).1
      unfold handleSubmit
      split
      · exact h
      · exact h

/-- C26, amended. The ID gate validates what is left of the typed value after every
character other than a digit, a hyphen or white space has been removed: after
`handleCedulaChange` the field holds that remainder, and the gate is valid exactly when
`validateCedula` accepts it (so a value with a letter is accepted when its remainder
is). Along any sequence of changes and submissions, whenever the gate is valid
`handleSubmit` forwards the cleaned field, a string of 11 digits that starts with 012
or 402; and while the gate is invalid it forwards nothing. -/
theorem idGate_filters_then_validates :
    (∀ (typed : String) (st : IdLoginState),
      (handleCedulaChange typed st).cedula = keepAllowed typed ∧
      ((handleCedulaChange typed st).isValid = true ↔
        validateCedula (keepAllowed typed) = true)) ∧
    (∀ (events : List IdLoginEvent),
      (idLoginRun events IdLoginState.initial).isValid = true →
      ∃ cedula : String,
        (handleSubmit (idLoginRun events IdLoginState.initial)).2 = some cedula ∧
        cedula = cleanCedula (idLoginRun events IdLoginState.initial).cedula ∧
        cedula.length = 11 ∧ (∀ c ∈ cedula.toList, c.isDigit = true) ∧
        (['0', '1', '2'] <+: cedula.toList ∨ ['4', '0', '2'] <+: cedula.toList)) ∧
    (∀ st : IdLoginState, st.isValid = false → (handleSubmit st).2 = none) := by
  refine ⟨handleCedulaChange_valid, ?_, ?_⟩
  · intro events hv
    have hval := idLoginRun_valid events IdLoginState.initial
      (fun h => by simp [IdLoginState.initial] at h) hv
    obtain ⟨h11, hdig, hpre⟩ := validateCedula_true _ hval
    exact ⟨_, by simp [handleSubmit, hv], rfl, h11, hdig, hpre⟩
  · intro st h
    simp [handleSubmit, h]

/-- Witness of C26, amended: an identifier typed with hyphens and then submitted. -/
theorem idGate_filters_then_validates_witness :
    ∃ cedula : String,
      (handleSubmit (idLoginRun [IdLoginEvent.change "402-1234567-8"]
        IdLoginState.initial)).2 = some cedula ∧
      cedula.length = 11 :=
  match idGate_filters_then_validates.2.1 [IdLoginEvent.change "402-1234567-8"]
      (by decide) with
  | ⟨cedula, h1, _, h3, _⟩ => ⟨cedula, h1, h3⟩

/-! ## Theorems about the percentages of `getResults` -/

/-- The percentages of exact values against a total add up to the share of their sum. -/
theorem percentage_sum (values : List ℚ) (total : ℚ) :
    (values.map (fun v => v / total * 100)).sum = values.sum / total * 100 := by
  induction values with
  | nil => simp
  | cons v rest ih =>
    rw [List.map_cons, List.sum_cons, ih, List.sum_cons]
    ring

/-- A percentage is never an infinity or NaN when the counter is finite: the quotient is
formed under a total greater than 0 only. -/
theorem percentage_isFinite (a : Int) (j : Nat) (total : JsNumber) :
    ∃ p : ℚ, percentage (JsNumber.finite a j) total = ExactNumber.finite p := by
  cases total with
  | finite n k =>
    by_cases hn : 0 < n
    · exact ⟨_, percentage_finite a n j k hn⟩
    · exact ⟨0, percentage_not_positive _ _ (by simp [JsNumber.greaterThanZero, hn])⟩
  | infinity negative =>
    cases negative with
    | true => exact ⟨0, percentage_not_positive _ _ rfl⟩
    | false =>
      exact ⟨0 * 100, by simp [percentage, JsNumber.greaterThanZero, jsDivide, timesHundred]⟩
  | nan => exact ⟨0, percentage_not_positive _ _ rfl⟩

/-- The exact values of counters that are natural numbers add up to their sum. -/
theorem value_sum_nat (candidates : List Candidate) (counts : List Nat)
    (hc : candidates.map Candidate.votes = counts.map JsNumber.ofNat) :
    (candidates.map (fun c => c.votes.value)).sum = (counts.sum : ℚ) := by
  induction candidates generalizing counts with
  | nil =>
    cases counts with
    | nil => simp
    | cons k ks => simp at hc
  | cons c rest ih =>
    cases counts with
    | nil => simp at hc
    | cons k ks =>
      simp only [List.map_cons, List.cons.injEq] at hc
      simp only [List.map_cons, List.sum_cons, ih ks hc.2, hc.1]
      simp [JsNumber.ofNat, JsNumber.value]

/-- C28, amended. For an existing election whose counters are finite and non-negative
and whose total is positive and is the exact sum of the counters, every percentage that
`getResults` returns lies between 0 and 100 and the percentages add up to exactly 100
(over exact rationals); the total is the exact sum when the counters are natural numbers
with sum at most `2 ^ 53`. When the total is not greater than 0, in particular when it
is 0, every percentage is 0. The quotient is only formed under a total greater than 0:
with finite counters no percentage is an infinity or NaN, for every candidate list, and
for an election without candidates the answer has total 0 and no entries. -/
theorem getResults_percentages (db : DbFaults) (id : Nat) (s : Store) (election : Election)
    (hfind : db.findElection = false) (hel : s.elections[id]? = some election) :
    ∃ summary entries,
      getResults db id s = (ResultsResponse.results summary entries, s) ∧
      summary.totalVotes = totalVotes election.candidates ∧
      entries = candidateResults election.candidates ∧
      ((∀ c ∈ election.candidates, ∃ (a : Int) (j : Nat),
          c.votes = JsNumber.finite a j ∧ 0 ≤ a) →
        ∀ (n : Int) (k : Nat), summary.totalVotes = JsNumber.finite n k → 0 < n →
        (election.candidates.map (fun c => c.votes.value)).sum = (n : ℚ) / 2 ^ k →
        ∃ percentages : List ℚ,
          entries.map CandidateResult.percentage = percentages.map ExactNumber.finite ∧
          (∀ p ∈ percentages, 0 ≤ p ∧ p ≤ 100) ∧ percentages.sum = 100) ∧
      (∀ counts : List Nat,
        election.candidates.map Candidate.votes = counts.map JsNumber.ofNat →
        counts.sum ≤ 2 ^ 53 →
        summary.totalVotes = JsNumber.finite (counts.sum : Int) 0 ∧
        (election.candidates.map (fun c => c.votes.value)).sum =
          ((counts.sum : Int) : ℚ) / 2 ^ 0) ∧
      (summary.totalVotes.greaterThanZero = false →
        ∀ r ∈ entries, r.percentage = ExactNumber.finite 0) ∧
      (summary.totalVotes = 0 → ∀ r ∈ entries, r.percentage = ExactNumber.finite 0) ∧
      ((∀ c ∈ election.candidates, ∃ (a : Int) (j : Nat), c.votes = JsNumber.finite a j) →
        ∀ r ∈ entries, ∃ p : ℚ, r.percentage = ExactNumber.finite p) ∧
      (election.candidates = [] → summary.totalVotes = 0 ∧ entries = []) := by
  refine ⟨_, _, by simp only [getResults, hfind, hel]; rfl, rfl, rfl, ?_, ?_, ?_, ?_, ?_, ?_⟩
  · intro hfin n k htotal hpos hexact
    have htotal2 : totalVotes election.candidates = JsNumber.finite n k := htotal
    have hq : (0 : ℚ) < (n : ℚ) / 2 ^ k := by
      apply div_pos
      · exact_mod_cast hpos
      · positivity
    refine ⟨election.candidates.map (fun c => c.votes.value / ((n : ℚ) / 2 ^ k) * 100),
      ?_, ?_, ?_⟩
    · simp only [candidateResults, List.map_map, htotal2]
      apply List.map_congr_left
      intro c hc
      obtain ⟨a, j, ha, _⟩ := hfin c hc
      simp only [Function.comp_apply, ha, JsNumber.value]
      exact percentage_finite a n j k hpos
    · intro p hp
      simp only [List.mem_map] at hp
      obtain ⟨c, hc, hpc⟩ := hp
      subst hpc
      have hnonneg : ∀ x ∈ election.candidates.map (fun c => c.votes.value), 0 ≤ x := by
        intro x hx
        simp only [List.mem_map] at hx
        obtain ⟨d, hd, hxd⟩ := hx
        subst hxd
        obtain ⟨a, j, ha, ha0⟩ := hfin d hd
        simp only [ha, JsNumber.value]
        apply div_nonneg
        · exact_mod_cast ha0
        · positivity
      have hmem : c.votes.value ∈ election.candidates.map (fun c => c.votes.value) :=
        List.mem_map.mpr ⟨c, hc, rfl⟩
      have h0 : 0 ≤ c.votes.value := hnonneg _ hmem
      have hle : c.votes.value ≤ (n : ℚ) / 2 ^ k := by
        rw [← hexact]
        exact List.single_le_sum hnonneg _ hmem
      constructor
      · positivity
      · have h1 : c.votes.value / ((n : ℚ) / 2 ^ k) ≤ 1 := (div_le_one hq).mpr hle
        linarith
    · have hmap : election.candidates.map
          (fun c => c.votes.value / ((n : ℚ) / 2 ^ k) * 100) =
          (election.candidates.map (fun c => c.votes.value)).map
            (fun v => v / ((n : ℚ) / 2 ^ k) * 100) := by
        simp [List.map_map, Function.comp_def]
      rw [hmap, percentage_sum, hexact]
      field_simp
  · intro counts hcounts hbound
    constructor
    · exact totalVotes_nat election.candidates counts hcounts hbound
    · rw [value_sum_nat election.candidates counts hcounts, pow_zero, div_one,
        Int.cast_natCast]
  · intro h0 r hr
    simp only [candidateResults, List.mem_map] at hr
    obtain ⟨c, _, hrc⟩ := hr
    subst hrc
    exact percentage_not_positive _ _ h0
  · intro h0 r hr
    have h0b : totalVotes election.candidates = 0 := h0
    simp only [candidateResults, List.mem_map] at hr
    obtain ⟨c, _, hrc⟩ := hr
    subst hrc
    rw [h0b]
    exact percentage_not_positive c.votes 0 (by decide)
  · intro hfin r hr
    simp only [candidateResults, List.mem_map] at hr
    obtain ⟨c, hc, hrc⟩ := hr
    subst hrc
    obtain ⟨a, j, ha⟩ := hfin c hc
    simp only [ha]
    exact percentage_isFinite a j _
  · intro hnil
    simp [hnil, totalVotes, candidateResults]

/-- Witness of C28, amended: the percentages of the tally election add up to 100. -/
theorem getResults_percentages_witness :
    ∃ percentages : List ℚ,
      (candidateResults tallyElection.candidates).map CandidateResult.percentage =
        percentages.map ExactNumber.finite ∧
      (∀ p ∈ percentages, 0 ≤ p ∧ p ≤ 100) ∧ percentages.sum = 100 :=
  match getResults_percentages DbFaults.none 0 tallyStore tallyElection rfl rfl with
  | ⟨_, _, _, h2, h3, h4, h5, _⟩ =>
    h3 ▸ h4
      (fun c hc => by
        simp only [tallyElection, List.mem_cons, List.mem_singleton, List.not_mem_nil,
          or_false] at hc
        rcases hc with hc | hc
        · exact ⟨2, 0, by rw [hc]; rfl, by decide⟩
        · exact ⟨1, 0, by rw [hc]; rfl, by decide⟩)
      3 0 (h2 ▸ (by decide)) (by decide)
      ((h5 [2, 1] (by decide) (by decide)).2.trans (by norm_num))

/-- C28, counterexample. An election created with the counters `2 ^ 53` and 1, both
non-negative, has the positive total `2 ^ 53` in `getResults`, and the percentages
returned are 100 and `100 / 2 ^ 53`, which add up to more than 100. -/
theorem getResults_percentages_counterexample :
    (getResults DbFaults.none 0
        (createElection DbFaults.none 0
          { sampleBody with
            candidates := [{ name := some "A", description := none,
                             votes := some (JsNumber.ofInt 9007199254740992) },
                           { name := some "B", description := none,
                             votes := some (JsNumber.ofInt 1) }] }
          emptyStore).2).1 =
      ResultsResponse.results
        { id := 0, title := "Board", description := "Board election",
          status := ElectionStatus.pending,
          totalVotes := JsNumber.ofInt 9007199254740992 }
        [{ name := "A", description := none, votes := JsNumber.ofInt 9007199254740992,
           percentage := ExactNumber.finite 100 },
         { name := "B", description := none, votes := JsNumber.ofInt 1,
           percentage := ExactNumber.finite (100 / 9007199254740992) }] ∧
    (100 : ℚ) + 100 / 9007199254740992 ≠ 100 := by
  have hstore : (createElection DbFaults.none 0
      { sampleBody with
        candidates := [{ name := some "A", description := none,
                         votes := some (JsNumber.ofInt 9007199254740992) },
                       { name := some "B", description := none,
                         votes := some (JsNumber.ofInt 1) }] }
      emptyStore).2 =
      { elections := [{ sampleElection with
          candidates := [{ name := "A", description := none,
                           votes := JsNumber.ofInt 9007199254740992 },
                         { name := "B", description := none,
                           votes := JsNumber.ofInt 1 }] }],
        votes := [], voters := [] } := by decide
  have htotal : totalVotes [Candidate.mk "A" none (JsNumber.ofInt 9007199254740992),
      Candidate.mk "B" none (JsNumber.ofInt 1)] = JsNumber.ofInt 9007199254740992 := by
    decide
  have hA := percentage_finite 9007199254740992 9007199254740992 0 0 (by decide)
  have hB := percentage_finite 1 9007199254740992 0 0 (by decide)
  constructor
  · rw [hstore]
    simp only [getResults, DbFaults.none, List.getElem?_cons_zero, candidateResults,
      sampleElection, htotal, List.map_cons, List.map_nil]
    simp only [JsNumber.ofInt, hA, hB]
    norm_num
  · norm_num

/-! ## Theorems about the session of `App` -/

/-- C29, the code at the failing input. A `login` with the administrator address
followed by a `login` with another address leaves `isAdmin` true while `userAddress`
is the other address: `login` sets `isAdmin` when the address matches and never clears
it. Only `logout` clears it: it leaves `isAuthenticated` and `isAdmin` false and
`userAddress`, `userName` and the three stored entries empty. -/
theorem app_login_keeps_isAdmin (toLowerCase : String → String) (adminAddress : String)
    (a b ta tb : String) (na nb : Option String) (st : AppState)
    (hadmin : adminAddress ≠ "")
    (ha : toLowerCase a = toLowerCase adminAddress)
    (hb : toLowerCase b ≠ toLowerCase adminAddress) :
    (App.run toLowerCase (some adminAddress)
        [AppCall.login a ta na, AppCall.login b tb nb] st).isAdmin = true ∧
    (App.run toLowerCase (some adminAddress)
        [AppCall.login a ta na, AppCall.login b tb nb] st).userAddress = some b ∧
    (App.run toLowerCase (some adminAddress)
        [AppCall.login a ta na, AppCall.login b tb nb] st).isAuthenticated = true ∧
    (∀ st2 : AppState,
      (App.logout st2).isAuthenticated = false ∧ (App.logout st2).isAdmin = false ∧
      (App.logout st2).userAddress = none ∧ (App.logout st2).userName = none ∧
      (App.logout st2).storage =
        { authToken := none, userAddress := none, userName := none }) := by
  refine ⟨?_, ?_, ?_, ?_⟩
  · simp [App.run, App.login, hadmin, ha, hb]
  · simp [App.run, App.login, hadmin, ha, hb]
  · simp [App.run, App.login, hadmin, ha, hb]
  · intro st2
    simp [App.logout]

/-- Witness of C29: the administrator logs in, then another address logs in. -/
theorem app_login_keeps_isAdmin_witness :
    (App.run sampleLibs.toLowerCase (some "0xABCDEF")
        [AppCall.login "0xabcdef" "t1" none, AppCall.login "0x999999" "t2" none]
        (AppState.initial { authToken := none, userAddress := none,
                            userName := none })).isAdmin = true ∧
    (App.run sampleLibs.toLowerCase (some "0xABCDEF")
        [AppCall.login "0xabcdef" "t1" none, AppCall.login "0x999999" "t2" none]
        (AppState.initial { authToken := none, userAddress := none,
                            userName := none })).userAddress = some "0x999999" :=
  have h := app_login_keeps_isAdmin sampleLibs.toLowerCase "0xABCDEF" "0xabcdef" "0x999999"
    "t1" "t2" none none
    (AppState.initial { authToken := none, userAddress := none, userName := none })
    (by decide) (by decide) (by decide)
  ⟨h.1, h.2.1⟩

end BlockChainReto
